import Mathlib

/-!
# OperatorCondition reconcilers and the install-strategy deployment client

A shallow embedding of `pkg/controller/operators/operatocondition_controller.go`,
`pkg/controller/operators/operatoconditiongenerator_controller.go` and
`pkg/api/wrappers/deployment_install_client.go`, and of the pieces of the Kubernetes
object model they touch, followed by the properties proved about them.

Go slices are embedded as `Slice`, which keeps the difference between the nil
slice and an empty non-nil slice. Store calls are embedded by explicit state
passing over a client structure; a `recording` variant of each client threads a log of
the calls issued, so that statements can speak of which calls a routine makes.
-/

namespace OLM

/-! ## Go slices -/

/-- A Go slice value: `Slice.nil` is the nil slice, `Slice.mk xs` a non-nil slice
holding `xs` (so `Slice.mk []` is the empty, non-nil slice). -/
inductive Slice (α : Type) where
  | nil : Slice α
  | mk (elems : List α) : Slice α
  deriving DecidableEq, Repr

namespace Slice

variable {α : Type}

/-- The elements a `range` loop visits, in order. -/
def toList : Slice α → List α
  | Slice.nil => []
  | Slice.mk xs => xs

/-- Go `len(s)`. -/
def len (s : Slice α) : Nat := s.toList.length

/-- Go `append(s, x)`: always a non-nil slice. -/
def append (s : Slice α) (x : α) : Slice α := Slice.mk (s.toList ++ [x])

/-- Go `s == nil`. -/
def isNil : Slice α → Bool
  | Slice.nil => true
  | Slice.mk _ => false

end Slice

/-! ## Object model (the fields of the Kubernetes types the code reads or writes) -/

/-- The metav1.OwnerReference type. -/
structure OwnerReference where
  APIVersion : String := ""
  Kind : String := ""
  Name : String := ""
  UID : String := ""
  Controller : Option Bool := none
  BlockOwnerDeletion : Option Bool := none
  deriving DecidableEq, Repr

/-- The metav1.ObjectMeta type; every object is seen through it by `metav1.Object`. -/
structure ObjectMeta where
  Name : String := ""
  GenerateName : String := ""
  Namespace : String := ""
  UID : String := ""
  ResourceVersion : String := ""
  Labels : List (String × String) := []
  OwnerReferences : Slice OwnerReference := Slice.nil
  deriving DecidableEq, Repr

/-- The corev1.ServiceAccount type. -/
structure ServiceAccount where
  ObjectMeta : ObjectMeta := {}
  Secrets : Slice String := Slice.nil
  deriving DecidableEq, Repr

/-- The corev1.EnvVar type; `ValueFrom` stands for the optional source reference. -/
structure EnvVar where
  Name : String := ""
  Value : String := ""
  ValueFrom : Option String := none
  deriving DecidableEq, Repr

/-- The corev1.Container type. -/
structure Container where
  Name : String := ""
  Image : String := ""
  Env : Slice EnvVar := Slice.nil
  deriving DecidableEq, Repr

/-- The corev1.PodSpec type. -/
structure PodSpec where
  Containers : Slice Container := Slice.nil
  deriving DecidableEq, Repr

/-- The corev1.PodTemplateSpec type. -/
structure PodTemplateSpec where
  Spec : PodSpec := {}
  deriving DecidableEq, Repr

/-- The appsv1.DeploymentSpec type. -/
structure DeploymentSpec where
  Replicas : Option Int := none
  Template : PodTemplateSpec := {}
  deriving DecidableEq, Repr

/-- The appsv1.Deployment type. -/
structure Deployment where
  ObjectMeta : ObjectMeta := {}
  Spec : DeploymentSpec := {}
  deriving DecidableEq, Repr

/-! ## Ownership matcher and collection filter -/

/-- Modelled from the spec: `ownerutil.HasOwnerReference` (pkg/lib/ownerutil/util.go is
not among the sources, only its test is). Section 4.1: true iff the object's
owner-reference list contains an entry with identical name, kind and unique id; an
absent or empty list does not match. -/
def HasOwnerReference (object : ObjectMeta) (owner : OwnerReference) : Bool :=
  object.OwnerReferences.toList.any
    (fun ref => ref.Name == owner.Name && ref.Kind == owner.Kind && ref.UID == owner.UID)

/-- The closure returned by `hasOwnerFunc`. -/
def hasOwnerFunc (ownerReference : OwnerReference) : ObjectMeta → Bool :=
  fun object =>
    if HasOwnerReference object ownerReference then
      true
    else
      false

/-- The loop of `filterServiceAccounts`: start from the empty non-nil slice and append
every element the predicate accepts. -/
def filterServiceAccounts (serviceAccounts : Slice ServiceAccount) (f : ObjectMeta → Bool) :
    Slice ServiceAccount :=
  serviceAccounts.toList.foldl
    (fun filteredServiceAccounts serviceAccount =>
      if f serviceAccount.ObjectMeta then
        filteredServiceAccounts.append serviceAccount
      else
        filteredServiceAccounts)
    (Slice.mk [])

/-- The loop of `filterDeployments`. -/
def filterDeployments (deployments : Slice Deployment) (f : ObjectMeta → Bool) :
    Slice Deployment :=
  deployments.toList.foldl
    (fun filteredDeployments deployment =>
      if f deployment.ObjectMeta then
        filteredDeployments.append deployment
      else
        filteredDeployments)
    (Slice.mk [])

/-! ## Env-injection merger -/

/-- The body of the `for i := range envVars` loop of `ensureEnvVar`, on the pair
`(result, found)`. -/
def ensureEnvVarStep (envVar : EnvVar) (st : Slice EnvVar × Bool) (e : EnvVar) :
    Slice EnvVar × Bool :=
  if e.Name ≠ envVar.Name then
    (st.1.append e, st.2)
  else
    (st.1.append envVar, true)

/-- The `ensureEnvVar` function. -/
def ensureEnvVar (envVar : EnvVar) (envVars : Slice EnvVar) : Slice EnvVar :=
  if envVars.len = 0 then
    Slice.mk [envVar]
  else
    let st := envVars.toList.foldl (ensureEnvVarStep envVar) (Slice.mk [], false)
    if !st.2 then
      st.1.append envVar
    else
      st.1

/-! ## RBAC objects and the store client -/

/-- The metav1.StatusReason values the code tells apart. -/
inductive StatusReason where
  | AlreadyExists
  | NotFound
  | Conflict
  | Unknown
  deriving DecidableEq, Repr

/-- A Go `error` value returned by a store call. -/
structure Error where
  Reason : StatusReason := StatusReason.Unknown
  Message : String := ""
  deriving DecidableEq, Repr

/-- The `k8serrors.IsAlreadyExists` test. -/
def IsAlreadyExists (err : Error) : Bool :=
  err.Reason == StatusReason.AlreadyExists

/-- The `client.ObjectKey` type. -/
structure ObjectKey where
  Namespace : String := ""
  Name : String := ""
  deriving DecidableEq, Repr

/-- The rbacv1.PolicyRule type. -/
structure PolicyRule where
  Verbs : Slice String := Slice.nil
  APIGroups : Slice String := Slice.nil
  Resources : Slice String := Slice.nil
  ResourceNames : Slice String := Slice.nil
  deriving DecidableEq, Repr

/-- The rbacv1.Role type. -/
structure Role where
  ObjectMeta : ObjectMeta := {}
  Rules : Slice PolicyRule := Slice.nil
  deriving DecidableEq, Repr

/-- The rbacv1.Subject type. -/
structure Subject where
  Kind : String := ""
  APIGroup : String := ""
  Name : String := ""
  Namespace : String := ""
  deriving DecidableEq, Repr

/-- The rbacv1.RoleRef type. -/
structure RoleRef where
  APIGroup : String := ""
  Kind : String := ""
  Name : String := ""
  deriving DecidableEq, Repr

/-- The rbacv1.RoleBinding type. -/
structure RoleBinding where
  ObjectMeta : ObjectMeta := {}
  Subjects : Slice Subject := Slice.nil
  RoleRef : RoleRef := {}
  deriving DecidableEq, Repr

/-- The operatorsv1.OperatorCondition type, as far as the RBAC routine reads it. -/
structure OperatorCondition where
  ObjectMeta : ObjectMeta := {}
  deriving DecidableEq, Repr

/-- The constant `rbacv1.ServiceAccountKind`. -/
def ServiceAccountKind : String := "ServiceAccount"

/-- The calls of `client.Client` that `ensureOperatorConditionRole` issues, one field per
call and object type, as state-passing functions over a store state `σ`. Each call
returns its result (an error, or the object read) and the next state. `Create` is taken
to leave the name and namespace of the object passed to it as they are. -/
structure Client (σ : Type) where
  ListServiceAccounts : String → σ → Except Error (Slice ServiceAccount) × σ
  CreateRole : Role → σ → Option Error × σ
  GetRole : ObjectKey → σ → Except Error Role × σ
  UpdateRole : Role → σ → Option Error × σ
  CreateRoleBinding : RoleBinding → σ → Option Error × σ
  GetRoleBinding : ObjectKey → σ → Except Error RoleBinding × σ
  UpdateRoleBinding : RoleBinding → σ → Option Error × σ

/-! ## RBAC convergence routine -/

/-- The loop building `subjects` (lines 102-109): one subject per filtered account. -/
def buildSubjects (serviceAccounts : Slice ServiceAccount) : Slice Subject :=
  serviceAccounts.toList.foldl
    (fun subjects serviceAccount =>
      subjects.append
        { Kind := ServiceAccountKind, Name := serviceAccount.ObjectMeta.Name, APIGroup := "" })
    (Slice.mk [])

/-- The `role` literal (lines 111-131). -/
def desiredRole (operatorCondition : OperatorCondition) (ownerReference : OwnerReference) :
    Role :=
  { ObjectMeta :=
      { Name := operatorCondition.ObjectMeta.Name
        Namespace := operatorCondition.ObjectMeta.Namespace
        OwnerReferences := Slice.mk [ownerReference] }
    Rules := Slice.mk
      [ { Verbs := Slice.mk ["get"]
          APIGroups := Slice.mk ["operators.coreos.com"]
          Resources := Slice.mk ["operatorconditions"]
          ResourceNames := Slice.mk [operatorCondition.ObjectMeta.Name] },
        { Verbs := Slice.mk ["get,update,patch"]
          APIGroups := Slice.mk ["operators.coreos.com"]
          Resources := Slice.mk ["operatorconditions/status"]
          ResourceNames := Slice.mk [operatorCondition.ObjectMeta.Name] } ] }

/-- The `roleBinding` literal (lines 154-166). -/
def desiredRoleBinding (operatorCondition : OperatorCondition)
    (ownerReference : OwnerReference) (role : Role) (subjects : Slice Subject) : RoleBinding :=
  { ObjectMeta :=
      { Name := operatorCondition.ObjectMeta.Name
        Namespace := operatorCondition.ObjectMeta.Namespace
        OwnerReferences := Slice.mk [ownerReference] }
    Subjects := subjects
    RoleRef :=
      { Kind := "Role"
        Name := role.ObjectMeta.Name
        APIGroup := "rbac.authorization.k8s.io" } }

/-- The create-else-update block for the Role (lines 132-152): `none` when the block
falls through, `some err` when it returns `err`. -/
def ensureRole {σ : Type} (c : Client σ) (role : Role) (s : σ) : Option Error × σ :=
  match c.CreateRole role s with
  | (none, s1) => (none, s1)
  | (some err, s1) =>
    if !IsAlreadyExists err then
      (some err, s1)
    else
      match c.GetRole { Name := role.ObjectMeta.Name, Namespace := role.ObjectMeta.Namespace } s1 with
      | (Except.error err, s2) => (some err, s2)
      | (Except.ok existingRole, s2) =>
        let existingRole : Role :=
          { existingRole with
            ObjectMeta :=
              { existingRole.ObjectMeta with OwnerReferences := role.ObjectMeta.OwnerReferences } }
        let existingRole : Role := { existingRole with Rules := role.Rules }
        match c.UpdateRole existingRole s2 with
        | (some err, s3) => (some err, s3)
        | (none, s3) => (none, s3)

/-- The create-else-update block for the RoleBinding (lines 167-184). -/
def ensureRoleBinding {σ : Type} (c : Client σ) (roleBinding : RoleBinding) (s : σ) :
    Option Error × σ :=
  match c.CreateRoleBinding roleBinding s with
  | (none, s1) => (none, s1)
  | (some err, s1) =>
    if !IsAlreadyExists err then
      (some err, s1)
    else
      match c.GetRoleBinding
          { Name := roleBinding.ObjectMeta.Name, Namespace := roleBinding.ObjectMeta.Namespace }
          s1 with
      | (Except.error err, s2) => (some err, s2)
      | (Except.ok existingRoleBinding, s2) =>
        let existingRoleBinding : RoleBinding :=
          { existingRoleBinding with
            ObjectMeta :=
              { existingRoleBinding.ObjectMeta with
                OwnerReferences := roleBinding.ObjectMeta.OwnerReferences } }
        let existingRoleBinding : RoleBinding :=
          { existingRoleBinding with Subjects := roleBinding.Subjects }
        let existingRoleBinding : RoleBinding :=
          { existingRoleBinding with RoleRef := roleBinding.RoleRef }
        match c.UpdateRoleBinding existingRoleBinding s2 with
        | (some err, s3) => (some err, s3)
        | (none, s3) => (none, s3)

/-- The `ensureOperatorConditionRole` method: the returned error (`none` for nil) and the
store state it leaves. -/
def ensureOperatorConditionRole {σ : Type} (c : Client σ)
    (operatorCondition : OperatorCondition) (ownerReference : OwnerReference) (s : σ) :
    Option Error × σ :=
  match c.ListServiceAccounts operatorCondition.ObjectMeta.Namespace s with
  | (Except.error err, s1) => (some err, s1)
  | (Except.ok items, s1) =>
    let subjects := buildSubjects (filterServiceAccounts items (hasOwnerFunc ownerReference))
    let role := desiredRole operatorCondition ownerReference
    match ensureRole c role s1 with
    | (some err, s2) => (some err, s2)
    | (none, s2) =>
      let roleBinding := desiredRoleBinding operatorCondition ownerReference role subjects
      ensureRoleBinding c roleBinding s2

/-! ## Owner helpers of `ownerutil` -/

/-- The view `ownerutil.Owner` gives of an owning object: its name, its uid and its
group-version-kind. -/
structure Owner where
  APIVersion : String := ""
  Kind : String := ""
  Name : String := ""
  UID : String := ""
  deriving DecidableEq, Repr

/-- Modelled from the spec: `ownerutil.IsOwnedBy` (pkg/lib/ownerutil/util.go is not among
the sources). Section 3: an object is owned by O iff its owner-reference list contains an
entry equal to O on name, kind and unique id. -/
def IsOwnedBy (object : ObjectMeta) (owner : Owner) : Bool :=
  object.OwnerReferences.toList.any
    (fun ref => ref.Name == owner.Name && ref.Kind == owner.Kind && ref.UID == owner.UID)

/-- Modelled from the spec: `ownerutil.NonBlockingOwner` (not among the sources), the
non-blocking owner reference to `owner` of sections 4.6 and 4.7: it names the owner and
neither blocks the deletion of the owner nor marks it as controller. -/
def NonBlockingOwner (owner : Owner) : OwnerReference :=
  { APIVersion := owner.APIVersion
    Kind := owner.Kind
    Name := owner.Name
    UID := owner.UID
    Controller := some false
    BlockOwnerDeletion := some false }

/-- Modelled from the spec: `ownerutil.AddNonBlockingOwner` (not among the sources).
Section 4.6: the ownership reference is added non-destructively, the existing owner list
is preserved and the new entry appended. -/
def AddNonBlockingOwner (object : ObjectMeta) (owner : Owner) : ObjectMeta :=
  { object with OwnerReferences := object.OwnerReferences.append (NonBlockingOwner owner) }

/-- Modelled from the spec: `ownerutil.GetOwnerByKind` (not among the sources). Section
4.7: the owner of the given kind among the owner references, absent when there is none. -/
def GetOwnerByKind (object : ObjectMeta) (ownerKind : String) : Option OwnerReference :=
  object.OwnerReferences.toList.find? (fun ref => ref.Kind == ownerKind)

/-! ## The OperatorCondition reconciler -/

/-- The `ctrl.Result` type. -/
structure Result where
  Requeue : Bool := false
  deriving DecidableEq, Repr

/-- The constant `operatorsv1alpha1.ClusterServiceVersionKind`. -/
def ClusterServiceVersionKind : String := "ClusterServiceVersion"

/-- The constant `OperatorConditionEnvVarKey`. -/
def OperatorConditionEnvVarKey : String := "OPERATOR_CONDITION_NAME"

/-- The calls of `client.Client` that `OperatorConditionReconciler` issues: those of the
RBAC routine and three more. -/
structure ReconcileClient (σ : Type) extends Client σ where
  GetOperatorCondition : ObjectKey → σ → Except Error OperatorCondition × σ
  ListDeployments : String → σ → Except Error (Slice Deployment) × σ
  UpdateDeployment : Deployment → σ → Option Error × σ

/-- Go `for i := range s { s[i] = f(s[i]) }`: the elements are rewritten in place, a nil
slice stays nil. -/
def Slice.mapInPlace {α : Type} (f : α → α) : Slice α → Slice α
  | Slice.nil => Slice.nil
  | Slice.mk xs => Slice.mk (xs.map f)

/-- The inner loop of `ensureDeploymentEnvVars` (lines 219-221) on one deployment. -/
def setConditionEnvVar (operatorCondition : OperatorCondition) (deployment : Deployment) :
    Deployment :=
  { deployment with
    Spec :=
      { deployment.Spec with
        Template :=
          { deployment.Spec.Template with
            Spec :=
              { deployment.Spec.Template.Spec with
                Containers :=
                  deployment.Spec.Template.Spec.Containers.mapInPlace
                    (fun container =>
                      { container with
                        Env :=
                          ensureEnvVar
                            { Name := OperatorConditionEnvVarKey,
                              Value := operatorCondition.ObjectMeta.Name }
                            container.Env }) } } } }

/-- The outer loop of `ensureDeploymentEnvVars` (lines 218-226) over the filtered
deployments still to visit. -/
def ensureDeploymentEnvVarsLoop {σ : Type} (c : ReconcileClient σ)
    (operatorCondition : OperatorCondition) : List Deployment → σ → Option Error × σ
  | [], s => (none, s)
  | deployment :: rest, s =>
    match c.UpdateDeployment (setConditionEnvVar operatorCondition deployment) s with
    | (some err, s1) => (some err, s1)
    | (none, s1) => ensureDeploymentEnvVarsLoop c operatorCondition rest s1

/-- The `ensureDeploymentEnvVars` method. -/
def ensureDeploymentEnvVars {σ : Type} (c : ReconcileClient σ)
    (operatorCondition : OperatorCondition) (ownerReference : OwnerReference) (s : σ) :
    Option Error × σ :=
  match c.ListDeployments operatorCondition.ObjectMeta.Namespace s with
  | (Except.error err, s1) => (some err, s1)
  | (Except.ok items, s1) =>
    ensureDeploymentEnvVarsLoop c operatorCondition
      (filterDeployments items (hasOwnerFunc ownerReference)).toList s1

/-- The error `fmt.Errorf("No CSV Owner specified")`. -/
def errNoCSVOwner : Error := { Message := "No CSV Owner specified" }

/-- The `OperatorConditionReconciler.Reconcile` method: the result, the returned error
(`none` for nil) and the store state it leaves. -/
def OperatorConditionReconciler.Reconcile {σ : Type} (c : ReconcileClient σ)
    (req : ObjectKey) (s : σ) : (Result × Option Error) × σ :=
  match c.GetOperatorCondition req s with
  | (Except.error err, s1) => (({}, some err), s1)
  | (Except.ok operatorCondition, s1) =>
    match GetOwnerByKind operatorCondition.ObjectMeta ClusterServiceVersionKind with
    | none => (({}, some errNoCSVOwner), s1)
    | some ownerReference =>
      match ensureOperatorConditionRole c.toClient operatorCondition ownerReference s1 with
      | (some err, s2) => (({ Requeue := true }, some err), s2)
      | (none, s2) =>
        match ensureDeploymentEnvVars c operatorCondition ownerReference s2 with
        | (some err, s3) => (({ Requeue := true }, some err), s3)
        | (none, s3) => (({}, none), s3)

/-! ## The OperatorCondition generator -/

/-- The operatorsv1.Operator type, as far as the generator reads it. -/
structure Operator where
  ObjectMeta : ObjectMeta := {}
  deriving DecidableEq, Repr

/-- The operatorsv1alpha1.ClusterServiceVersion type, as far as the generator reads it. -/
structure ClusterServiceVersion where
  ObjectMeta : ObjectMeta := {}
  deriving DecidableEq, Repr

/-- The owner view of a ClusterServiceVersion. -/
def ClusterServiceVersion.asOwner (csv : ClusterServiceVersion) : Owner :=
  { APIVersion := "operators.coreos.com/v1alpha1"
    Kind := ClusterServiceVersionKind
    Name := csv.ObjectMeta.Name
    UID := csv.ObjectMeta.UID }

/-- Modelled from the spec: the decorated operator of package `decorators`, which is not
among the sources. Sections 3 and 4.7: the conditions of an operator are discovered via a
label selector derived from the owner, and a condition the generator creates is labelled
with the component label key (line 108) so that this selector finds it. The model keeps
what the generator uses: the component label key, which may fail, and the derivation of
the selector on that key, which may fail too. -/
structure DecoratedOperator where
  ComponentLabelKey : Except Error String
  selectorOn : String → Except Error String

/-- Modelled from the spec: the `ComponentSelector` method of the decorated operator, the
label selector derived from the component label key; it is obtained only when the key
is. -/
def DecoratedOperator.ComponentSelector (operator : DecoratedOperator) :
    Except Error String :=
  match operator.ComponentLabelKey with
  | Except.error err => Except.error err
  | Except.ok labelKey => operator.selectorOn labelKey

/-- The calls of `client.Client` that `OperatorConditionGenReconciler` issues. -/
structure GenClient (σ : Type) where
  GetOperator : ObjectKey → σ → Except Error Operator × σ
  ListOperatorConditions : String → σ → Except Error (Slice OperatorCondition) × σ
  ListClusterServiceVersions : String → σ → Except Error (Slice ClusterServiceVersion) × σ
  CreateOperatorCondition : OperatorCondition → σ → Option Error × σ

/-- The OperatorCondition the generator builds for a CSV (lines 104-112). -/
def newOperatorCondition (csv : ClusterServiceVersion) (labelKey : String) :
    OperatorCondition :=
  let operatorCondition : OperatorCondition :=
    { ObjectMeta :=
        { GenerateName := csv.ObjectMeta.Name ++ "-"
          Namespace := csv.ObjectMeta.Namespace
          Labels := [(labelKey, "")] } }
  { operatorCondition with
    ObjectMeta := AddNonBlockingOwner operatorCondition.ObjectMeta csv.asOwner }

/-- The `OperatorConditionGenReconciler.Reconcile` method; `factory` stands for
`r.factory.NewOperator`. -/
def OperatorConditionGenReconciler.Reconcile {σ : Type} (c : GenClient σ)
    (factory : Operator → Except Error DecoratedOperator) (req : ObjectKey) (s : σ) :
    (Result × Option Error) × σ :=
  match c.GetOperator req s with
  | (Except.error err, s1) => (({}, some err), s1)
  | (Except.ok input, s1) =>
    match factory input with
    | Except.error _ => (({ Requeue := true }, none), s1)
    | Except.ok operator =>
      match operator.ComponentSelector with
      | Except.error _ => (({ Requeue := true }, none), s1)
      | Except.ok selector =>
        match c.ListOperatorConditions selector s1 with
        | (Except.error err, s2) => (({}, some err), s2)
        | (Except.ok operatorConditionList, s2) =>
          if operatorConditionList.len = 0 then
            match c.ListClusterServiceVersions selector s2 with
            | (Except.error err, s3) => (({}, some err), s3)
            | (Except.ok csvList, s3) =>
              match csvList.toList with
              | [csv] =>
                match operator.ComponentLabelKey with
                | Except.error err => (({}, some err), s3)
                | Except.ok labelKey =>
                  match c.CreateOperatorCondition (newOperatorCondition csv labelKey) s3 with
                  | (some err, s4) => (({}, some err), s4)
                  | (none, s4) => (({}, none), s4)
              | _ => (({}, none), s3)
          else
            (({}, none), s2)

/-! ## The install-strategy deployment client (package `wrappers`) -/

/-- The `apierrors.IsNotFound` test. -/
def IsNotFound (err : Error) : Bool :=
  err.Reason == StatusReason.NotFound

/-- The error `ErrNilObject`. -/
def ErrNilObject : Error := { Message := "Bad object supplied: <nil>" }

/-- The `errors.Wrap` call of github.com/pkg/errors: the message gets the context in
front, the cause stays the wrapped error. -/
def Wrap (err : Error) (message : String) : Error :=
  { err with Message := message ++ ": " ++ err.Message }

/-- The calls of `operatorclient.ClientInterface` the wrapper issues, as state-passing
functions; a call returns either an object or an error. `KubernetesDeploymentsUpdate`
stands for `KubernetesInterface().AppsV1().Deployments(ns).Update`. -/
structure ClientInterface (σ : Type) where
  GetDeployment : String → String → σ → Except Error Deployment × σ
  CreateDeployment : Deployment → σ → Except Error Deployment × σ
  KubernetesDeploymentsUpdate : String → Deployment → σ → Except Error Deployment × σ
  CreateServiceAccount : ServiceAccount → σ → Except Error ServiceAccount × σ
  UpdateServiceAccount : ServiceAccount → σ → Except Error ServiceAccount × σ

/-- The calls of `operatorlister.OperatorLister` the wrapper issues: `ServiceAccountGet`
stands for `CoreV1().ServiceAccountLister().ServiceAccounts(ns).Get(name)` and
`DeploymentGet` for `AppsV1().DeploymentLister().Deployments(ns).Get(name)`. -/
structure OperatorLister (σ : Type) where
  ServiceAccountGet : String → String → σ → Except Error ServiceAccount × σ
  DeploymentGet : String → String → σ → Except Error Deployment × σ

/-- The `InstallStrategyDeploymentClientForNamespace` type. -/
structure InstallStrategyDeploymentClientForNamespace (σ : Type) where
  opClient : ClientInterface σ
  opLister : OperatorLister σ
  Namespace : String

/-- A Go result pair `(object, error)` made from a call result. -/
def goResult {α : Type} : Except Error α → Option α × Option Error
  | Except.ok a => (some a, none)
  | Except.error err => (none, some err)

namespace InstallStrategyDeploymentClientForNamespace

variable {σ : Type}

/-- The `CreateDeployment` method. -/
def CreateDeployment (c : InstallStrategyDeploymentClientForNamespace σ)
    (deployment : Deployment) (s : σ) : (Option Deployment × Option Error) × σ :=
  let r := c.opClient.CreateDeployment deployment s
  (goResult r.1, r.2)

/-- The `CreateOrUpdateDeployment` method. -/
def CreateOrUpdateDeployment (c : InstallStrategyDeploymentClientForNamespace σ)
    (deployment : Deployment) (s : σ) : (Option Deployment × Option Error) × σ :=
  match c.opClient.GetDeployment deployment.ObjectMeta.Namespace deployment.ObjectMeta.Name s with
  | (Except.error err, s1) =>
    if !IsNotFound err then
      ((none, some err), s1)
    else
      match c.CreateDeployment deployment s1 with
      | ((_, some err), s2) => ((none, some err), s2)
      | ((created, none), s2) => ((created, none), s2)
  | (Except.ok _, s1) =>
    let r := c.opClient.KubernetesDeploymentsUpdate deployment.ObjectMeta.Namespace deployment s1
    (goResult r.1, r.2)

/-- The `EnsureServiceAccount` method; the pointer argument may be nil (`none`). -/
def EnsureServiceAccount (c : InstallStrategyDeploymentClientForNamespace σ)
    (serviceAccount : Option ServiceAccount) (owner : Owner) (s : σ) :
    (Option ServiceAccount × Option Error) × σ :=
  match serviceAccount with
  | none => ((none, some ErrNilObject), s)
  | some serviceAccount =>
    match c.opLister.ServiceAccountGet c.Namespace serviceAccount.ObjectMeta.Name s with
    | (Except.error err, s1) =>
      if !IsNotFound err then
        ((none, some (Wrap err "checking for existing serviceacccount failed")), s1)
      else
        let serviceAccount : ServiceAccount :=
          { serviceAccount with
            ObjectMeta := { serviceAccount.ObjectMeta with Namespace := c.Namespace } }
        match c.opClient.CreateServiceAccount serviceAccount s1 with
        | (Except.error err, s2) =>
          if !IsAlreadyExists err then
            ((none, some (Wrap err "creating serviceacccount failed")), s2)
          else
            ((some serviceAccount, none), s2)
        | (Except.ok createdAccount, s2) => ((some createdAccount, none), s2)
    | (Except.ok foundAccount, s1) =>
      if IsOwnedBy foundAccount.ObjectMeta owner then
        ((some foundAccount, none), s1)
      else
        let foundAccount : ServiceAccount :=
          { foundAccount with ObjectMeta := AddNonBlockingOwner foundAccount.ObjectMeta owner }
        let r := c.opClient.UpdateServiceAccount foundAccount s1
        (goResult r.1, r.2)

/-- The loop of `FindAnyDeploymentsMatchingNames` over the names still to look up, with
the deployments collected so far. -/
def FindAnyDeploymentsMatchingNamesLoop (c : InstallStrategyDeploymentClientForNamespace σ) :
    List String → Slice Deployment → σ → (Slice Deployment × Option Error) × σ
  | [], deployments, s => ((deployments, none), s)
  | depName :: rest, deployments, s =>
    match c.opLister.DeploymentGet c.Namespace depName s with
    | (Except.ok fetchedDep, s1) =>
      FindAnyDeploymentsMatchingNamesLoop c rest (deployments.append fetchedDep) s1
    | (Except.error err, s1) =>
      if !IsNotFound err then
        ((deployments, some err), s1)
      else
        FindAnyDeploymentsMatchingNamesLoop c rest deployments s1

/-- The `FindAnyDeploymentsMatchingNames` method: the collection starts as the nil
slice. -/
def FindAnyDeploymentsMatchingNames (c : InstallStrategyDeploymentClientForNamespace σ)
    (depNames : Slice String) (s : σ) : (Slice Deployment × Option Error) × σ :=
  FindAnyDeploymentsMatchingNamesLoop c depNames.toList Slice.nil s

end InstallStrategyDeploymentClientForNamespace

/-- A call of the wrapper to its client or lister, with its arguments and its result. -/
inductive OpEvent where
  | GetDeployment (ns name : String) (res : Except Error Deployment)
  | CreateDeployment (deployment : Deployment) (res : Except Error Deployment)
  | KubernetesDeploymentsUpdate (ns : String) (deployment : Deployment)
      (res : Except Error Deployment)
  | CreateServiceAccount (serviceAccount : ServiceAccount) (res : Except Error ServiceAccount)
  | UpdateServiceAccount (serviceAccount : ServiceAccount) (res : Except Error ServiceAccount)
  | ServiceAccountGet (ns name : String) (res : Except Error ServiceAccount)
  | DeploymentGet (ns name : String) (res : Except Error Deployment)

/-- The wrapper `c` with the log of the calls it issues; results and state changes are
those of `c`. -/
def InstallStrategyDeploymentClientForNamespace.recording {σ : Type}
    (c : InstallStrategyDeploymentClientForNamespace σ) :
    InstallStrategyDeploymentClientForNamespace (σ × List OpEvent) where
  Namespace := c.Namespace
  opClient :=
    { GetDeployment := fun ns name st =>
        let r := c.opClient.GetDeployment ns name st.1
        (r.1, (r.2, st.2 ++ [OpEvent.GetDeployment ns name r.1]))
      CreateDeployment := fun d st =>
        let r := c.opClient.CreateDeployment d st.1
        (r.1, (r.2, st.2 ++ [OpEvent.CreateDeployment d r.1]))
      KubernetesDeploymentsUpdate := fun ns d st =>
        let r := c.opClient.KubernetesDeploymentsUpdate ns d st.1
        (r.1, (r.2, st.2 ++ [OpEvent.KubernetesDeploymentsUpdate ns d r.1]))
      CreateServiceAccount := fun sa st =>
        let r := c.opClient.CreateServiceAccount sa st.1
        (r.1, (r.2, st.2 ++ [OpEvent.CreateServiceAccount sa r.1]))
      UpdateServiceAccount := fun sa st =>
        let r := c.opClient.UpdateServiceAccount sa st.1
        (r.1, (r.2, st.2 ++ [OpEvent.UpdateServiceAccount sa r.1])) }
  opLister :=
    { ServiceAccountGet := fun ns name st =>
        let r := c.opLister.ServiceAccountGet ns name st.1
        (r.1, (r.2, st.2 ++ [OpEvent.ServiceAccountGet ns name r.1]))
      DeploymentGet := fun ns name st =>
        let r := c.opLister.DeploymentGet ns name st.1
        (r.1, (r.2, st.2 ++ [OpEvent.DeploymentGet ns name r.1])) }

/-! ## Observing the calls a routine issues -/

/-- A store call together with its arguments. -/
inductive Call where
  | ListServiceAccounts (ns : String)
  | CreateRole (role : Role)
  | GetRole (key : ObjectKey)
  | UpdateRole (role : Role)
  | CreateRoleBinding (roleBinding : RoleBinding)
  | GetRoleBinding (key : ObjectKey)
  | UpdateRoleBinding (roleBinding : RoleBinding)
  | GetOperatorCondition (key : ObjectKey)
  | ListDeployments (ns : String)
  | UpdateDeployment (deployment : Deployment)
  | GetOperator (key : ObjectKey)
  | ListOperatorConditions (selector : String)
  | ListClusterServiceVersions (selector : String)
  | CreateOperatorCondition (operatorCondition : OperatorCondition)
  deriving DecidableEq, Repr

/-- One issued call and whether it returned without error. -/
structure Event where
  call : Call
  ok : Bool
  deriving DecidableEq, Repr

/-- Whether an `Except` result is a success. -/
def exceptOk {α : Type} : Except Error α → Bool
  | Except.ok _ => true
  | Except.error _ => false

/-- The client `c` with a log of issued calls threaded next to its state; results and
state changes are those of `c`. -/
def Client.recording {σ : Type} (c : Client σ) : Client (σ × List Event) where
  ListServiceAccounts := fun ns st =>
    let r := c.ListServiceAccounts ns st.1
    (r.1, (r.2, st.2 ++ [{ call := Call.ListServiceAccounts ns, ok := exceptOk r.1 }]))
  CreateRole := fun o st =>
    let r := c.CreateRole o st.1
    (r.1, (r.2, st.2 ++ [{ call := Call.CreateRole o, ok := r.1.isNone }]))
  GetRole := fun k st =>
    let r := c.GetRole k st.1
    (r.1, (r.2, st.2 ++ [{ call := Call.GetRole k, ok := exceptOk r.1 }]))
  UpdateRole := fun o st =>
    let r := c.UpdateRole o st.1
    (r.1, (r.2, st.2 ++ [{ call := Call.UpdateRole o, ok := r.1.isNone }]))
  CreateRoleBinding := fun o st =>
    let r := c.CreateRoleBinding o st.1
    (r.1, (r.2, st.2 ++ [{ call := Call.CreateRoleBinding o, ok := r.1.isNone }]))
  GetRoleBinding := fun k st =>
    let r := c.GetRoleBinding k st.1
    (r.1, (r.2, st.2 ++ [{ call := Call.GetRoleBinding k, ok := exceptOk r.1 }]))
  UpdateRoleBinding := fun o st =>
    let r := c.UpdateRoleBinding o st.1
    (r.1, (r.2, st.2 ++ [{ call := Call.UpdateRoleBinding o, ok := r.1.isNone }]))

/-- The reconciler client `c` with the log of issued calls; the RBAC calls are logged as
by `Client.recording`. -/
def ReconcileClient.recording {σ : Type} (c : ReconcileClient σ) :
    ReconcileClient (σ × List Event) where
  toClient := c.toClient.recording
  GetOperatorCondition := fun k st =>
    let r := c.GetOperatorCondition k st.1
    (r.1, (r.2, st.2 ++ [{ call := Call.GetOperatorCondition k, ok := exceptOk r.1 }]))
  ListDeployments := fun ns st =>
    let r := c.ListDeployments ns st.1
    (r.1, (r.2, st.2 ++ [{ call := Call.ListDeployments ns, ok := exceptOk r.1 }]))
  UpdateDeployment := fun o st =>
    let r := c.UpdateDeployment o st.1
    (r.1, (r.2, st.2 ++ [{ call := Call.UpdateDeployment o, ok := r.1.isNone }]))

/-- The generator client `c` with the log of issued calls. -/
def GenClient.recording {σ : Type} (c : GenClient σ) : GenClient (σ × List Event) where
  GetOperator := fun k st =>
    let r := c.GetOperator k st.1
    (r.1, (r.2, st.2 ++ [{ call := Call.GetOperator k, ok := exceptOk r.1 }]))
  ListOperatorConditions := fun sel st =>
    let r := c.ListOperatorConditions sel st.1
    (r.1, (r.2, st.2 ++ [{ call := Call.ListOperatorConditions sel, ok := exceptOk r.1 }]))
  ListClusterServiceVersions := fun sel st =>
    let r := c.ListClusterServiceVersions sel st.1
    (r.1, (r.2, st.2 ++ [{ call := Call.ListClusterServiceVersions sel, ok := exceptOk r.1 }]))
  CreateOperatorCondition := fun o st =>
    let r := c.CreateOperatorCondition o st.1
    (r.1, (r.2, st.2 ++ [{ call := Call.CreateOperatorCondition o, ok := r.1.isNone }]))

/-- The RoleBinding an event shows as created or updated: the argument of a `Create` or
`Update` call on a RoleBinding that returned without error. -/
def Event.roleBindingWritten : Event → Option RoleBinding
  | { call := Call.CreateRoleBinding rb, ok := true } => some rb
  | { call := Call.UpdateRoleBinding rb, ok := true } => some rb
  | _ => none

/-- The RoleBindings a log shows as created or updated, in order. -/
def roleBindingWrites (log : List Event) : List RoleBinding :=
  log.filterMap Event.roleBindingWritten

/-! ## A reference store -/

/-- The key a store files an object under. -/
def ObjectMeta.key (m : ObjectMeta) : ObjectKey :=
  { Namespace := m.Namespace, Name := m.Name }

/-- Modelled from the spec: the Store of section 6 (the `client.Client` implementation
is outside the sources). Objects are filed by namespace and name. -/
structure Store where
  ServiceAccounts : List ServiceAccount := []
  Roles : List Role := []
  RoleBindings : List RoleBinding := []
  deriving DecidableEq, Repr

/-- Modelled from the spec: `create(object) -> object | AlreadyExists` on one table of
the Store: fails with AlreadyExists when the key is present, else files the object. -/
def tableCreate {α : Type} (metaOf : α → ObjectMeta) (objs : List α) (o : α) :
    Option Error × List α :=
  if objs.any (fun x => (metaOf x).key == (metaOf o).key) then
    (some { Reason := StatusReason.AlreadyExists, Message := "already exists" }, objs)
  else
    (none, objs ++ [o])

/-- Modelled from the spec: `get(namespace, name) -> object | NotFound` on one table. -/
def tableGet {α : Type} (metaOf : α → ObjectMeta) (objs : List α) (k : ObjectKey) :
    Except Error α :=
  match objs.find? (fun x => (metaOf x).key == k) with
  | some x => Except.ok x
  | none => Except.error { Reason := StatusReason.NotFound, Message := "not found" }

/-- Modelled from the spec: `update(object)` on one table, replacing the stored object
filed under the same key; NotFound when there is none. -/
def tableUpdate {α : Type} (metaOf : α → ObjectMeta) (objs : List α) (o : α) :
    Option Error × List α :=
  if objs.any (fun x => (metaOf x).key == (metaOf o).key) then
    (none, objs.map (fun x => if (metaOf x).key == (metaOf o).key then o else x))
  else
    (some { Reason := StatusReason.NotFound, Message := "not found" }, objs)

/-- Modelled from the spec: `list(namespace, ...)` on the service accounts of the Store:
those filed in the namespace, in store order. -/
def listedServiceAccounts (s : Store) (ns : String) : Slice ServiceAccount :=
  Slice.mk (s.ServiceAccounts.filter (fun sa => sa.ObjectMeta.Namespace == ns))

/-- Modelled from the spec: the calls of `client.Client` served by the reference Store. -/
def storeClient : Client Store where
  ListServiceAccounts := fun ns s => (Except.ok (listedServiceAccounts s ns), s)
  CreateRole := fun o s =>
    let r := tableCreate Role.ObjectMeta s.Roles o
    (r.1, { s with Roles := r.2 })
  GetRole := fun k s => (tableGet Role.ObjectMeta s.Roles k, s)
  UpdateRole := fun o s =>
    let r := tableUpdate Role.ObjectMeta s.Roles o
    (r.1, { s with Roles := r.2 })
  CreateRoleBinding := fun o s =>
    let r := tableCreate RoleBinding.ObjectMeta s.RoleBindings o
    (r.1, { s with RoleBindings := r.2 })
  GetRoleBinding := fun k s => (tableGet RoleBinding.ObjectMeta s.RoleBindings k, s)
  UpdateRoleBinding := fun o s =>
    let r := tableUpdate RoleBinding.ObjectMeta s.RoleBindings o
    (r.1, { s with RoleBindings := r.2 })

/-! ## Statement vocabulary -/

/-- An owner-reference entry matches `R` when name, kind and uid all agree. -/
def OwnerReference.Matches (r R : OwnerReference) : Prop :=
  r.Name = R.Name ∧ r.Kind = R.Kind ∧ r.UID = R.UID

instance (r R : OwnerReference) : Decidable (r.Matches R) := by
  unfold OwnerReference.Matches; infer_instance

/-- The object's owner-reference list contains an entry matching `R`. -/
def OwnedBy (o : ObjectMeta) (R : OwnerReference) : Prop :=
  ∃ r ∈ o.OwnerReferences.toList, r.Matches R

instance (o : ObjectMeta) (R : OwnerReference) : Decidable (OwnedBy o R) := by
  unfold OwnedBy; infer_instance

/-- The names of a sequence of env vars, in order. -/
def envNames (s : Slice EnvVar) : List String := s.toList.map (fun e => e.Name)

/-- The subject the routine writes for a service account. -/
def subjectFor (sa : ServiceAccount) : Subject :=
  { Kind := "ServiceAccount", APIGroup := "", Name := sa.ObjectMeta.Name, Namespace := "" }

/-- The listed service accounts owned by `R`, in list order. -/
def ownedServiceAccounts (items : Slice ServiceAccount) (R : OwnerReference) :
    List ServiceAccount :=
  items.toList.filter (fun sa => decide (OwnedBy sa.ObjectMeta R))

/-! ## A concrete scenario -/

/-- An owner reference to a ClusterServiceVersion. -/
def exampleOwner : OwnerReference :=
  { APIVersion := "operators.coreos.com/v1alpha1", Kind := "ClusterServiceVersion",
    Name := "etcd.v1", UID := "uid-1" }

/-- An OperatorCondition owned by `exampleOwner`. -/
def exampleCondition : OperatorCondition :=
  { ObjectMeta :=
      { Name := "etcd", Namespace := "ns", OwnerReferences := Slice.mk [exampleOwner] } }

/-- A store with one owned and one unowned service account in the namespace, and a
RoleBinding left from an earlier run whose subjects name the unowned account too. -/
def exampleStore : Store :=
  { ServiceAccounts :=
      [ { ObjectMeta :=
            { Name := "etcd-sa", Namespace := "ns", OwnerReferences := Slice.mk [exampleOwner] } },
        { ObjectMeta := { Name := "old-sa", Namespace := "ns" } } ]
    Roles := []
    RoleBindings :=
      [ { ObjectMeta := { Name := "etcd", Namespace := "ns", ResourceVersion := "7" }
          Subjects := Slice.mk
            [ { Kind := "ServiceAccount", Name := "old-sa" },
              { Kind := "ServiceAccount", Name := "etcd-sa" } ]
          RoleRef := { Kind := "Role", Name := "etcd", APIGroup := "rbac.authorization.k8s.io" } } ] }

/-! ## Proof vocabulary for the reference store -/

/-- A table is settled on `r` at key `k` when some object is filed under `k` and every
object filed under `k` is `r`. -/
def Settled {α : Type} (metaOf : α → ObjectMeta) (k : ObjectKey) (r : α) (l : List α) : Prop :=
  (∃ x ∈ l, (metaOf x).key = k) ∧ ∀ x ∈ l, (metaOf x).key = k → x = r

/-- The Roles table already holds, under the key of `role`, one object carrying the
owner list and rules of `role`. -/
def RoleSettled (role : Role) (l : List Role) : Prop :=
  ∃ r, Settled Role.ObjectMeta role.ObjectMeta.key r l ∧
    r.ObjectMeta.OwnerReferences = role.ObjectMeta.OwnerReferences ∧ r.Rules = role.Rules

/-- The RoleBindings table already holds, under the key of `rb`, one object carrying the
owner list, subjects and role reference of `rb`. -/
def RoleBindingSettled (rb : RoleBinding) (l : List RoleBinding) : Prop :=
  ∃ r, Settled RoleBinding.ObjectMeta rb.ObjectMeta.key r l ∧
    r.ObjectMeta.OwnerReferences = rb.ObjectMeta.OwnerReferences ∧
    r.Subjects = rb.Subjects ∧ r.RoleRef = rb.RoleRef

/-- The RoleBinding `ensureOperatorConditionRole` asks for on the reference store `s`. -/
def wantedRoleBinding (oc : OperatorCondition) (R : OwnerReference) (s : Store) : RoleBinding :=
  desiredRoleBinding oc R (desiredRole oc R)
    (buildSubjects (filterServiceAccounts
      (listedServiceAccounts s oc.ObjectMeta.Namespace) (hasOwnerFunc R)))

/-- Whether a call is on a Role. -/
def Call.onRole : Call → Bool
  | Call.CreateRole _ => true
  | Call.GetRole _ => true
  | Call.UpdateRole _ => true
  | _ => false

/-- Whether a call is on a RoleBinding. -/
def Call.onRoleBinding : Call → Bool
  | Call.CreateRoleBinding _ => true
  | Call.GetRoleBinding _ => true
  | Call.UpdateRoleBinding _ => true
  | _ => false

/-- The RoleBinding `ensureOperatorConditionRole` asks for when the listing returned
`items`. -/
def roleBindingFor (oc : OperatorCondition) (R : OwnerReference)
    (items : Slice ServiceAccount) : RoleBinding :=
  desiredRoleBinding oc R (desiredRole oc R)
    (buildSubjects (filterServiceAccounts items (hasOwnerFunc R)))

/-- The object the update path of the Role block writes back: the fetched Role with its
owner-reference list and rules replaced by those of `role`. -/
def roleUpdateOf (existing role : Role) : Role :=
  { existing with
    ObjectMeta := { existing.ObjectMeta with OwnerReferences := role.ObjectMeta.OwnerReferences }
    Rules := role.Rules }

/-- A Role left in the store by an earlier run, with a label of its own. -/
def exampleRole : Role :=
  { ObjectMeta :=
      { Name := "etcd", Namespace := "ns", ResourceVersion := "3", Labels := [("app", "etcd")] }
    Rules := Slice.mk [] }

/-- The example store with `exampleRole` filed in it. -/
def exampleStoreWithRole : Store :=
  { exampleStore with Roles := [exampleRole] }

/-- The reference store behind an API server that refuses every Role create. -/
def refusingClient : Client Store :=
  { storeClient with
    CreateRole := fun _ s => (some { Reason := StatusReason.Unknown, Message := "forbidden" }, s) }

/-- The namespace and name a deployment-lister lookup was made for. -/
def OpEvent.lookedUp : OpEvent → Option (String × String)
  | OpEvent.DeploymentGet ns name _ => some (ns, name)
  | _ => none

/-- The deployment a successful deployment-lister lookup returned. -/
def OpEvent.fetched : OpEvent → Option Deployment
  | OpEvent.DeploymentGet _ _ (Except.ok d) => some d
  | _ => none

/-- The error of a deployment-lister lookup that failed otherwise than with not-found. -/
def OpEvent.hardFailure : OpEvent → Option Error
  | OpEvent.DeploymentGet _ _ (Except.error err) => if IsNotFound err then none else some err
  | _ => none

/-- A small cluster state for the wrapper: its service accounts and deployments. -/
structure Cluster where
  ServiceAccounts : List ServiceAccount := []
  Deployments : List Deployment := []
  deriving DecidableEq, Repr

/-- The result of a write on a table as a call result returning the object written. -/
def writeResult {α : Type} (o : α) : Option Error → Except Error α
  | none => Except.ok o
  | some err => Except.error err

/-- Modelled from the spec: the Store contract of section 6 served to the wrapper from a
`Cluster`; the lister reads the same tables, and its lookup of a deployment named
`unsynced` fails with an internal error, to have a lookup error other than not-found. -/
def clusterWrapper (ns : String) : InstallStrategyDeploymentClientForNamespace Cluster where
  Namespace := ns
  opClient :=
    { GetDeployment := fun ns name s =>
        (tableGet Deployment.ObjectMeta s.Deployments { Namespace := ns, Name := name }, s)
      CreateDeployment := fun d s =>
        let r := tableCreate Deployment.ObjectMeta s.Deployments d
        (writeResult d r.1, { s with Deployments := r.2 })
      KubernetesDeploymentsUpdate := fun _ d s =>
        let r := tableUpdate Deployment.ObjectMeta s.Deployments d
        (writeResult d r.1, { s with Deployments := r.2 })
      CreateServiceAccount := fun sa s =>
        let r := tableCreate ServiceAccount.ObjectMeta s.ServiceAccounts sa
        (writeResult sa r.1, { s with ServiceAccounts := r.2 })
      UpdateServiceAccount := fun sa s =>
        let r := tableUpdate ServiceAccount.ObjectMeta s.ServiceAccounts sa
        (writeResult sa r.1, { s with ServiceAccounts := r.2 }) }
  opLister :=
    { ServiceAccountGet := fun ns name s =>
        (tableGet ServiceAccount.ObjectMeta s.ServiceAccounts { Namespace := ns, Name := name }, s)
      DeploymentGet := fun ns name s =>
        if name == "unsynced" then
          (Except.error { Reason := StatusReason.Unknown, Message := "internal error" }, s)
        else
          (tableGet Deployment.ObjectMeta s.Deployments { Namespace := ns, Name := name }, s) }

/-- A deployment named `name` in namespace `ns`. -/
def exampleDeployment (name : String) : Deployment :=
  { ObjectMeta := { Name := name, Namespace := "ns" } }

/-- The owner view of the example ClusterServiceVersion. -/
def exampleCSVOwner : Owner :=
  { APIVersion := "operators.coreos.com/v1alpha1", Kind := "ClusterServiceVersion",
    Name := "etcd.v1", UID := "uid-1" }

/-- A service account owned by the example owner. -/
def exampleOwnedAccount : ServiceAccount :=
  { ObjectMeta :=
      { Name := "etcd-sa", Namespace := "ns", OwnerReferences := Slice.mk [exampleOwner] } }

/-- A service account owned by something else only. -/
def exampleOldAccount : ServiceAccount :=
  { ObjectMeta :=
      { Name := "old-sa", Namespace := "ns",
        OwnerReferences := Slice.mk [{ Kind := "ConfigMap", Name := "cm", UID := "uid-9" }] } }

/-- A cluster with two deployments and the two example service accounts. -/
def exampleCluster : Cluster :=
  { Deployments := [exampleDeployment "a", exampleDeployment "b"]
    ServiceAccounts := [exampleOwnedAccount, exampleOldAccount] }

/-- Whether a call belongs to the env-var sweep: a listing or an update of deployments. -/
def Call.onSweep : Call → Bool
  | Call.ListDeployments _ => true
  | Call.UpdateDeployment _ => true
  | _ => false

/-- The reference store serving the RBAC calls, with a scripted rest: every load returns
`oc`, every deployment listing returns `deployments`, and updates of deployments are
accepted without being kept. -/
def scriptedReconcileClient (oc : OperatorCondition) (deployments : Slice Deployment) :
    ReconcileClient Store :=
  { storeClient with
    GetOperatorCondition := fun _ s => (Except.ok oc, s)
    ListDeployments := fun _ s => (Except.ok deployments, s)
    UpdateDeployment := fun _ s => (none, s) }

/-- The scripted client behind an API server that refuses every Role create. -/
def refusingReconcileClient (oc : OperatorCondition) (deployments : Slice Deployment) :
    ReconcileClient Store :=
  { scriptedReconcileClient oc deployments with
    CreateRole := fun _ s => (some { Reason := StatusReason.Unknown, Message := "forbidden" }, s) }

/-- The key of the example OperatorCondition. -/
def exampleRequest : ObjectKey := { Namespace := "ns", Name := "etcd" }

/-- An OperatorCondition without any owner reference. -/
def exampleOrphanCondition : OperatorCondition :=
  { ObjectMeta := { Name := "etcd", Namespace := "ns" } }

/-- The env var the sweep writes for an OperatorCondition. -/
def conditionEnvVar (oc : OperatorCondition) : EnvVar :=
  { Name := "OPERATOR_CONDITION_NAME", Value := oc.ObjectMeta.Name }

/-- The listed deployments owned by `R`, in list order. -/
def ownedDeployments (items : Slice Deployment) (R : OwnerReference) : List Deployment :=
  items.toList.filter (fun d => decide (OwnedBy d.ObjectMeta R))

/-- The log entry of an update of deployment `d` by the sweep for `oc`. -/
def sweepUpdate (oc : OperatorCondition) (ok : Bool) (d : Deployment) : Event :=
  { call := Call.UpdateDeployment (setConditionEnvVar oc d), ok := ok }

/-- A deployment owned by the example owner, with two containers. -/
def exampleOwnedDeployment (name : String) : Deployment :=
  { ObjectMeta :=
      { Name := name, Namespace := "ns", OwnerReferences := Slice.mk [exampleOwner] }
    Spec :=
      { Template :=
          { Spec :=
              { Containers := Slice.mk
                  [ { Name := "operator", Env := Slice.mk [{ Name := "FOO", Value := "1" }] },
                    { Name := "sidecar",
                      Env := Slice.mk
                        [ { Name := "OPERATOR_CONDITION_NAME", Value := "old" },
                          { Name := "BAR", Value := "2" } ] } ] } } } }

/-- The scripted client whose update of a deployment named `stale` fails with a
conflict. -/
def conflictingReconcileClient (oc : OperatorCondition) (deployments : Slice Deployment) :
    ReconcileClient Store :=
  { scriptedReconcileClient oc deployments with
    UpdateDeployment := fun d s =>
      if d.ObjectMeta.Name == "stale" then
        (some { Reason := StatusReason.Conflict, Message := "conflict" }, s)
      else
        (none, s) }

/-- A listing with three owned deployments and, second, one that is not owned. -/
def exampleDeployments : Slice Deployment :=
  Slice.mk
    [ exampleOwnedDeployment "a", exampleDeployment "b", exampleOwnedDeployment "stale",
      exampleOwnedDeployment "c" ]

/-- The object the update path of the RoleBinding block writes back: the fetched
RoleBinding with its owner-reference list, subjects and role reference replaced by those
of `roleBinding`. -/
def roleBindingUpdateOf (existing roleBinding : RoleBinding) : RoleBinding :=
  { existing with
    ObjectMeta :=
      { existing.ObjectMeta with OwnerReferences := roleBinding.ObjectMeta.OwnerReferences }
    Subjects := roleBinding.Subjects
    RoleRef := roleBinding.RoleRef }

/-- The store contract of section 6 as far as the RBAC routine relies on it, for a client
`c` over store states `σ`. `HoldsRole s r` says that state `s` holds `r` as the Role
filed under the key of `r`, and `HoldsRoleBinding` the same for a RoleBinding. Listing
reads only; a successful create or update leaves the written object held; a held object
is what a get by its key returns, makes a create under its key fail with AlreadyExists
and nothing change, and is left as it is by an update with that same object; the calls
on RoleBindings leave the Roles alone. -/
structure StoreLaws {σ : Type} (c : Client σ) (HoldsRole : σ → Role → Prop)
    (HoldsRoleBinding : σ → RoleBinding → Prop) : Prop where
  list_state : ∀ ns s, (c.ListServiceAccounts ns s).2 = s
  getRole_key : ∀ k s r s1, c.GetRole k s = (Except.ok r, s1) → r.ObjectMeta.key = k
  createRole_holds : ∀ o s s1, c.CreateRole o s = (none, s1) → HoldsRole s1 o
  updateRole_holds : ∀ o s s1, c.UpdateRole o s = (none, s1) → HoldsRole s1 o
  holdsRole_get : ∀ s r, HoldsRole s r → c.GetRole r.ObjectMeta.key s = (Except.ok r, s)
  holdsRole_create : ∀ s r o, HoldsRole s r → o.ObjectMeta.key = r.ObjectMeta.key →
    ∃ err, c.CreateRole o s = (some err, s) ∧ IsAlreadyExists err = true
  holdsRole_update : ∀ s r, HoldsRole s r → (c.UpdateRole r s).2 = s
  holdsRole_createRoleBinding : ∀ s r o, HoldsRole s r →
    HoldsRole (c.CreateRoleBinding o s).2 r
  holdsRole_getRoleBinding : ∀ s r k, HoldsRole s r → HoldsRole (c.GetRoleBinding k s).2 r
  holdsRole_updateRoleBinding : ∀ s r o, HoldsRole s r →
    HoldsRole (c.UpdateRoleBinding o s).2 r
  getRoleBinding_key : ∀ k s w s1, c.GetRoleBinding k s = (Except.ok w, s1) →
    w.ObjectMeta.key = k
  createRoleBinding_holds : ∀ o s s1, c.CreateRoleBinding o s = (none, s1) →
    HoldsRoleBinding s1 o
  updateRoleBinding_holds : ∀ o s s1, c.UpdateRoleBinding o s = (none, s1) →
    HoldsRoleBinding s1 o
  holdsRoleBinding_get : ∀ s w, HoldsRoleBinding s w →
    c.GetRoleBinding w.ObjectMeta.key s = (Except.ok w, s)
  holdsRoleBinding_create : ∀ s w o, HoldsRoleBinding s w →
    o.ObjectMeta.key = w.ObjectMeta.key →
    ∃ err, c.CreateRoleBinding o s = (some err, s) ∧ IsAlreadyExists err = true
  holdsRoleBinding_update : ∀ s w, HoldsRoleBinding s w → (c.UpdateRoleBinding w s).2 = s

/-- The reference store holds `r` as the Role under its key. -/
def storeHoldsRole (s : Store) (r : Role) : Prop :=
  Settled Role.ObjectMeta r.ObjectMeta.key r s.Roles

/-- The reference store holds `w` as the RoleBinding under its key. -/
def storeHoldsRoleBinding (s : Store) (w : RoleBinding) : Prop :=
  Settled RoleBinding.ObjectMeta w.ObjectMeta.key w s.RoleBindings

/-- A service account of namespace `ns` owned by `exampleOwner`. -/
def exampleAccountA : ServiceAccount :=
  { ObjectMeta :=
      { Name := "a-sa", Namespace := "ns", OwnerReferences := Slice.mk [exampleOwner] } }

/-- Another service account of namespace `ns` owned by `exampleOwner`. -/
def exampleAccountB : ServiceAccount :=
  { ObjectMeta :=
      { Name := "b-sa", Namespace := "ns", OwnerReferences := Slice.mk [exampleOwner] } }

/-- A store with two service accounts in the namespace, both owned by `exampleOwner`, and
no Role or RoleBinding yet. -/
def exampleTwoOwnedStore : Store :=
  { ServiceAccounts := [exampleAccountA, exampleAccountB] }

/-- The names of the listed service accounts owned by `R`, in list order. -/
def ownedNames (items : Slice ServiceAccount) (R : OwnerReference) : List String :=
  (ownedServiceAccounts items R).map (fun sa => sa.ObjectMeta.Name)

/-- The reference store behind a listing whose order is not fixed (section 6 gives
`list` a result, `[object]`, and no order): it answers in store order while no
RoleBinding is filed and in the reverse order after. Create, get and update are those of
the reference store. -/
def reorderingClient : Client Store :=
  { storeClient with
    ListServiceAccounts := fun ns s =>
      (Except.ok (if s.RoleBindings.isEmpty then listedServiceAccounts s ns
        else Slice.mk (listedServiceAccounts s ns).toList.reverse), s) }

/-! ## Helper lemmas -/

@[simp]
theorem Slice.toList_mk {α : Type} (xs : List α) : (Slice.mk xs).toList = xs := rfl

@[simp]
theorem Slice.toList_nil {α : Type} : (Slice.nil : Slice α).toList = [] := rfl

@[simp]
theorem Slice.toList_append {α : Type} (s : Slice α) (x : α) :
    (s.append x).toList = s.toList ++ [x] := rfl

theorem Slice.append_mk {α : Type} (xs : List α) (x : α) :
    (Slice.mk xs).append x = Slice.mk (xs ++ [x]) := rfl

theorem hasOwnerFunc_iff (R : OwnerReference) (o : ObjectMeta) :
    hasOwnerFunc R o = true ↔ OwnedBy o R := by
  simp [hasOwnerFunc, HasOwnerReference, OwnedBy, OwnerReference.Matches, and_assoc]

theorem foldl_append_filter {α : Type} (p : α → Bool) (l acc : List α) :
    (l.foldl (fun (s : Slice α) x => if p x then s.append x else s) (Slice.mk acc))
      = Slice.mk (acc ++ l.filter p) := by
  induction l generalizing acc with
  | nil => simp
  | cons x xs ih =>
    by_cases hx : p x = true
    · have h := ih (acc ++ [x])
      simp only [List.foldl, hx, if_true, List.filter_cons_of_pos]
      simpa [Slice.append_mk] using h
    · simp [List.foldl, hx, ih]

theorem filterServiceAccounts_eq (L : Slice ServiceAccount) (f : ObjectMeta → Bool) :
    filterServiceAccounts L f = Slice.mk (L.toList.filter (fun sa => f sa.ObjectMeta)) := by
  unfold filterServiceAccounts
  simpa using foldl_append_filter (fun sa : ServiceAccount => f sa.ObjectMeta) L.toList []

theorem filterDeployments_eq (L : Slice Deployment) (f : ObjectMeta → Bool) :
    filterDeployments L f = Slice.mk (L.toList.filter (fun d => f d.ObjectMeta)) := by
  unfold filterDeployments
  simpa using foldl_append_filter (fun d : Deployment => f d.ObjectMeta) L.toList []

/-- The replacement the merger applies to each visited entry. -/
theorem ensureEnvVar_foldl (v : EnvVar) (l acc : List EnvVar) (b : Bool) :
    l.foldl (ensureEnvVarStep v) (Slice.mk acc, b)
      = (Slice.mk (acc ++ l.map (fun e => if e.Name = v.Name then v else e)),
          b || l.any (fun e => decide (e.Name = v.Name))) := by
  induction l generalizing acc b with
  | nil => simp
  | cons x xs ih =>
    by_cases hx : x.Name = v.Name
    · simp [List.foldl, ensureEnvVarStep, hx, Slice.append_mk, ih]
    · simp [List.foldl, ensureEnvVarStep, hx, Slice.append_mk, ih]

/-- Closed form of `ensureEnvVar`: every entry named like `v` is replaced by `v`, and `v`
is appended when there was none. -/
theorem ensureEnvVar_eq (v : EnvVar) (S : Slice EnvVar) :
    ensureEnvVar v S
      = Slice.mk (S.toList.map (fun e => if e.Name = v.Name then v else e)
          ++ (if S.toList.any (fun e => decide (e.Name = v.Name)) then [] else [v])) := by
  unfold ensureEnvVar
  by_cases h0 : S.len = 0
  · have : S.toList = [] := by simpa [Slice.len] using h0
    simp [h0, this]
  · have h := ensureEnvVar_foldl v S.toList [] false
    simp only [List.nil_append, Bool.false_or] at h
    simp only [h0, if_false, h]
    by_cases hany : S.toList.any (fun e => decide (e.Name = v.Name)) = true
    · simp [hany]
    · simp [hany, Slice.append_mk]

theorem ensureEnvVar_toList (v : EnvVar) (S : Slice EnvVar) :
    (ensureEnvVar v S).toList
      = S.toList.map (fun e => if e.Name = v.Name then v else e)
          ++ (if S.toList.any (fun e => decide (e.Name = v.Name)) then [] else [v]) := by
  rw [ensureEnvVar_eq]; rfl

theorem envNames_map_replace (v : EnvVar) (l : List EnvVar) :
    (l.map (fun e => if e.Name = v.Name then v else e)).map (fun e => e.Name)
      = l.map (fun e => e.Name) := by
  induction l with
  | nil => rfl
  | cons x xs ih =>
    by_cases hx : x.Name = v.Name
    · simp [hx, ih]
    · simp [hx, ih]

theorem filter_other_map_replace (v : EnvVar) (l : List EnvVar) :
    (l.map (fun e => if e.Name = v.Name then v else e)).filter
        (fun e => decide (e.Name ≠ v.Name))
      = l.filter (fun e => decide (e.Name ≠ v.Name)) := by
  induction l with
  | nil => rfl
  | cons x xs ih =>
    simp only [ne_eq, decide_not] at ih
    by_cases hx : x.Name = v.Name
    · simp [hx, ih]
    · simp [hx, ih]

theorem map_replace_of_absent (v : EnvVar) (l : List EnvVar)
    (h : ∀ e ∈ l, e.Name ≠ v.Name) :
    l.map (fun e => if e.Name = v.Name then v else e) = l := by
  induction l with
  | nil => rfl
  | cons x xs ih =>
    have hx : x.Name ≠ v.Name := h x (List.mem_cons_self x xs)
    have hxs : ∀ e ∈ xs, e.Name ≠ v.Name := fun e he => h e (List.mem_cons_of_mem x he)
    simp [hx, ih hxs]

theorem roleBindingWrites_append (a b : List Event) :
    roleBindingWrites (a ++ b) = roleBindingWrites a ++ roleBindingWrites b := by
  simp [roleBindingWrites, List.filterMap_append]

theorem buildSubjects_eq (L : Slice ServiceAccount) :
    buildSubjects L = Slice.mk (L.toList.map subjectFor) := by
  have h : ∀ (l : List ServiceAccount) (acc : List Subject),
      l.foldl (fun (subjects : Slice Subject) (serviceAccount : ServiceAccount) =>
          subjects.append
            { Kind := ServiceAccountKind, Name := serviceAccount.ObjectMeta.Name, APIGroup := "" })
        (Slice.mk acc) = Slice.mk (acc ++ l.map subjectFor) := by
    intro l
    induction l with
    | nil => intro acc; simp
    | cons x xs ih =>
      intro acc
      simp only [List.foldl, Slice.append_mk, ih, List.map_cons, List.append_assoc,
        List.singleton_append]
      rfl
  simpa [buildSubjects] using h L.toList []

theorem filterServiceAccounts_owned (R : OwnerReference) (L : Slice ServiceAccount) :
    (filterServiceAccounts L (hasOwnerFunc R)).toList
      = L.toList.filter (fun sa => decide (OwnedBy sa.ObjectMeta R)) := by
  rw [filterServiceAccounts_eq, Slice.toList_mk]
  apply List.filter_congr
  intro sa _
  exact Bool.eq_iff_iff.mpr (by simpa using hasOwnerFunc_iff R sa.ObjectMeta)

theorem filterDeployments_owned (R : OwnerReference) (L : Slice Deployment) :
    (filterDeployments L (hasOwnerFunc R)).toList
      = L.toList.filter (fun d => decide (OwnedBy d.ObjectMeta R)) := by
  rw [filterDeployments_eq, Slice.toList_mk]
  apply List.filter_congr
  intro d _
  exact Bool.eq_iff_iff.mpr (by simpa using hasOwnerFunc_iff R d.ObjectMeta)

theorem ensureRole_recording {σ : Type} (c : Client σ) (role : Role) (s : σ) (t : List Event) :
    (ensureRole c.recording role (s, t)).1 = (ensureRole c role s).1 ∧
    (ensureRole c.recording role (s, t)).2.1 = (ensureRole c role s).2 ∧
    roleBindingWrites (ensureRole c.recording role (s, t)).2.2 = roleBindingWrites t := by
  unfold ensureRole
  simp only [Client.recording]
  rcases h1 : c.CreateRole role s with ⟨r1, s1⟩
  cases r1 with
  | none => simp [h1, roleBindingWrites_append, roleBindingWrites, Event.roleBindingWritten]
  | some err =>
    by_cases hae : IsAlreadyExists err = true
    · simp only [h1, hae]
      rcases h2 : c.GetRole { Namespace := role.ObjectMeta.Namespace, Name := role.ObjectMeta.Name } s1
        with ⟨r2, s2⟩
      cases r2 with
      | error e2 =>
        simp [h2, roleBindingWrites_append, roleBindingWrites, Event.roleBindingWritten]
      | ok existing =>
        simp only [h2, Bool.not_true, Bool.false_eq_true, if_false]
        rcases h3 : c.UpdateRole
            { ObjectMeta := { existing.ObjectMeta with OwnerReferences := role.ObjectMeta.OwnerReferences },
              Rules := role.Rules } s2 with ⟨r3, s3⟩
        cases r3 with
        | none =>
          simp [h3, roleBindingWrites_append, roleBindingWrites, Event.roleBindingWritten]
        | some e3 =>
          simp [h3, roleBindingWrites_append, roleBindingWrites, Event.roleBindingWritten]
    · simp [h1, hae, roleBindingWrites_append, roleBindingWrites, Event.roleBindingWritten]

theorem ensureRoleBinding_recording {σ : Type} (c : Client σ) (roleBinding : RoleBinding)
    (s : σ) (t : List Event) :
    (ensureRoleBinding c.recording roleBinding (s, t)).1 = (ensureRoleBinding c roleBinding s).1 ∧
    (ensureRoleBinding c.recording roleBinding (s, t)).2.1
      = (ensureRoleBinding c roleBinding s).2 ∧
    ((ensureRoleBinding c roleBinding s).1 = none →
      ∃ w, roleBindingWrites (ensureRoleBinding c.recording roleBinding (s, t)).2.2
          = roleBindingWrites t ++ [w] ∧
        w.Subjects = roleBinding.Subjects ∧ w.RoleRef = roleBinding.RoleRef ∧
        w.ObjectMeta.OwnerReferences = roleBinding.ObjectMeta.OwnerReferences) := by
  unfold ensureRoleBinding
  simp only [Client.recording]
  rcases h1 : c.CreateRoleBinding roleBinding s with ⟨r1, s1⟩
  cases r1 with
  | none =>
    simp [h1, roleBindingWrites_append, roleBindingWrites, Event.roleBindingWritten]
  | some err =>
    by_cases hae : IsAlreadyExists err = true
    · simp only [h1, hae]
      rcases h2 : c.GetRoleBinding
          { Namespace := roleBinding.ObjectMeta.Namespace, Name := roleBinding.ObjectMeta.Name } s1
        with ⟨r2, s2⟩
      cases r2 with
      | error e2 =>
        simp [h2, roleBindingWrites_append, roleBindingWrites, Event.roleBindingWritten]
      | ok existing =>
        simp only [h2, Bool.not_true, Bool.false_eq_true, if_false]
        rcases h3 : c.UpdateRoleBinding
            { ObjectMeta :=
                { existing.ObjectMeta with
                  OwnerReferences := roleBinding.ObjectMeta.OwnerReferences },
              Subjects := roleBinding.Subjects,
              RoleRef := roleBinding.RoleRef } s2 with ⟨r3, s3⟩
        cases r3 with
        | none =>
          simp [h3, roleBindingWrites_append, roleBindingWrites, Event.roleBindingWritten]
        | some e3 =>
          simp [h3, roleBindingWrites_append, roleBindingWrites, Event.roleBindingWritten]
    · simp [h1, hae, roleBindingWrites_append, roleBindingWrites, Event.roleBindingWritten]

theorem ensureOperatorConditionRole_recording {σ : Type} (c : Client σ)
    (oc : OperatorCondition) (R : OwnerReference) (s : σ) (t : List Event) :
    (ensureOperatorConditionRole c.recording oc R (s, t)).1
      = (ensureOperatorConditionRole c oc R s).1 ∧
    (ensureOperatorConditionRole c.recording oc R (s, t)).2.1
      = (ensureOperatorConditionRole c oc R s).2 := by
  unfold ensureOperatorConditionRole
  rcases h0 : c.ListServiceAccounts oc.ObjectMeta.Namespace s with ⟨r0, s0⟩
  have hrec : c.recording.ListServiceAccounts oc.ObjectMeta.Namespace (s, t)
      = (r0, (s0, t ++ [{ call := Call.ListServiceAccounts oc.ObjectMeta.Namespace,
                          ok := exceptOk r0 }])) := by
    simp [Client.recording, h0]
  rw [hrec]
  cases r0 with
  | error e => simp
  | ok items =>
    simp only []
    obtain ⟨ha, hb, _⟩ := ensureRole_recording c (desiredRole oc R) s0
      (t ++ [{ call := Call.ListServiceAccounts oc.ObjectMeta.Namespace, ok := exceptOk (Except.ok items) }])
    rcases h1 : ensureRole c (desiredRole oc R) s0 with ⟨r1, s1⟩
    rcases h1r : ensureRole c.recording (desiredRole oc R) (s0,
      t ++ [{ call := Call.ListServiceAccounts oc.ObjectMeta.Namespace, ok := exceptOk (Except.ok items) }])
      with ⟨r1r, s1r, t1⟩
    rw [h1, h1r] at ha hb
    simp only at ha hb
    subst ha hb
    simp only [h1r]
    cases r1r with
    | some e => simp
    | none =>
      simp only []
      obtain ⟨hc, hd, _⟩ := ensureRoleBinding_recording c
        (desiredRoleBinding oc R (desiredRole oc R)
          (buildSubjects (filterServiceAccounts items (hasOwnerFunc R)))) s1r t1
      exact ⟨hc, hd⟩

theorem Settled.any {α : Type} {metaOf : α → ObjectMeta} {k : ObjectKey} {r : α} {l : List α}
    (h : Settled metaOf k r l) : l.any (fun x => (metaOf x).key == k) = true := by
  obtain ⟨⟨x, hx, hk⟩, _⟩ := h
  simp only [List.any_eq_true, beq_iff_eq]
  exact ⟨x, hx, hk⟩

theorem Settled.find {α : Type} {metaOf : α → ObjectMeta} {k : ObjectKey} {r : α} {l : List α}
    (h : Settled metaOf k r l) : l.find? (fun x => (metaOf x).key == k) = some r := by
  obtain ⟨⟨x, hx, hk⟩, hall⟩ := h
  cases hf : l.find? (fun x => (metaOf x).key == k) with
  | none =>
    have := List.find?_eq_none.mp hf x hx
    simp [hk] at this
  | some y =>
    have hy : (metaOf y).key = k := by simpa using List.find?_some hf
    rw [hall y (List.mem_of_find?_eq_some hf) hy]

theorem Settled.map {α : Type} {metaOf : α → ObjectMeta} {k : ObjectKey} {r : α} {l : List α}
    (h : Settled metaOf k r l) :
    l.map (fun x => if (metaOf x).key == k then r else x) = l := by
  have hall := h.2
  clear h
  induction l with
  | nil => rfl
  | cons x xs ih =>
    have hxs : ∀ y ∈ xs, (metaOf y).key = k → y = r :=
      fun y hy => hall y (List.mem_cons_of_mem x hy)
    have ih2 := ih hxs
    by_cases hk : (metaOf x).key = k
    · have := hall x (List.mem_cons_self x xs) hk
      rw [List.map_cons, ih2]
      simp [hk, this]
    · rw [List.map_cons, ih2]
      simp [hk]

theorem settled_after_create {α : Type} (metaOf : α → ObjectMeta) (o : α) (l : List α)
    (h : l.any (fun x => (metaOf x).key == (metaOf o).key) = false) :
    Settled metaOf (metaOf o).key o (l ++ [o]) := by
  have hno : ∀ x ∈ l, (metaOf x).key ≠ (metaOf o).key := by simpa using h
  refine ⟨⟨o, by simp, rfl⟩, fun x hx hk => ?_⟩
  rcases List.mem_append.mp hx with hx | hx
  · exact absurd hk (hno x hx)
  · simpa using hx

theorem settled_after_update {α : Type} (metaOf : α → ObjectMeta) (k : ObjectKey) (o : α)
    (l : List α) (ho : (metaOf o).key = k)
    (h : l.any (fun x => (metaOf x).key == k) = true) :
    Settled metaOf k o (l.map (fun x => if (metaOf x).key == k then o else x)) := by
  obtain ⟨x, hx, hk⟩ : ∃ x ∈ l, (metaOf x).key = k := by simpa using h
  refine ⟨⟨o, List.mem_map.mpr ⟨x, hx, by simp [hk]⟩, ho⟩, fun y hy hyk => ?_⟩
  obtain ⟨z, _, hz⟩ := List.mem_map.mp hy
  by_cases hzk : (metaOf z).key = k
  · simpa [hzk] using hz.symm
  · simp only [beq_iff_eq, hzk, if_false] at hz
    exact absurd (hz ▸ hyk) hzk

theorem tableGet_of_any {α : Type} (metaOf : α → ObjectMeta) (l : List α) (k : ObjectKey)
    (h : l.any (fun x => (metaOf x).key == k) = true) :
    ∃ x, tableGet metaOf l k = Except.ok x ∧ (metaOf x).key = k := by
  unfold tableGet
  cases hf : l.find? (fun x => (metaOf x).key == k) with
  | none =>
    obtain ⟨x, hx, hk⟩ : ∃ x ∈ l, (metaOf x).key = k := by simpa using h
    have := List.find?_eq_none.mp hf x hx
    simp [hk] at this
  | some y => exact ⟨y, rfl, by simpa using List.find?_some hf⟩

theorem storeClient_CreateRole_present (o : Role) (s : Store)
    (h : s.Roles.any (fun x => x.ObjectMeta.key == o.ObjectMeta.key) = true) :
    storeClient.CreateRole o s
      = (some { Reason := StatusReason.AlreadyExists, Message := "already exists" }, s) := by
  simp only [storeClient, tableCreate, h, if_true]

theorem storeClient_CreateRole_absent (o : Role) (s : Store)
    (h : s.Roles.any (fun x => x.ObjectMeta.key == o.ObjectMeta.key) = false) :
    storeClient.CreateRole o s = (none, { s with Roles := s.Roles ++ [o] }) := by
  simp only [storeClient, tableCreate, h, Bool.false_eq_true, if_false]

theorem storeClient_UpdateRole_present (o : Role) (s : Store) (k : ObjectKey)
    (hk : o.ObjectMeta.key = k)
    (h : s.Roles.any (fun x => x.ObjectMeta.key == k) = true) :
    storeClient.UpdateRole o s
      = (none, { s with Roles := s.Roles.map (fun x => if x.ObjectMeta.key == k then o else x) }) := by
  subst hk
  simp only [storeClient, tableUpdate, h, if_true]

theorem ensureRole_store_first (role : Role) (s : Store) :
    ∃ l, ensureRole storeClient role s = (none, { s with Roles := l }) ∧ RoleSettled role l := by
  by_cases hany : s.Roles.any (fun x => x.ObjectMeta.key == role.ObjectMeta.key) = true
  · obtain ⟨existing, hget, hk⟩ := tableGet_of_any Role.ObjectMeta s.Roles role.ObjectMeta.key hany
    refine ⟨s.Roles.map (fun x => if x.ObjectMeta.key == role.ObjectMeta.key then
      { ObjectMeta := { existing.ObjectMeta with OwnerReferences := role.ObjectMeta.OwnerReferences },
        Rules := role.Rules } else x), ?_, ?_⟩
    · have hget2 : storeClient.GetRole
          { Namespace := role.ObjectMeta.Namespace, Name := role.ObjectMeta.Name } s
          = (Except.ok existing, s) := by
        show (tableGet Role.ObjectMeta s.Roles role.ObjectMeta.key, s) = _
        rw [hget]
      have hupd := storeClient_UpdateRole_present
        { ObjectMeta := { existing.ObjectMeta with OwnerReferences := role.ObjectMeta.OwnerReferences },
          Rules := role.Rules } s role.ObjectMeta.key hk hany
      unfold ensureRole
      simp only [storeClient_CreateRole_present role s hany, IsAlreadyExists, beq_self_eq_true,
        Bool.not_true, Bool.false_eq_true, if_false, hget2, hupd]
    · exact ⟨_, settled_after_update Role.ObjectMeta role.ObjectMeta.key _ s.Roles hk hany,
        rfl, rfl⟩
  · simp only [Bool.not_eq_true] at hany
    refine ⟨s.Roles ++ [role], ?_, role, settled_after_create Role.ObjectMeta role s.Roles hany,
      rfl, rfl⟩
    unfold ensureRole
    simp only [storeClient_CreateRole_absent role s hany]

theorem ensureRole_store_stable (role : Role) (s : Store) (h : RoleSettled role s.Roles) :
    ensureRole storeClient role s = (none, s) := by
  obtain ⟨r, hs, ho, hr⟩ := h
  have hany := hs.any
  have hrk : r.ObjectMeta.key = role.ObjectMeta.key := by
    simpa using List.find?_some hs.find
  have hnew :
      ({ ObjectMeta :=
          { r.ObjectMeta with OwnerReferences := role.ObjectMeta.OwnerReferences },
         Rules := role.Rules } : Role) = r := by
    cases r with
    | mk m rules =>
      cases m
      simp only at ho hr
      subst ho hr
      rfl
  have hget : storeClient.GetRole
      { Namespace := role.ObjectMeta.Namespace, Name := role.ObjectMeta.Name } s
      = (Except.ok r, s) := by
    show (tableGet Role.ObjectMeta s.Roles role.ObjectMeta.key, s) = _
    simp [tableGet, hs.find]
  have hupd := storeClient_UpdateRole_present r s role.ObjectMeta.key hrk hany
  rw [hs.map] at hupd
  unfold ensureRole
  simp only [storeClient_CreateRole_present role s hany, IsAlreadyExists, beq_self_eq_true,
    Bool.not_true, Bool.false_eq_true, if_false, hget, hnew, hupd]

theorem storeClient_CreateRoleBinding_present (o : RoleBinding) (s : Store)
    (h : s.RoleBindings.any (fun x => x.ObjectMeta.key == o.ObjectMeta.key) = true) :
    storeClient.CreateRoleBinding o s
      = (some { Reason := StatusReason.AlreadyExists, Message := "already exists" }, s) := by
  simp only [storeClient, tableCreate, h, if_true]

theorem storeClient_CreateRoleBinding_absent (o : RoleBinding) (s : Store)
    (h : s.RoleBindings.any (fun x => x.ObjectMeta.key == o.ObjectMeta.key) = false) :
    storeClient.CreateRoleBinding o s
      = (none, { s with RoleBindings := s.RoleBindings ++ [o] }) := by
  simp only [storeClient, tableCreate, h, Bool.false_eq_true, if_false]

theorem storeClient_UpdateRoleBinding_present (o : RoleBinding) (s : Store) (k : ObjectKey)
    (hk : o.ObjectMeta.key = k)
    (h : s.RoleBindings.any (fun x => x.ObjectMeta.key == k) = true) :
    storeClient.UpdateRoleBinding o s
      = (none, { s with
          RoleBindings := s.RoleBindings.map (fun x => if x.ObjectMeta.key == k then o else x) }) := by
  subst hk
  simp only [storeClient, tableUpdate, h, if_true]

theorem ensureRoleBinding_store_first (rb : RoleBinding) (s : Store) :
    ∃ l, ensureRoleBinding storeClient rb s = (none, { s with RoleBindings := l }) ∧
      RoleBindingSettled rb l := by
  by_cases hany : s.RoleBindings.any (fun x => x.ObjectMeta.key == rb.ObjectMeta.key) = true
  · obtain ⟨existing, hget, hk⟩ :=
      tableGet_of_any RoleBinding.ObjectMeta s.RoleBindings rb.ObjectMeta.key hany
    refine ⟨s.RoleBindings.map (fun x => if x.ObjectMeta.key == rb.ObjectMeta.key then
      { ObjectMeta := { existing.ObjectMeta with OwnerReferences := rb.ObjectMeta.OwnerReferences },
        Subjects := rb.Subjects,
        RoleRef := rb.RoleRef } else x), ?_, ?_⟩
    · have hget2 : storeClient.GetRoleBinding
          { Namespace := rb.ObjectMeta.Namespace, Name := rb.ObjectMeta.Name } s
          = (Except.ok existing, s) := by
        show (tableGet RoleBinding.ObjectMeta s.RoleBindings rb.ObjectMeta.key, s) = _
        rw [hget]
      have hupd := storeClient_UpdateRoleBinding_present
        { ObjectMeta := { existing.ObjectMeta with OwnerReferences := rb.ObjectMeta.OwnerReferences },
          Subjects := rb.Subjects,
          RoleRef := rb.RoleRef } s rb.ObjectMeta.key hk hany
      unfold ensureRoleBinding
      simp only [storeClient_CreateRoleBinding_present rb s hany, IsAlreadyExists,
        beq_self_eq_true, Bool.not_true, Bool.false_eq_true, if_false, hget2, hupd]
    · exact ⟨_, settled_after_update RoleBinding.ObjectMeta rb.ObjectMeta.key _ s.RoleBindings
        hk hany, rfl, rfl, rfl⟩
  · simp only [Bool.not_eq_true] at hany
    refine ⟨s.RoleBindings ++ [rb], ?_, rb,
      settled_after_create RoleBinding.ObjectMeta rb s.RoleBindings hany, rfl, rfl, rfl⟩
    unfold ensureRoleBinding
    simp only [storeClient_CreateRoleBinding_absent rb s hany]

theorem ensureRoleBinding_store_stable (rb : RoleBinding) (s : Store)
    (h : RoleBindingSettled rb s.RoleBindings) :
    ensureRoleBinding storeClient rb s = (none, s) := by
  obtain ⟨r, hs, ho, hsub, hr⟩ := h
  have hany := hs.any
  have hrk : r.ObjectMeta.key = rb.ObjectMeta.key := by
    simpa using List.find?_some hs.find
  have hnew :
      ({ ObjectMeta :=
          { r.ObjectMeta with OwnerReferences := rb.ObjectMeta.OwnerReferences },
         Subjects := rb.Subjects,
         RoleRef := rb.RoleRef } : RoleBinding) = r := by
    cases r with
    | mk m subjects ref =>
      cases m
      simp only at ho hsub hr
      subst ho hsub hr
      rfl
  have hget : storeClient.GetRoleBinding
      { Namespace := rb.ObjectMeta.Namespace, Name := rb.ObjectMeta.Name } s
      = (Except.ok r, s) := by
    show (tableGet RoleBinding.ObjectMeta s.RoleBindings rb.ObjectMeta.key, s) = _
    simp [tableGet, hs.find]
  have hupd := storeClient_UpdateRoleBinding_present r s rb.ObjectMeta.key hrk hany
  rw [hs.map] at hupd
  unfold ensureRoleBinding
  simp only [storeClient_CreateRoleBinding_present rb s hany, IsAlreadyExists, beq_self_eq_true,
    Bool.not_true, Bool.false_eq_true, if_false, hget, hnew, hupd]

theorem ensureOperatorConditionRole_store_first (oc : OperatorCondition) (R : OwnerReference)
    (s : Store) :
    ∃ l l2, ensureOperatorConditionRole storeClient oc R s
        = (none, { s with Roles := l, RoleBindings := l2 }) ∧
      RoleSettled (desiredRole oc R) l ∧ RoleBindingSettled (wantedRoleBinding oc R s) l2 := by
  obtain ⟨l, h1, hs1⟩ := ensureRole_store_first (desiredRole oc R) s
  obtain ⟨l2, h2, hs2⟩ := ensureRoleBinding_store_first (wantedRoleBinding oc R s)
    { s with Roles := l }
  refine ⟨l, l2, ?_, hs1, hs2⟩
  have hlist : storeClient.ListServiceAccounts oc.ObjectMeta.Namespace s
      = (Except.ok (listedServiceAccounts s oc.ObjectMeta.Namespace), s) := rfl
  unfold ensureOperatorConditionRole
  simp only [hlist, h1]
  exact h2

theorem ensureOperatorConditionRole_store_stable (oc : OperatorCondition) (R : OwnerReference)
    (s : Store) (hr : RoleSettled (desiredRole oc R) s.Roles)
    (hb : RoleBindingSettled (wantedRoleBinding oc R s) s.RoleBindings) :
    ensureOperatorConditionRole storeClient oc R s = (none, s) := by
  have h1 := ensureRole_store_stable (desiredRole oc R) s hr
  have h2 := ensureRoleBinding_store_stable (wantedRoleBinding oc R s) s hb
  have hlist : storeClient.ListServiceAccounts oc.ObjectMeta.Namespace s
      = (Except.ok (listedServiceAccounts s oc.ObjectMeta.Namespace), s) := rfl
  unfold ensureOperatorConditionRole
  simp only [hlist, h1]
  exact h2

theorem ensureRole_store_stable_log (role : Role) (s : Store) (t : List Event)
    (h : RoleSettled role s.Roles) :
    ∃ r ∈ s.Roles, ensureRole storeClient.recording role (s, t)
      = (none, s, t ++
          [ { call := Call.CreateRole role, ok := false },
            { call := Call.GetRole role.ObjectMeta.key, ok := true },
            { call := Call.UpdateRole r, ok := true } ]) := by
  obtain ⟨r, hs, ho, hr⟩ := h
  have hany := hs.any
  have hrk : r.ObjectMeta.key = role.ObjectMeta.key := by
    simpa using List.find?_some hs.find
  have hnew :
      ({ ObjectMeta :=
          { r.ObjectMeta with OwnerReferences := role.ObjectMeta.OwnerReferences },
         Rules := role.Rules } : Role) = r := by
    cases r with
    | mk m rules =>
      cases m
      simp only at ho hr
      subst ho hr
      rfl
  have hget : storeClient.GetRole
      { Namespace := role.ObjectMeta.Namespace, Name := role.ObjectMeta.Name } s
      = (Except.ok r, s) := by
    show (tableGet Role.ObjectMeta s.Roles role.ObjectMeta.key, s) = _
    simp [tableGet, hs.find]
  have hupd := storeClient_UpdateRole_present r s role.ObjectMeta.key hrk hany
  rw [hs.map] at hupd
  refine ⟨r, List.mem_of_find?_eq_some hs.find, ?_⟩
  unfold ensureRole
  simp only [Client.recording, storeClient_CreateRole_present role s hany, IsAlreadyExists,
    beq_self_eq_true, Bool.not_true, Bool.false_eq_true, if_false, hget, hnew, hupd,
    Option.isNone_some, Option.isNone_none, exceptOk, List.append_assoc, List.cons_append,
    List.nil_append, ObjectMeta.key]

theorem ensureRoleBinding_store_stable_log (rb : RoleBinding) (s : Store) (t : List Event)
    (h : RoleBindingSettled rb s.RoleBindings) :
    ∃ w ∈ s.RoleBindings, ensureRoleBinding storeClient.recording rb (s, t)
      = (none, s, t ++
          [ { call := Call.CreateRoleBinding rb, ok := false },
            { call := Call.GetRoleBinding rb.ObjectMeta.key, ok := true },
            { call := Call.UpdateRoleBinding w, ok := true } ]) := by
  obtain ⟨r, hs, ho, hsub, hr⟩ := h
  have hany := hs.any
  have hrk : r.ObjectMeta.key = rb.ObjectMeta.key := by
    simpa using List.find?_some hs.find
  have hnew :
      ({ ObjectMeta :=
          { r.ObjectMeta with OwnerReferences := rb.ObjectMeta.OwnerReferences },
         Subjects := rb.Subjects,
         RoleRef := rb.RoleRef } : RoleBinding) = r := by
    cases r with
    | mk m subjects ref =>
      cases m
      simp only at ho hsub hr
      subst ho hsub hr
      rfl
  have hget : storeClient.GetRoleBinding
      { Namespace := rb.ObjectMeta.Namespace, Name := rb.ObjectMeta.Name } s
      = (Except.ok r, s) := by
    show (tableGet RoleBinding.ObjectMeta s.RoleBindings rb.ObjectMeta.key, s) = _
    simp [tableGet, hs.find]
  have hupd := storeClient_UpdateRoleBinding_present r s rb.ObjectMeta.key hrk hany
  rw [hs.map] at hupd
  refine ⟨r, List.mem_of_find?_eq_some hs.find, ?_⟩
  unfold ensureRoleBinding
  simp only [Client.recording, storeClient_CreateRoleBinding_present rb s hany, IsAlreadyExists,
    beq_self_eq_true, Bool.not_true, Bool.false_eq_true, if_false, hget, hnew, hupd,
    Option.isNone_some, Option.isNone_none, exceptOk, List.append_assoc, List.cons_append,
    List.nil_append, ObjectMeta.key]

theorem ensureOperatorConditionRole_store_stable_log (oc : OperatorCondition)
    (R : OwnerReference) (s : Store) (hr : RoleSettled (desiredRole oc R) s.Roles)
    (hb : RoleBindingSettled (wantedRoleBinding oc R s) s.RoleBindings) :
    ∃ r ∈ s.Roles, ∃ w ∈ s.RoleBindings,
      (ensureOperatorConditionRole storeClient.recording oc R (s, [])).2.2
        = [ { call := Call.ListServiceAccounts oc.ObjectMeta.Namespace, ok := true },
            { call := Call.CreateRole (desiredRole oc R), ok := false },
            { call := Call.GetRole oc.ObjectMeta.key, ok := true },
            { call := Call.UpdateRole r, ok := true },
            { call := Call.CreateRoleBinding (wantedRoleBinding oc R s), ok := false },
            { call := Call.GetRoleBinding oc.ObjectMeta.key, ok := true },
            { call := Call.UpdateRoleBinding w, ok := true } ] := by
  obtain ⟨r, hrm, h1⟩ := ensureRole_store_stable_log (desiredRole oc R) s
    [{ call := Call.ListServiceAccounts oc.ObjectMeta.Namespace, ok := true }] hr
  obtain ⟨w, hwm, h2⟩ := ensureRoleBinding_store_stable_log (wantedRoleBinding oc R s) s
    ([{ call := Call.ListServiceAccounts oc.ObjectMeta.Namespace, ok := true }] ++
      [ { call := Call.CreateRole (desiredRole oc R), ok := false },
        { call := Call.GetRole (desiredRole oc R).ObjectMeta.key, ok := true },
        { call := Call.UpdateRole r, ok := true } ]) hb
  refine ⟨r, hrm, w, hwm, ?_⟩
  have hlist : storeClient.recording.ListServiceAccounts oc.ObjectMeta.Namespace (s, [])
      = (Except.ok (listedServiceAccounts s oc.ObjectMeta.Namespace), s,
          [{ call := Call.ListServiceAccounts oc.ObjectMeta.Namespace, ok := true }]) := rfl
  unfold ensureOperatorConditionRole
  simp only [hlist, h1]
  unfold wantedRoleBinding at h2
  rw [h2]
  rfl

theorem ensureRole_log_append {σ : Type} (c : Client σ) (role : Role) (s : σ) (t : List Event) :
    (ensureRole c.recording role (s, t)).2.2
      = t ++ (ensureRole c.recording role (s, [])).2.2 := by
  unfold ensureRole
  simp only [Client.recording]
  rcases h1 : c.CreateRole role s with ⟨r1, s1⟩
  cases r1 with
  | none => simp [h1]
  | some err =>
    by_cases hae : IsAlreadyExists err = true
    · simp only [h1, hae]
      rcases h2 : c.GetRole { Namespace := role.ObjectMeta.Namespace, Name := role.ObjectMeta.Name } s1
        with ⟨r2, s2⟩
      cases r2 with
      | error e2 => simp [h2]
      | ok existing =>
        simp only [h2, Bool.not_true, Bool.false_eq_true, if_false]
        rcases h3 : c.UpdateRole
            { ObjectMeta := { existing.ObjectMeta with OwnerReferences := role.ObjectMeta.OwnerReferences },
              Rules := role.Rules } s2 with ⟨r3, s3⟩
        cases r3 with
        | none => simp [h3]
        | some e3 => simp [h3]
    · simp [h1, hae]

theorem ensureRole_log_onRole {σ : Type} (c : Client σ) (role : Role) (s : σ) :
    ∀ e ∈ (ensureRole c.recording role (s, [])).2.2, e.call.onRole = true := by
  unfold ensureRole
  simp only [Client.recording]
  rcases h1 : c.CreateRole role s with ⟨r1, s1⟩
  cases r1 with
  | none => simp [h1, Call.onRole]
  | some err =>
    by_cases hae : IsAlreadyExists err = true
    · simp only [h1, hae]
      rcases h2 : c.GetRole { Namespace := role.ObjectMeta.Namespace, Name := role.ObjectMeta.Name } s1
        with ⟨r2, s2⟩
      cases r2 with
      | error e2 => simp [h2, Call.onRole]
      | ok existing =>
        simp only [h2, Bool.not_true, Bool.false_eq_true, if_false]
        rcases h3 : c.UpdateRole
            { ObjectMeta := { existing.ObjectMeta with OwnerReferences := role.ObjectMeta.OwnerReferences },
              Rules := role.Rules } s2 with ⟨r3, s3⟩
        cases r3 with
        | none => simp [h3, Call.onRole]
        | some e3 => simp [h3, Call.onRole]
    · simp [h1, hae, Call.onRole]

theorem ensureRoleBinding_log_append {σ : Type} (c : Client σ) (roleBinding : RoleBinding)
    (s : σ) (t : List Event) :
    (ensureRoleBinding c.recording roleBinding (s, t)).2.2
      = t ++ (ensureRoleBinding c.recording roleBinding (s, [])).2.2 := by
  unfold ensureRoleBinding
  simp only [Client.recording]
  rcases h1 : c.CreateRoleBinding roleBinding s with ⟨r1, s1⟩
  cases r1 with
  | none => simp [h1]
  | some err =>
    by_cases hae : IsAlreadyExists err = true
    · simp only [h1, hae]
      rcases h2 : c.GetRoleBinding
          { Namespace := roleBinding.ObjectMeta.Namespace, Name := roleBinding.ObjectMeta.Name } s1
        with ⟨r2, s2⟩
      cases r2 with
      | error e2 => simp [h2]
      | ok existing =>
        simp only [h2, Bool.not_true, Bool.false_eq_true, if_false]
        rcases h3 : c.UpdateRoleBinding
            { ObjectMeta :=
                { existing.ObjectMeta with
                  OwnerReferences := roleBinding.ObjectMeta.OwnerReferences },
              Subjects := roleBinding.Subjects,
              RoleRef := roleBinding.RoleRef } s2 with ⟨r3, s3⟩
        cases r3 with
        | none => simp [h3]
        | some e3 => simp [h3]
    · simp [h1, hae]

theorem ensureRoleBinding_log_onRoleBinding {σ : Type} (c : Client σ)
    (roleBinding : RoleBinding) (s : σ) :
    ∀ e ∈ (ensureRoleBinding c.recording roleBinding (s, [])).2.2,
      e.call.onRoleBinding = true := by
  unfold ensureRoleBinding
  simp only [Client.recording]
  rcases h1 : c.CreateRoleBinding roleBinding s with ⟨r1, s1⟩
  cases r1 with
  | none => simp [h1, Call.onRoleBinding]
  | some err =>
    by_cases hae : IsAlreadyExists err = true
    · simp only [h1, hae]
      rcases h2 : c.GetRoleBinding
          { Namespace := roleBinding.ObjectMeta.Namespace, Name := roleBinding.ObjectMeta.Name } s1
        with ⟨r2, s2⟩
      cases r2 with
      | error e2 => simp [h2, Call.onRoleBinding]
      | ok existing =>
        simp only [h2, Bool.not_true, Bool.false_eq_true, if_false]
        rcases h3 : c.UpdateRoleBinding
            { ObjectMeta :=
                { existing.ObjectMeta with
                  OwnerReferences := roleBinding.ObjectMeta.OwnerReferences },
              Subjects := roleBinding.Subjects,
              RoleRef := roleBinding.RoleRef } s2 with ⟨r3, s3⟩
        cases r3 with
        | none => simp [h3, Call.onRoleBinding]
        | some e3 => simp [h3, Call.onRoleBinding]
    · simp [h1, hae, Call.onRoleBinding]

theorem ensureOperatorConditionRole_log {σ : Type} (c : Client σ) (oc : OperatorCondition)
    (R : OwnerReference) (s s0 : σ) (items : Slice ServiceAccount) (t : List Event)
    (hlist : c.ListServiceAccounts oc.ObjectMeta.Namespace s = (Except.ok items, s0)) :
    (ensureOperatorConditionRole c.recording oc R (s, t)).2.2
      = t ++ { call := Call.ListServiceAccounts oc.ObjectMeta.Namespace, ok := true } ::
          ((ensureRole c.recording (desiredRole oc R) (s0, [])).2.2 ++
            (if (ensureRole c (desiredRole oc R) s0).1.isNone then
              (ensureRoleBinding c.recording
                (desiredRoleBinding oc R (desiredRole oc R)
                  (buildSubjects (filterServiceAccounts items (hasOwnerFunc R))))
                ((ensureRole c (desiredRole oc R) s0).2, [])).2.2
            else [])) := by
  have hrec : c.recording.ListServiceAccounts oc.ObjectMeta.Namespace (s, t)
      = (Except.ok items, (s0, t ++ [{ call := Call.ListServiceAccounts oc.ObjectMeta.Namespace,
                                       ok := true }])) := by
    simp [Client.recording, hlist, exceptOk]
  unfold ensureOperatorConditionRole
  rw [hrec]
  simp only []
  obtain ⟨ha, hb, _⟩ := ensureRole_recording c (desiredRole oc R) s0
    (t ++ [{ call := Call.ListServiceAccounts oc.ObjectMeta.Namespace, ok := true }])
  have hlog := ensureRole_log_append c (desiredRole oc R) s0
    (t ++ [{ call := Call.ListServiceAccounts oc.ObjectMeta.Namespace, ok := true }])
  rcases h1 : ensureRole c (desiredRole oc R) s0 with ⟨r1, s1⟩
  rcases h1r : ensureRole c.recording (desiredRole oc R) (s0,
    t ++ [{ call := Call.ListServiceAccounts oc.ObjectMeta.Namespace, ok := true }])
    with ⟨r1r, s1r, t1⟩
  rw [h1, h1r] at ha hb
  rw [h1r] at hlog
  simp only at ha hb hlog
  subst ha hb
  simp only [h1r]
  cases r1r with
  | some e => simp [hlog]
  | none =>
    simp only [Option.isNone_none, if_true]
    rw [ensureRoleBinding_log_append, hlog]
    simp

theorem ensureRole_create_failed {σ : Type} (c : Client σ) (role : Role) (s0 s1 : σ)
    (err : Error) (hcreate : c.CreateRole role s0 = (some err, s1))
    (hae : IsAlreadyExists err = false) :
    ensureRole c role s0 = (some err, s1) ∧
    (ensureRole c.recording role (s0, [])).2.2 = [{ call := Call.CreateRole role, ok := false }] := by
  unfold ensureRole
  simp [Client.recording, hcreate, hae]

theorem ensureRole_get_failed {σ : Type} (c : Client σ) (role : Role) (s0 s1 s2 : σ)
    (err e2 : Error) (hcreate : c.CreateRole role s0 = (some err, s1))
    (hae : IsAlreadyExists err = true)
    (hget : c.GetRole role.ObjectMeta.key s1 = (Except.error e2, s2)) :
    ensureRole c role s0 = (some e2, s2) ∧
    (ensureRole c.recording role (s0, [])).2.2
      = [ { call := Call.CreateRole role, ok := false },
          { call := Call.GetRole role.ObjectMeta.key, ok := false } ] := by
  have hget2 : c.GetRole { Namespace := role.ObjectMeta.Namespace, Name := role.ObjectMeta.Name }
      s1 = (Except.error e2, s2) := hget
  unfold ensureRole
  simp [Client.recording, hcreate, hae, hget2, exceptOk, ObjectMeta.key]

theorem ensureRole_update_result {σ : Type} (c : Client σ) (role existing : Role)
    (s0 s1 s2 s3 : σ) (err : Error) (r3 : Option Error)
    (hcreate : c.CreateRole role s0 = (some err, s1))
    (hae : IsAlreadyExists err = true)
    (hget : c.GetRole role.ObjectMeta.key s1 = (Except.ok existing, s2))
    (hupdate : c.UpdateRole (roleUpdateOf existing role) s2 = (r3, s3)) :
    ensureRole c role s0 = (r3, s3) ∧
    (ensureRole c.recording role (s0, [])).2.2
      = [ { call := Call.CreateRole role, ok := false },
          { call := Call.GetRole role.ObjectMeta.key, ok := true },
          { call := Call.UpdateRole (roleUpdateOf existing role), ok := r3.isNone } ] := by
  have hget2 : c.GetRole { Namespace := role.ObjectMeta.Namespace, Name := role.ObjectMeta.Name }
      s1 = (Except.ok existing, s2) := hget
  have hupdate2 : c.UpdateRole
      { ObjectMeta := { existing.ObjectMeta with OwnerReferences := role.ObjectMeta.OwnerReferences },
        Rules := role.Rules } s2 = (r3, s3) := hupdate
  unfold ensureRole
  cases r3 with
  | none => simp [Client.recording, hcreate, hae, hget2, hupdate2, exceptOk, ObjectMeta.key, roleUpdateOf]
  | some e3 => simp [Client.recording, hcreate, hae, hget2, hupdate2, exceptOk, ObjectMeta.key, roleUpdateOf]

theorem ensureRoleBinding_log_head {σ : Type} (c : Client σ) (roleBinding : RoleBinding)
    (s : σ) :
    ∃ ok rest, (ensureRoleBinding c.recording roleBinding (s, [])).2.2
      = { call := Call.CreateRoleBinding roleBinding, ok := ok } :: rest := by
  unfold ensureRoleBinding
  simp only [Client.recording]
  rcases h1 : c.CreateRoleBinding roleBinding s with ⟨r1, s1⟩
  cases r1 with
  | none => exact ⟨true, [], by simp [h1]⟩
  | some err =>
    by_cases hae : IsAlreadyExists err = true
    · simp only [h1, hae]
      rcases h2 : c.GetRoleBinding
          { Namespace := roleBinding.ObjectMeta.Namespace, Name := roleBinding.ObjectMeta.Name } s1
        with ⟨r2, s2⟩
      cases r2 with
      | error e2 => exact ⟨false, _, by simp [h2]; rfl⟩
      | ok existing =>
        simp only [h2, Bool.not_true, Bool.false_eq_true, if_false]
        rcases h3 : c.UpdateRoleBinding
            { ObjectMeta :=
                { existing.ObjectMeta with
                  OwnerReferences := roleBinding.ObjectMeta.OwnerReferences },
              Subjects := roleBinding.Subjects,
              RoleRef := roleBinding.RoleRef } s2 with ⟨r3, s3⟩
        cases r3 with
        | none => exact ⟨false, _, by simp [h3]; rfl⟩
        | some e3 => exact ⟨false, _, by simp [h3]; rfl⟩
    · exact ⟨false, [], by simp [h1, hae]⟩

theorem FindAnyDeploymentsMatchingNamesLoop_log {σ : Type}
    (c : InstallStrategyDeploymentClientForNamespace σ) (names : List String) :
    ∀ (acc : Slice Deployment) (s : σ) (t : List OpEvent),
      ∃ l : List OpEvent,
        (c.recording.FindAnyDeploymentsMatchingNamesLoop names acc (s, t)).2.2 = t ++ l ∧
        (c.recording.FindAnyDeploymentsMatchingNamesLoop names acc (s, t)).1
          = (c.FindAnyDeploymentsMatchingNamesLoop names acc s).1 ∧
        (c.recording.FindAnyDeploymentsMatchingNamesLoop names acc (s, t)).2.1
          = (c.FindAnyDeploymentsMatchingNamesLoop names acc s).2 ∧
        l.map OpEvent.lookedUp = (names.take l.length).map (fun n => some (c.Namespace, n)) ∧
        (c.FindAnyDeploymentsMatchingNamesLoop names acc s).1.1.toList
          = acc.toList ++ l.filterMap OpEvent.fetched ∧
        ((c.FindAnyDeploymentsMatchingNamesLoop names acc s).1.2 = none →
          l.length = names.length ∧ ∀ ev ∈ l, ev.hardFailure = none) ∧
        (∀ e, (c.FindAnyDeploymentsMatchingNamesLoop names acc s).1.2 = some e →
          ∃ init last, l = init ++ [last] ∧ last.hardFailure = some e ∧
            ∀ ev ∈ init, ev.hardFailure = none) := by
  induction names with
  | nil =>
    intro acc s t
    exact ⟨[], by simp [InstallStrategyDeploymentClientForNamespace.FindAnyDeploymentsMatchingNamesLoop],
      rfl, rfl, rfl, by simp [InstallStrategyDeploymentClientForNamespace.FindAnyDeploymentsMatchingNamesLoop],
      fun _ => ⟨rfl, by simp⟩,
      fun e he => by simp [InstallStrategyDeploymentClientForNamespace.FindAnyDeploymentsMatchingNamesLoop] at he⟩
  | cons n rest ih =>
    intro acc s t
    rcases hget : c.opLister.DeploymentGet c.Namespace n s with ⟨r, s1⟩
    have hrec : c.recording.opLister.DeploymentGet c.recording.Namespace n (s, t)
        = (r, (s1, t ++ [OpEvent.DeploymentGet c.Namespace n r])) := by
      simp [InstallStrategyDeploymentClientForNamespace.recording, hget]
    cases r with
    | ok d =>
      obtain ⟨l, h1, h2, h3, h4, h5, h6, h7⟩ :=
        ih (acc.append d) s1 (t ++ [OpEvent.DeploymentGet c.Namespace n (Except.ok d)])
      have hplain : c.FindAnyDeploymentsMatchingNamesLoop (n :: rest) acc s
          = c.FindAnyDeploymentsMatchingNamesLoop rest (acc.append d) s1 := by
        simp [InstallStrategyDeploymentClientForNamespace.FindAnyDeploymentsMatchingNamesLoop, hget]
      have hrecd : c.recording.FindAnyDeploymentsMatchingNamesLoop (n :: rest) acc (s, t)
          = c.recording.FindAnyDeploymentsMatchingNamesLoop rest (acc.append d)
              (s1, t ++ [OpEvent.DeploymentGet c.Namespace n (Except.ok d)]) := by
        simp [InstallStrategyDeploymentClientForNamespace.FindAnyDeploymentsMatchingNamesLoop, hrec]
      rw [hplain, hrecd]
      refine ⟨OpEvent.DeploymentGet c.Namespace n (Except.ok d) :: l, by simp [h1], h2, h3, ?_, ?_,
        ?_, ?_⟩
      · simp [OpEvent.lookedUp, h4]
      · rw [h5]; simp [OpEvent.fetched]
      · intro hnone
        obtain ⟨ha, hb⟩ := h6 hnone
        refine ⟨by simp [ha], ?_⟩
        intro ev hev
        rcases List.mem_cons.mp hev with h | h
        · subst h; rfl
        · exact hb ev h
      · intro e he
        obtain ⟨init, last, ha, hb, hc⟩ := h7 e he
        refine ⟨OpEvent.DeploymentGet c.Namespace n (Except.ok d) :: init, last, by simp [ha],
          hb, ?_⟩
        intro ev hev
        rcases List.mem_cons.mp hev with h | h
        · subst h; rfl
        · exact hc ev h
    | error err =>
      by_cases hnf : IsNotFound err = true
      · obtain ⟨l, h1, h2, h3, h4, h5, h6, h7⟩ :=
          ih acc s1 (t ++ [OpEvent.DeploymentGet c.Namespace n (Except.error err)])
        have hplain : c.FindAnyDeploymentsMatchingNamesLoop (n :: rest) acc s
            = c.FindAnyDeploymentsMatchingNamesLoop rest acc s1 := by
          simp [InstallStrategyDeploymentClientForNamespace.FindAnyDeploymentsMatchingNamesLoop,
            hget, hnf]
        have hrecd : c.recording.FindAnyDeploymentsMatchingNamesLoop (n :: rest) acc (s, t)
            = c.recording.FindAnyDeploymentsMatchingNamesLoop rest acc
                (s1, t ++ [OpEvent.DeploymentGet c.Namespace n (Except.error err)]) := by
          simp [InstallStrategyDeploymentClientForNamespace.FindAnyDeploymentsMatchingNamesLoop,
            hrec, hnf]
        rw [hplain, hrecd]
        refine ⟨OpEvent.DeploymentGet c.Namespace n (Except.error err) :: l, by simp [h1], h2, h3,
          ?_, ?_, ?_, ?_⟩
        · simp [OpEvent.lookedUp, h4]
        · rw [h5]; simp [OpEvent.fetched]
        · intro hnone
          obtain ⟨ha, hb⟩ := h6 hnone
          refine ⟨by simp [ha], ?_⟩
          intro ev hev
          rcases List.mem_cons.mp hev with h | h
          · subst h; simp [OpEvent.hardFailure, hnf]
          · exact hb ev h
        · intro e he
          obtain ⟨init, last, ha, hb, hc⟩ := h7 e he
          refine ⟨OpEvent.DeploymentGet c.Namespace n (Except.error err) :: init, last,
            by simp [ha], hb, ?_⟩
          intro ev hev
          rcases List.mem_cons.mp hev with h | h
          · subst h; simp [OpEvent.hardFailure, hnf]
          · exact hc ev h
      · have hplain : c.FindAnyDeploymentsMatchingNamesLoop (n :: rest) acc s
            = ((acc, some err), s1) := by
          simp [InstallStrategyDeploymentClientForNamespace.FindAnyDeploymentsMatchingNamesLoop,
            hget, hnf]
        have hrecd : c.recording.FindAnyDeploymentsMatchingNamesLoop (n :: rest) acc (s, t)
            = ((acc, some err),
                (s1, t ++ [OpEvent.DeploymentGet c.Namespace n (Except.error err)])) := by
          simp [InstallStrategyDeploymentClientForNamespace.FindAnyDeploymentsMatchingNamesLoop,
            hrec, hnf]
        rw [hplain, hrecd]
        refine ⟨[OpEvent.DeploymentGet c.Namespace n (Except.error err)], rfl, rfl, rfl,
          by simp [OpEvent.lookedUp], by simp [OpEvent.fetched], by simp, ?_⟩
        intro e he
        have hee : err = e := by simpa using he
        subst hee
        exact ⟨[], _, rfl, by simp [OpEvent.hardFailure, hnf], by simp⟩

theorem ensureOperatorConditionRole_log_not_sweep {σ : Type} (c : Client σ)
    (oc : OperatorCondition) (R : OwnerReference) (s : σ) (t : List Event) :
    ∀ ev ∈ (ensureOperatorConditionRole c.recording oc R (s, t)).2.2,
      ev ∈ t ∨ ev.call.onSweep = false := by
  rcases hlist : c.ListServiceAccounts oc.ObjectMeta.Namespace s with ⟨r0, s0⟩
  cases r0 with
  | error e =>
    intro ev hev
    have hrec : c.recording.ListServiceAccounts oc.ObjectMeta.Namespace (s, t)
        = (Except.error e, (s0, t ++ [{ call := Call.ListServiceAccounts oc.ObjectMeta.Namespace,
                                        ok := false }])) := by
      simp [Client.recording, hlist, exceptOk]
    unfold ensureOperatorConditionRole at hev
    rw [hrec] at hev
    simp only [List.mem_append, List.mem_singleton] at hev
    rcases hev with h | h
    · exact Or.inl h
    · subst h; exact Or.inr rfl
  | ok items =>
    intro ev hev
    rw [ensureOperatorConditionRole_log c oc R s s0 items t hlist] at hev
    rcases List.mem_append.mp hev with h | h
    · exact Or.inl h
    · right
      rcases List.mem_cons.mp h with h | h
      · subst h; rfl
      · rcases List.mem_append.mp h with h | h
        · have := ensureRole_log_onRole c (desiredRole oc R) s0 ev h
          cases hc : ev.call <;> simp_all [Call.onRole, Call.onSweep]
        · by_cases hr : (ensureRole c (desiredRole oc R) s0).1.isNone = true
          · rw [if_pos hr] at h
            have := ensureRoleBinding_log_onRoleBinding c _ _ ev h
            cases hc : ev.call <;> simp_all [Call.onRoleBinding, Call.onSweep]
          · rw [if_neg hr] at h
            simp at h

theorem ensureDeploymentEnvVarsLoop_log {σ : Type} (c : ReconcileClient σ)
    (oc : OperatorCondition) (ds : List Deployment) :
    ∀ (s : σ) (t : List Event),
      (ensureDeploymentEnvVarsLoop c.recording oc ds (s, t)).1
        = (ensureDeploymentEnvVarsLoop c oc ds s).1 ∧
      (ensureDeploymentEnvVarsLoop c.recording oc ds (s, t)).2.1
        = (ensureDeploymentEnvVarsLoop c oc ds s).2 ∧
      ((ensureDeploymentEnvVarsLoop c oc ds s).1 = none →
        (ensureDeploymentEnvVarsLoop c.recording oc ds (s, t)).2.2
          = t ++ ds.map (sweepUpdate oc true)) ∧
      (∀ e, (ensureDeploymentEnvVarsLoop c oc ds s).1 = some e →
        ∃ pre d post sk sk1, ds = pre ++ d :: post ∧
          ensureDeploymentEnvVarsLoop c oc pre s = (none, sk) ∧
          c.UpdateDeployment (setConditionEnvVar oc d) sk = (some e, sk1) ∧
          ensureDeploymentEnvVarsLoop c oc ds s = (some e, sk1) ∧
          (ensureDeploymentEnvVarsLoop c.recording oc ds (s, t)).2.2
            = t ++ pre.map (sweepUpdate oc true) ++ [sweepUpdate oc false d]) := by
  induction ds with
  | nil =>
    intro s t
    refine ⟨rfl, rfl, fun _ => by simp [ensureDeploymentEnvVarsLoop], fun e he => ?_⟩
    simp [ensureDeploymentEnvVarsLoop] at he
  | cons d rest ih =>
    intro s t
    rcases hup : c.UpdateDeployment (setConditionEnvVar oc d) s with ⟨r, s1⟩
    have hrec : c.recording.UpdateDeployment (setConditionEnvVar oc d) (s, t)
        = (r, (s1, t ++ [{ call := Call.UpdateDeployment (setConditionEnvVar oc d),
                            ok := r.isNone }])) := by
      simp [ReconcileClient.recording, hup]
    cases r with
    | some err =>
      have hplain : ensureDeploymentEnvVarsLoop c oc (d :: rest) s = (some err, s1) := by
        simp [ensureDeploymentEnvVarsLoop, hup]
      have hrecd : ensureDeploymentEnvVarsLoop c.recording oc (d :: rest) (s, t)
          = (some err, (s1, t ++ [sweepUpdate oc false d])) := by
        simp [ensureDeploymentEnvVarsLoop, hrec, sweepUpdate]
      rw [hplain, hrecd]
      refine ⟨rfl, rfl, fun h => by simp at h, fun e he => ?_⟩
      have hee : err = e := by simpa using he
      subst hee
      exact ⟨[], d, rest, s, s1, rfl, rfl, hup, rfl, by simp⟩
    | none =>
      have hplain : ensureDeploymentEnvVarsLoop c oc (d :: rest) s
          = ensureDeploymentEnvVarsLoop c oc rest s1 := by
        simp [ensureDeploymentEnvVarsLoop, hup]
      have hrecd : ensureDeploymentEnvVarsLoop c.recording oc (d :: rest) (s, t)
          = ensureDeploymentEnvVarsLoop c.recording oc rest
              (s1, t ++ [sweepUpdate oc true d]) := by
        simp [ensureDeploymentEnvVarsLoop, hrec, sweepUpdate]
      obtain ⟨h1, h2, h3, h4⟩ := ih s1 (t ++ [sweepUpdate oc true d])
      rw [hplain, hrecd]
      refine ⟨h1, h2, fun h => by rw [h3 h]; simp, fun e he => ?_⟩
      obtain ⟨pre, d2, post, sk, sk1, ha, hb, hc, hd, hlog⟩ := h4 e he
      refine ⟨d :: pre, d2, post, sk, sk1, by simp [ha], ?_, hc, hd, by rw [hlog]; simp⟩
      simp [ensureDeploymentEnvVarsLoop, hup, hb]

theorem ensureEnvVar_mem (v : EnvVar) (S : Slice EnvVar) : v ∈ (ensureEnvVar v S).toList := by
  rw [ensureEnvVar_toList]
  by_cases hany : S.toList.any (fun e => decide (e.Name = v.Name)) = true
  · obtain ⟨e, he, hn⟩ : ∃ e ∈ S.toList, e.Name = v.Name := by simpa using hany
    simp only [hany, if_true, List.append_nil]
    exact List.mem_map.mpr ⟨e, he, by simp [hn]⟩
  · simp [hany]

theorem ensureEnvVar_named (v : EnvVar) (S : Slice EnvVar) :
    ∀ e ∈ (ensureEnvVar v S).toList, e.Name = v.Name → e = v := by
  intro e he hn
  rw [ensureEnvVar_toList] at he
  rcases List.mem_append.mp he with h | h
  · obtain ⟨x, _, hx⟩ := List.mem_map.mp h
    by_cases hxn : x.Name = v.Name
    · simpa [hxn] using hx.symm
    · simp only [hxn, if_false] at hx
      exact absurd (hx ▸ hn) hxn
  · by_cases hany : S.toList.any (fun e => decide (e.Name = v.Name)) = true
    · simp [hany] at h
    · simpa [hany] using h

theorem ensureEnvVar_others (v : EnvVar) (S : Slice EnvVar) :
    (ensureEnvVar v S).toList.filter (fun e => decide (e.Name ≠ v.Name))
      = S.toList.filter (fun e => decide (e.Name ≠ v.Name)) := by
  rw [ensureEnvVar_toList, List.filter_append, filter_other_map_replace]
  by_cases hany : S.toList.any (fun e => decide (e.Name = v.Name)) = true
  · simp [hany]
  · simp [hany]

theorem Slice.mapInPlace_toList {α : Type} (f : α → α) (s : Slice α) :
    (s.mapInPlace f).toList = s.toList.map f := by
  cases s <;> rfl

theorem Slice.mapInPlace_isNil {α : Type} (f : α → α) (s : Slice α) :
    (s.mapInPlace f).isNil = s.isNil := by
  cases s <;> rfl

/-- On the reference store `ensureOperatorConditionRole` always succeeds, and a second run
for the same OperatorCondition and owner reference succeeds and leaves the store exactly
as the first run left it, also when the service accounts were changed in between but the
owned ones among those listed are the same, in the same order. -/
theorem ensureOperatorConditionRole_store_second_run (oc : OperatorCondition)
    (R : OwnerReference) (s : Store) :
    (ensureOperatorConditionRole storeClient oc R s).1 = none ∧
    ensureOperatorConditionRole storeClient oc R
        (ensureOperatorConditionRole storeClient oc R s).2
      = (none, (ensureOperatorConditionRole storeClient oc R s).2) ∧
    (∃ r ∈ (ensureOperatorConditionRole storeClient oc R s).2.Roles,
      ∃ w ∈ (ensureOperatorConditionRole storeClient oc R s).2.RoleBindings,
        (ensureOperatorConditionRole storeClient.recording oc R
            ((ensureOperatorConditionRole storeClient oc R s).2, [])).2.2
          = [ { call := Call.ListServiceAccounts oc.ObjectMeta.Namespace, ok := true },
              { call := Call.CreateRole (desiredRole oc R), ok := false },
              { call := Call.GetRole oc.ObjectMeta.key, ok := true },
              { call := Call.UpdateRole r, ok := true },
              { call := Call.CreateRoleBinding (wantedRoleBinding oc R s), ok := false },
              { call := Call.GetRoleBinding oc.ObjectMeta.key, ok := true },
              { call := Call.UpdateRoleBinding w, ok := true } ]) ∧
    ∀ sas : List ServiceAccount,
      ownedServiceAccounts (listedServiceAccounts
          { (ensureOperatorConditionRole storeClient oc R s).2 with ServiceAccounts := sas }
          oc.ObjectMeta.Namespace) R
        = ownedServiceAccounts (listedServiceAccounts s oc.ObjectMeta.Namespace) R →
      ensureOperatorConditionRole storeClient oc R
          { (ensureOperatorConditionRole storeClient oc R s).2 with ServiceAccounts := sas }
        = (none, { (ensureOperatorConditionRole storeClient oc R s).2 with
                    ServiceAccounts := sas }) := by
  obtain ⟨l, l2, hrun, hs1, hs2⟩ := ensureOperatorConditionRole_store_first oc R s
  have hwanted : ∀ sas : List ServiceAccount,
      ownedServiceAccounts (listedServiceAccounts
          { ServiceAccounts := sas, Roles := l, RoleBindings := l2 } oc.ObjectMeta.Namespace) R
        = ownedServiceAccounts (listedServiceAccounts s oc.ObjectMeta.Namespace) R →
      wantedRoleBinding oc R { ServiceAccounts := sas, Roles := l, RoleBindings := l2 }
        = wantedRoleBinding oc R s := by
    intro sas hsame
    unfold wantedRoleBinding
    rw [buildSubjects_eq, buildSubjects_eq, filterServiceAccounts_owned,
      filterServiceAccounts_owned]
    unfold ownedServiceAccounts at hsame
    rw [hsame]
  have key : ∀ sas : List ServiceAccount,
      ownedServiceAccounts (listedServiceAccounts
          { ServiceAccounts := sas, Roles := l, RoleBindings := l2 } oc.ObjectMeta.Namespace) R
        = ownedServiceAccounts (listedServiceAccounts s oc.ObjectMeta.Namespace) R →
      ensureOperatorConditionRole storeClient oc R
          { ServiceAccounts := sas, Roles := l, RoleBindings := l2 }
        = (none, { ServiceAccounts := sas, Roles := l, RoleBindings := l2 }) := by
    intro sas hsame
    apply ensureOperatorConditionRole_store_stable oc R _ hs1
    rw [hwanted sas hsame]
    exact hs2
  have hlog := ensureOperatorConditionRole_store_stable_log oc R
    { ServiceAccounts := s.ServiceAccounts, Roles := l, RoleBindings := l2 } hs1
    (by rw [hwanted s.ServiceAccounts rfl]; exact hs2)
  rw [hwanted s.ServiceAccounts rfl] at hlog
  rw [hrun]
  exact ⟨rfl, key s.ServiceAccounts rfl, hlog, fun sas hsame => key sas hsame⟩

theorem ensureRoleBinding_update_result {σ : Type} (c : Client σ)
    (roleBinding existing : RoleBinding) (s0 s1 s2 s3 : σ) (err : Error) (r3 : Option Error)
    (hcreate : c.CreateRoleBinding roleBinding s0 = (some err, s1))
    (hae : IsAlreadyExists err = true)
    (hget : c.GetRoleBinding roleBinding.ObjectMeta.key s1 = (Except.ok existing, s2))
    (hupdate : c.UpdateRoleBinding (roleBindingUpdateOf existing roleBinding) s2 = (r3, s3)) :
    ensureRoleBinding c roleBinding s0 = (r3, s3) ∧
    (ensureRoleBinding c.recording roleBinding (s0, [])).2.2
      = [ { call := Call.CreateRoleBinding roleBinding, ok := false },
          { call := Call.GetRoleBinding roleBinding.ObjectMeta.key, ok := true },
          { call := Call.UpdateRoleBinding (roleBindingUpdateOf existing roleBinding),
            ok := r3.isNone } ] := by
  have hget2 : c.GetRoleBinding
      { Namespace := roleBinding.ObjectMeta.Namespace, Name := roleBinding.ObjectMeta.Name }
      s1 = (Except.ok existing, s2) := hget
  have hupdate2 : c.UpdateRoleBinding
      { ObjectMeta :=
          { existing.ObjectMeta with OwnerReferences := roleBinding.ObjectMeta.OwnerReferences },
        Subjects := roleBinding.Subjects,
        RoleRef := roleBinding.RoleRef } s2 = (r3, s3) := hupdate
  unfold ensureRoleBinding
  cases r3 with
  | none =>
    simp [Client.recording, hcreate, hae, hget2, hupdate2, exceptOk, ObjectMeta.key,
      roleBindingUpdateOf]
  | some e3 =>
    simp [Client.recording, hcreate, hae, hget2, hupdate2, exceptOk, ObjectMeta.key,
      roleBindingUpdateOf]

theorem ensureRole_settles {σ : Type} {c : Client σ} {HR : σ → Role → Prop}
    {HB : σ → RoleBinding → Prop} (hc : StoreLaws c HR HB) (role : Role) (s s1 : σ)
    (h : ensureRole c role s = (none, s1)) :
    ∃ r, HR s1 r ∧ r.ObjectMeta.key = role.ObjectMeta.key ∧ roleUpdateOf r role = r := by
  unfold ensureRole at h
  rcases h1 : c.CreateRole role s with ⟨r1, sa⟩
  rw [h1] at h
  cases r1 with
  | none =>
    simp only [Prod.mk.injEq, true_and] at h
    subst h
    exact ⟨role, hc.createRole_holds role s sa h1, rfl, rfl⟩
  | some err =>
    by_cases hae : IsAlreadyExists err = true
    · simp only [hae, Bool.not_true, Bool.false_eq_true, if_false] at h
      rcases h2 : c.GetRole { Namespace := role.ObjectMeta.Namespace, Name := role.ObjectMeta.Name }
        sa with ⟨r2, sb⟩
      rw [h2] at h
      cases r2 with
      | error e2 => simp at h
      | ok existing =>
        simp only at h
        rcases h3 : c.UpdateRole
            { ObjectMeta := { existing.ObjectMeta with OwnerReferences := role.ObjectMeta.OwnerReferences },
              Rules := role.Rules } sb with ⟨r3, sc⟩
        rw [h3] at h
        cases r3 with
        | some e3 => simp at h
        | none =>
          simp only [Prod.mk.injEq, true_and] at h
          subst h
          refine ⟨roleUpdateOf existing role, hc.updateRole_holds _ sb sc h3, ?_, rfl⟩
          exact hc.getRole_key _ sa existing sb h2
    · simp [hae] at h

theorem ensureRoleBinding_settles {σ : Type} {c : Client σ} {HR : σ → Role → Prop}
    {HB : σ → RoleBinding → Prop} (hc : StoreLaws c HR HB) (rb : RoleBinding) (s s1 : σ)
    (h : ensureRoleBinding c rb s = (none, s1)) :
    ∃ w, HB s1 w ∧ w.ObjectMeta.key = rb.ObjectMeta.key ∧ roleBindingUpdateOf w rb = w := by
  unfold ensureRoleBinding at h
  rcases h1 : c.CreateRoleBinding rb s with ⟨r1, sa⟩
  rw [h1] at h
  cases r1 with
  | none =>
    simp only [Prod.mk.injEq, true_and] at h
    subst h
    exact ⟨rb, hc.createRoleBinding_holds rb s sa h1, rfl, rfl⟩
  | some err =>
    by_cases hae : IsAlreadyExists err = true
    · simp only [hae, Bool.not_true, Bool.false_eq_true, if_false] at h
      rcases h2 : c.GetRoleBinding
          { Namespace := rb.ObjectMeta.Namespace, Name := rb.ObjectMeta.Name } sa with ⟨r2, sb⟩
      rw [h2] at h
      cases r2 with
      | error e2 => simp at h
      | ok existing =>
        simp only at h
        rcases h3 : c.UpdateRoleBinding
            { ObjectMeta :=
                { existing.ObjectMeta with OwnerReferences := rb.ObjectMeta.OwnerReferences },
              Subjects := rb.Subjects,
              RoleRef := rb.RoleRef } sb with ⟨r3, sc⟩
        rw [h3] at h
        cases r3 with
        | some e3 => simp at h
        | none =>
          simp only [Prod.mk.injEq, true_and] at h
          subst h
          refine ⟨roleBindingUpdateOf existing rb, hc.updateRoleBinding_holds _ sb sc h3, ?_,
            rfl⟩
          exact hc.getRoleBinding_key _ sa existing sb h2
    · simp [hae] at h

theorem ensureRoleBinding_keeps_role {σ : Type} {c : Client σ} {HR : σ → Role → Prop}
    {HB : σ → RoleBinding → Prop} (hc : StoreLaws c HR HB) (rb : RoleBinding) (s : σ)
    (r : Role) (h : HR s r) : HR (ensureRoleBinding c rb s).2 r := by
  unfold ensureRoleBinding
  have ha := hc.holdsRole_createRoleBinding s r rb h
  rcases h1 : c.CreateRoleBinding rb s with ⟨r1, sa⟩
  rw [h1] at ha
  cases r1 with
  | none => exact ha
  | some err =>
    by_cases hae : IsAlreadyExists err = true
    · simp only [hae, Bool.not_true, Bool.false_eq_true, if_false]
      have hb := hc.holdsRole_getRoleBinding sa r
        { Namespace := rb.ObjectMeta.Namespace, Name := rb.ObjectMeta.Name } ha
      rcases h2 : c.GetRoleBinding
          { Namespace := rb.ObjectMeta.Namespace, Name := rb.ObjectMeta.Name } sa with ⟨r2, sb⟩
      rw [h2] at hb
      cases r2 with
      | error e2 => exact hb
      | ok existing =>
        simp only
        have hd := hc.holdsRole_updateRoleBinding sb r
          { ObjectMeta :=
              { existing.ObjectMeta with OwnerReferences := rb.ObjectMeta.OwnerReferences },
            Subjects := rb.Subjects,
            RoleRef := rb.RoleRef } hb
        rcases h3 : c.UpdateRoleBinding
            { ObjectMeta :=
                { existing.ObjectMeta with OwnerReferences := rb.ObjectMeta.OwnerReferences },
              Subjects := rb.Subjects,
              RoleRef := rb.RoleRef } sb with ⟨r3, sc⟩
        rw [h3] at hd
        cases r3 with
        | some e3 => exact hd
        | none => exact hd
    · simp only [hae, Bool.not_false, if_true]
      exact ha

theorem ensureRole_held {σ : Type} {c : Client σ} {HR : σ → Role → Prop}
    {HB : σ → RoleBinding → Prop} (hc : StoreLaws c HR HB) (role r : Role) (s : σ)
    (h : HR s r) (hk : r.ObjectMeta.key = role.ObjectMeta.key)
    (hu : roleUpdateOf r role = r) :
    ensureRole c role s = ((c.UpdateRole r s).1, s) ∧
    (ensureRole c.recording role (s, [])).2.2
      = [ { call := Call.CreateRole role, ok := false },
          { call := Call.GetRole role.ObjectMeta.key, ok := true },
          { call := Call.UpdateRole r, ok := (c.UpdateRole r s).1.isNone } ] := by
  obtain ⟨err, hcreate, hae⟩ := hc.holdsRole_create s r role h hk.symm
  have hget := hc.holdsRole_get s r h
  rw [hk] at hget
  have hupdate : c.UpdateRole (roleUpdateOf r role) s = ((c.UpdateRole r s).1, s) := by
    rw [hu]
    exact Prod.ext rfl (hc.holdsRole_update s r h)
  have := ensureRole_update_result c role r s s s s err _ hcreate hae hget hupdate
  rw [hu] at this
  exact this

theorem ensureRoleBinding_held {σ : Type} {c : Client σ} {HR : σ → Role → Prop}
    {HB : σ → RoleBinding → Prop} (hc : StoreLaws c HR HB) (rb w : RoleBinding) (s : σ)
    (h : HB s w) (hk : w.ObjectMeta.key = rb.ObjectMeta.key)
    (hu : roleBindingUpdateOf w rb = w) :
    ensureRoleBinding c rb s = ((c.UpdateRoleBinding w s).1, s) ∧
    (ensureRoleBinding c.recording rb (s, [])).2.2
      = [ { call := Call.CreateRoleBinding rb, ok := false },
          { call := Call.GetRoleBinding rb.ObjectMeta.key, ok := true },
          { call := Call.UpdateRoleBinding w, ok := (c.UpdateRoleBinding w s).1.isNone } ] := by
  obtain ⟨err, hcreate, hae⟩ := hc.holdsRoleBinding_create s w rb h hk.symm
  have hget := hc.holdsRoleBinding_get s w h
  rw [hk] at hget
  have hupdate : c.UpdateRoleBinding (roleBindingUpdateOf w rb) s
      = ((c.UpdateRoleBinding w s).1, s) := by
    rw [hu]
    exact Prod.ext rfl (hc.holdsRoleBinding_update s w h)
  have := ensureRoleBinding_update_result c rb w s s s s err _ hcreate hae hget hupdate
  rw [hu] at this
  exact this

theorem tableGet_key {α : Type} (metaOf : α → ObjectMeta) (l : List α) (k : ObjectKey) (x : α)
    (h : tableGet metaOf l k = Except.ok x) : (metaOf x).key = k := by
  unfold tableGet at h
  cases hf : l.find? (fun x => (metaOf x).key == k) with
  | none => rw [hf] at h; cases h
  | some y =>
    rw [hf] at h
    cases h
    simpa using List.find?_some hf

theorem tableGet_settled {α : Type} (metaOf : α → ObjectMeta) (l : List α) (k : ObjectKey)
    (r : α) (h : Settled metaOf k r l) : tableGet metaOf l k = Except.ok r := by
  unfold tableGet
  rw [h.find]

theorem tableCreate_none {α : Type} (metaOf : α → ObjectMeta) (l : List α) (o : α)
    (h : (tableCreate metaOf l o).1 = none) :
    Settled metaOf (metaOf o).key o (tableCreate metaOf l o).2 := by
  unfold tableCreate at h ⊢
  cases hany : l.any (fun x => (metaOf x).key == (metaOf o).key) with
  | true => simp [hany] at h
  | false =>
    simp only [hany, Bool.false_eq_true, if_false]
    exact settled_after_create metaOf o l hany

theorem tableUpdate_none {α : Type} (metaOf : α → ObjectMeta) (l : List α) (o : α)
    (h : (tableUpdate metaOf l o).1 = none) :
    Settled metaOf (metaOf o).key o (tableUpdate metaOf l o).2 := by
  unfold tableUpdate at h ⊢
  cases hany : l.any (fun x => (metaOf x).key == (metaOf o).key) with
  | false => simp [hany] at h
  | true =>
    simp only [hany, if_true]
    exact settled_after_update metaOf _ o l rfl hany

theorem tableCreate_settled {α : Type} (metaOf : α → ObjectMeta) (l : List α) (r o : α)
    (h : Settled metaOf (metaOf r).key r l) (hk : (metaOf o).key = (metaOf r).key) :
    tableCreate metaOf l o
      = (some { Reason := StatusReason.AlreadyExists, Message := "already exists" }, l) := by
  unfold tableCreate
  rw [hk, h.any]
  rfl

theorem tableUpdate_settled {α : Type} (metaOf : α → ObjectMeta) (l : List α) (r : α)
    (h : Settled metaOf (metaOf r).key r l) : tableUpdate metaOf l r = (none, l) := by
  unfold tableUpdate
  rw [h.any, if_pos rfl, h.map]

theorem storeClient_laws : StoreLaws storeClient storeHoldsRole storeHoldsRoleBinding where
  list_state := fun _ _ => rfl
  getRole_key := fun k s r _ h =>
    tableGet_key Role.ObjectMeta s.Roles k r (congrArg Prod.fst h)
  createRole_holds := by
    intro o s s1 h
    have h1 : (tableCreate Role.ObjectMeta s.Roles o).1 = none := congrArg Prod.fst h
    have h2 : (storeClient.CreateRole o s).2 = s1 := congrArg Prod.snd h
    subst h2
    exact tableCreate_none Role.ObjectMeta s.Roles o h1
  updateRole_holds := by
    intro o s s1 h
    have h1 : (tableUpdate Role.ObjectMeta s.Roles o).1 = none := congrArg Prod.fst h
    have h2 : (storeClient.UpdateRole o s).2 = s1 := congrArg Prod.snd h
    subst h2
    exact tableUpdate_none Role.ObjectMeta s.Roles o h1
  holdsRole_get := by
    intro s r h
    show (tableGet Role.ObjectMeta s.Roles r.ObjectMeta.key, s) = _
    rw [tableGet_settled Role.ObjectMeta s.Roles _ r h]
  holdsRole_create := by
    intro s r o h hk
    refine ⟨{ Reason := StatusReason.AlreadyExists, Message := "already exists" }, ?_, rfl⟩
    show ((tableCreate Role.ObjectMeta s.Roles o).1,
      { s with Roles := (tableCreate Role.ObjectMeta s.Roles o).2 }) = _
    rw [tableCreate_settled Role.ObjectMeta s.Roles r o h hk]
  holdsRole_update := by
    intro s r h
    show { s with Roles := (tableUpdate Role.ObjectMeta s.Roles r).2 } = s
    rw [tableUpdate_settled Role.ObjectMeta s.Roles r h]
  holdsRole_createRoleBinding := fun _ _ _ h => h
  holdsRole_getRoleBinding := fun _ _ _ h => h
  holdsRole_updateRoleBinding := fun _ _ _ h => h
  getRoleBinding_key := fun k s w _ h =>
    tableGet_key RoleBinding.ObjectMeta s.RoleBindings k w (congrArg Prod.fst h)
  createRoleBinding_holds := by
    intro o s s1 h
    have h1 : (tableCreate RoleBinding.ObjectMeta s.RoleBindings o).1 = none :=
      congrArg Prod.fst h
    have h2 : (storeClient.CreateRoleBinding o s).2 = s1 := congrArg Prod.snd h
    subst h2
    exact tableCreate_none RoleBinding.ObjectMeta s.RoleBindings o h1
  updateRoleBinding_holds := by
    intro o s s1 h
    have h1 : (tableUpdate RoleBinding.ObjectMeta s.RoleBindings o).1 = none :=
      congrArg Prod.fst h
    have h2 : (storeClient.UpdateRoleBinding o s).2 = s1 := congrArg Prod.snd h
    subst h2
    exact tableUpdate_none RoleBinding.ObjectMeta s.RoleBindings o h1
  holdsRoleBinding_get := by
    intro s w h
    show (tableGet RoleBinding.ObjectMeta s.RoleBindings w.ObjectMeta.key, s) = _
    rw [tableGet_settled RoleBinding.ObjectMeta s.RoleBindings _ w h]
  holdsRoleBinding_create := by
    intro s w o h hk
    refine ⟨{ Reason := StatusReason.AlreadyExists, Message := "already exists" }, ?_, rfl⟩
    show ((tableCreate RoleBinding.ObjectMeta s.RoleBindings o).1,
      { s with RoleBindings := (tableCreate RoleBinding.ObjectMeta s.RoleBindings o).2 }) = _
    rw [tableCreate_settled RoleBinding.ObjectMeta s.RoleBindings w o h hk]
  holdsRoleBinding_update := by
    intro s w h
    show { s with RoleBindings := (tableUpdate RoleBinding.ObjectMeta s.RoleBindings w).2 } = s
    rw [tableUpdate_settled RoleBinding.ObjectMeta s.RoleBindings w h]

theorem reorderingClient_laws :
    StoreLaws reorderingClient storeHoldsRole storeHoldsRoleBinding :=
  { storeClient_laws with list_state := fun _ _ => rfl }

theorem ensureRoleBinding_over_held {σ : Type} {c : Client σ} {HR : σ → Role → Prop}
    {HB : σ → RoleBinding → Prop} (hc : StoreLaws c HR HB) (rb w : RoleBinding) (s : σ)
    (h : HB s w) (hk : w.ObjectMeta.key = rb.ObjectMeta.key) :
    ensureRoleBinding c rb s = c.UpdateRoleBinding (roleBindingUpdateOf w rb) s ∧
    (ensureRoleBinding c.recording rb (s, [])).2.2
      = [ { call := Call.CreateRoleBinding rb, ok := false },
          { call := Call.GetRoleBinding rb.ObjectMeta.key, ok := true },
          { call := Call.UpdateRoleBinding (roleBindingUpdateOf w rb),
            ok := (c.UpdateRoleBinding (roleBindingUpdateOf w rb) s).1.isNone } ] := by
  obtain ⟨err, hcreate, hae⟩ := hc.holdsRoleBinding_create s w rb h hk.symm
  have hget := hc.holdsRoleBinding_get s w h
  rw [hk] at hget
  exact ensureRoleBinding_update_result c rb w s s s _ err _ hcreate hae hget rfl

theorem roleBindingFor_subjects (oc : OperatorCondition) (R : OwnerReference)
    (items : Slice ServiceAccount) :
    (roleBindingFor oc R items).Subjects
      = Slice.mk ((ownedNames items R).map
          (fun n => { Kind := "ServiceAccount", APIGroup := "", Name := n, Namespace := "" })) := by
  show buildSubjects (filterServiceAccounts items (hasOwnerFunc R)) = _
  rw [buildSubjects_eq, filterServiceAccounts_owned]
  unfold ownedNames ownedServiceAccounts
  rw [List.map_map]
  rfl

theorem roleBindingFor_eq_iff (oc : OperatorCondition) (R : OwnerReference)
    (items1 items2 : Slice ServiceAccount) :
    (roleBindingFor oc R items2).Subjects = (roleBindingFor oc R items1).Subjects ↔
      ownedNames items2 R = ownedNames items1 R := by
  rw [roleBindingFor_subjects, roleBindingFor_subjects]
  constructor
  · intro h
    have hl := Slice.mk.inj h
    have := congrArg (fun l => l.map (fun x : Subject => x.Name)) hl
    simpa [List.map_map, Function.comp_def] using this
  · intro h
    rw [h]

theorem roleBindingFor_of_subjects (oc : OperatorCondition) (R : OwnerReference)
    (items1 items2 : Slice ServiceAccount)
    (h : (roleBindingFor oc R items2).Subjects = (roleBindingFor oc R items1).Subjects) :
    roleBindingFor oc R items2 = roleBindingFor oc R items1 := by
  unfold roleBindingFor desiredRoleBinding at h ⊢
  simp only at h
  rw [h]

/-! ## The claims -/

/-- C1: for every owner reference `R`, `filterServiceAccounts L (hasOwnerFunc R)` and
`filterDeployments L (hasOwnerFunc R)` hold exactly the elements of `L` whose
owner-reference list contains an entry matching `R`, in their original order, each as
often as it occurs in `L`. -/
theorem filter_by_owner_exact (R : OwnerReference) :
    (∀ L : Slice ServiceAccount,
      (filterServiceAccounts L (hasOwnerFunc R)).toList
        = L.toList.filter (fun sa => decide (OwnedBy sa.ObjectMeta R))) ∧
    (∀ L : Slice Deployment,
      (filterDeployments L (hasOwnerFunc R)).toList
        = L.toList.filter (fun d => decide (OwnedBy d.ObjectMeta R))) := by
  exact ⟨filterServiceAccounts_owned R, filterDeployments_owned R⟩

/-- C2: `ensureEnvVar` is idempotent: merging the same variable a second time changes
nothing. -/
theorem ensureEnvVar_idempotent (v : EnvVar) (S : Slice EnvVar) :
    ensureEnvVar v (ensureEnvVar v S) = ensureEnvVar v S := by
  rw [ensureEnvVar_eq v (ensureEnvVar v S), ensureEnvVar_toList, ← ensureEnvVar_toList v S,
    ensureEnvVar_eq v S]
  congr 1
  by_cases hany : S.toList.any (fun e => decide (e.Name = v.Name)) = true
  · have hany2 : (S.toList.map (fun e => if e.Name = v.Name then v else e)).any
        (fun e => decide (e.Name = v.Name)) = true := by
      simp only [List.any_eq_true, decide_eq_true_eq] at hany ⊢
      obtain ⟨e, he, hn⟩ := hany
      exact ⟨v, List.mem_map.mpr ⟨e, he, by simp [hn]⟩, rfl⟩
    simp only [hany, if_true, List.append_nil, Slice.toList_mk, hany2, List.map_map]
    apply List.map_congr_left
    intro e _
    by_cases hn : e.Name = v.Name <;> simp [hn]
  · simp only [hany, Slice.toList_mk, List.map_append, List.map_map, List.any_append]
    simp only [Bool.not_eq_true] at hany
    simp only [List.map_cons, List.map_nil, if_true, List.any_cons, decide_True, Bool.true_or,
      Bool.or_true, List.append_nil, Bool.false_eq_true, if_false]
    congr 1
    apply List.map_congr_left
    intro e _
    by_cases hn : e.Name = v.Name <;> simp [hn]

/-- C3: the entries of `ensureEnvVar v S` named otherwise than `v` are exactly those of
`S`, with the same content and in the same order. -/
theorem ensureEnvVar_frame (v : EnvVar) (S : Slice EnvVar) :
    (ensureEnvVar v S).toList.filter (fun e => decide (e.Name ≠ v.Name))
      = S.toList.filter (fun e => decide (e.Name ≠ v.Name)) := by
  rw [ensureEnvVar_toList, List.filter_append, filter_other_map_replace]
  by_cases hany : S.toList.any (fun e => decide (e.Name = v.Name)) = true
  · simp [hany]
  · simp [hany]

/-- C4: when no entry of `S` is named like `v` (the empty and the nil sequence
included), `ensureEnvVar v S` is `S` followed by `v`; on the empty and on the nil
sequence it is the one-element sequence holding `v`. -/
theorem ensureEnvVar_append_when_absent (v : EnvVar) (S : Slice EnvVar)
    (h : ∀ e ∈ S.toList, e.Name ≠ v.Name) :
    ensureEnvVar v S = Slice.mk (S.toList ++ [v]) ∧
    ensureEnvVar v S = S.append v ∧
    ensureEnvVar v (Slice.mk []) = Slice.mk [v] ∧
    ensureEnvVar v Slice.nil = Slice.mk [v] := by
  have hany : S.toList.any (fun e => decide (e.Name = v.Name)) = false := by
    simpa using h
  have h1 : ensureEnvVar v S = Slice.mk (S.toList ++ [v]) := by
    rw [ensureEnvVar_eq, map_replace_of_absent v S.toList h, hany]
    rfl
  exact ⟨h1, h1, rfl, rfl⟩

/-- Witness for C4 on the test input `[notFoo=bar]` with `foo=bar`. -/
theorem ensureEnvVar_append_when_absent_witness :
    ensureEnvVar { Name := "foo", Value := "bar" }
        (Slice.mk [{ Name := "notFoo", Value := "bar" }])
      = Slice.mk [{ Name := "notFoo", Value := "bar" }, { Name := "foo", Value := "bar" }] :=
  (ensureEnvVar_append_when_absent { Name := "foo", Value := "bar" }
    (Slice.mk [{ Name := "notFoo", Value := "bar" }]) (by decide)).1

/-- C5: when the names of `S` are pairwise distinct and the entry at index `i` is named
like `v`, `ensureEnvVar v S` is as long as `S`, holds `v` at index `i`, and agrees with
`S` at every other index. -/
theorem ensureEnvVar_update_in_place (v : EnvVar) (S : Slice EnvVar) (i : Nat)
    (hd : (envNames S).Nodup)
    (hi : (S.toList[i]?).map (fun e => e.Name) = some v.Name) :
    (ensureEnvVar v S).len = S.len ∧
    (ensureEnvVar v S).toList[i]? = some v ∧
    ∀ j, j ≠ i → (ensureEnvVar v S).toList[j]? = S.toList[j]? := by
  obtain ⟨e, he, hen⟩ : ∃ e, S.toList[i]? = some e ∧ e.Name = v.Name := by
    cases h : S.toList[i]? with
    | none => simp [h] at hi
    | some e => exact ⟨e, rfl, by simpa [h] using hi⟩
  have hmem : e ∈ S.toList := List.getElem?_mem he
  have hany : S.toList.any (fun e => decide (e.Name = v.Name)) = true := by
    simp only [List.any_eq_true, decide_eq_true_eq]
    exact ⟨e, hmem, hen⟩
  have hl : (ensureEnvVar v S).toList
      = S.toList.map (fun e => if e.Name = v.Name then v else e) := by
    rw [ensureEnvVar_toList, hany]; simp
  refine ⟨by simp [Slice.len, hl], by simp [hl, he, hen], fun j hj => ?_⟩
  rw [hl, List.getElem?_map]
  cases hj2 : S.toList[j]? with
  | none => rfl
  | some x =>
    have hx : x.Name ≠ v.Name := by
      intro hxn
      have hlt : j < (envNames S).length := by
        have := (List.getElem?_eq_some.mp hj2).1
        simpa [envNames] using this
      have heq : (envNames S)[j]? = (envNames S)[i]? := by
        simp [envNames, List.getElem?_map, hj2, he, hxn, hen]
      exact hj (List.getElem?_inj hlt hd heq)
    simp [hx]

/-- Witness for C5 on the test input `[foo=notBar]` with `foo=bar` at index 0. -/
theorem ensureEnvVar_update_in_place_witness :
    (ensureEnvVar { Name := "foo", Value := "bar" }
        (Slice.mk [{ Name := "foo", Value := "notBar" }])).toList[0]?
      = some { Name := "foo", Value := "bar" } :=
  (ensureEnvVar_update_in_place { Name := "foo", Value := "bar" }
    (Slice.mk [{ Name := "foo", Value := "notBar" }]) 0 (by decide) (by decide)).2.1

/-- C6, as the code has it: `ensureEnvVar` keeps names pairwise distinct when they were
so in the input. -/
theorem ensureEnvVar_preserves_unique_names (v : EnvVar) (S : Slice EnvVar)
    (hd : (envNames S).Nodup) :
    (envNames (ensureEnvVar v S)).Nodup := by
  unfold envNames at hd ⊢
  rw [ensureEnvVar_toList, List.map_append, envNames_map_replace]
  by_cases hany : S.toList.any (fun e => decide (e.Name = v.Name)) = true
  · simpa [hany] using hd
  · simp only [hany, if_false, List.map_cons, List.map_nil]
    have hnot : v.Name ∉ S.toList.map (fun e => e.Name) := by
      intro hmem
      obtain ⟨e, he, hn⟩ := List.mem_map.mp hmem
      apply hany
      simp only [List.any_eq_true, decide_eq_true_eq]
      exact ⟨e, he, hn⟩
    exact List.Nodup.append hd (List.nodup_singleton _) (by simpa using hnot)

/-- Witness for the amended C6 on `[a=1, b=2]` with `b=3`. -/
theorem ensureEnvVar_preserves_unique_names_witness :
    (envNames (ensureEnvVar { Name := "b", Value := "3" }
      (Slice.mk [{ Name := "a", Value := "1" }, { Name := "b", Value := "2" }]))).Nodup :=
  ensureEnvVar_preserves_unique_names { Name := "b", Value := "3" }
    (Slice.mk [{ Name := "a", Value := "1" }, { Name := "b", Value := "2" }]) (by decide)

/-- Counterexample to C6 as stated: merging `b=3` into `[a=1, a=2]` gives
`[a=1, a=2, b=3]`, in which the name `a` occurs twice; and merging `a=3` into the same
sequence gives `[a=3, a=3]`. -/
theorem ensureEnvVar_not_unique_counterexample :
    ensureEnvVar { Name := "b", Value := "3" }
        (Slice.mk [{ Name := "a", Value := "1" }, { Name := "a", Value := "2" }])
      = Slice.mk [{ Name := "a", Value := "1" }, { Name := "a", Value := "2" },
          { Name := "b", Value := "3" }] ∧
    ¬ (envNames (ensureEnvVar { Name := "b", Value := "3" }
        (Slice.mk [{ Name := "a", Value := "1" }, { Name := "a", Value := "2" }]))).Nodup ∧
    ensureEnvVar { Name := "a", Value := "3" }
        (Slice.mk [{ Name := "a", Value := "1" }, { Name := "a", Value := "2" }])
      = Slice.mk [{ Name := "a", Value := "3" }, { Name := "a", Value := "3" }] ∧
    ¬ (envNames (ensureEnvVar { Name := "a", Value := "3" }
        (Slice.mk [{ Name := "a", Value := "1" }, { Name := "a", Value := "2" }]))).Nodup := by
  decide

/-- C7: the ownership predicate holds exactly when the owner-reference list has an
entry whose name, kind and uid equal those of `R`; it fails on an absent or empty
list, and on a one-entry list whose entry differs from `R` in name, kind or uid. -/
theorem hasOwnerFunc_spec (R : OwnerReference) (o : ObjectMeta) :
    (hasOwnerFunc R o = HasOwnerReference o R) ∧
    (hasOwnerFunc R o = true ↔
      ∃ r ∈ o.OwnerReferences.toList, r.Name = R.Name ∧ r.Kind = R.Kind ∧ r.UID = R.UID) ∧
    (o.OwnerReferences = Slice.nil ∨ o.OwnerReferences = Slice.mk [] →
      hasOwnerFunc R o = false) ∧
    (∀ r, o.OwnerReferences.toList = [r] →
      (r.Name ≠ R.Name ∨ r.Kind ≠ R.Kind ∨ r.UID ≠ R.UID) → hasOwnerFunc R o = false) := by
  refine ⟨by simp [hasOwnerFunc], hasOwnerFunc_iff R o, ?_, ?_⟩
  · intro h
    rcases h with h | h <;> simp [hasOwnerFunc, HasOwnerReference, h]
  · intro r hr hne
    have hiff := hasOwnerFunc_iff R o
    cases hb : hasOwnerFunc R o with
    | false => rfl
    | true =>
      obtain ⟨r2, hmem, h1, h2, h3⟩ := hiff.mp hb
      rw [hr, List.mem_singleton] at hmem
      subst hmem
      rcases hne with h | h | h
      · exact absurd h1 h
      · exact absurd h2 h
      · exact absurd h3 h

/-- Witness for C7 on the test objects: the owner `foo/bar/uid` is found on an object
carrying it, and not on one whose only entry has uid `notUID`. -/
theorem hasOwnerFunc_spec_witness :
    hasOwnerFunc { Name := "foo", Kind := "bar", UID := "uid" }
        { OwnerReferences := Slice.mk [{ Name := "foo", Kind := "bar", UID := "uid" }] } = true ∧
    hasOwnerFunc { Name := "foo", Kind := "bar", UID := "uid" }
        { OwnerReferences := Slice.mk [{ Name := "foo", Kind := "bar", UID := "notUID" }] }
      = false :=
  ⟨(hasOwnerFunc_spec { Name := "foo", Kind := "bar", UID := "uid" }
      { OwnerReferences := Slice.mk [{ Name := "foo", Kind := "bar", UID := "uid" }] }).2.1.mpr
      ⟨{ Name := "foo", Kind := "bar", UID := "uid" }, by decide, rfl, rfl, rfl⟩,
   (hasOwnerFunc_spec { Name := "foo", Kind := "bar", UID := "uid" }
      { OwnerReferences := Slice.mk [{ Name := "foo", Kind := "bar", UID := "notUID" }] }).2.2.2
      { Name := "foo", Kind := "bar", UID := "notUID" } rfl (by decide)⟩

/-- C8: `filterServiceAccounts` and `filterDeployments` are total and never return the
nil slice; on a nil input, an empty input, or an input with no element accepted by the
predicate, they return the empty non-nil slice. -/
theorem filters_never_nil (f : ObjectMeta → Bool) :
    (∀ L : Slice ServiceAccount, (filterServiceAccounts L f).isNil = false) ∧
    (∀ L : Slice Deployment, (filterDeployments L f).isNil = false) ∧
    filterServiceAccounts Slice.nil f = Slice.mk [] ∧
    filterServiceAccounts (Slice.mk []) f = Slice.mk [] ∧
    filterDeployments Slice.nil f = Slice.mk [] ∧
    filterDeployments (Slice.mk []) f = Slice.mk [] ∧
    (∀ L : Slice ServiceAccount, (∀ sa ∈ L.toList, f sa.ObjectMeta = false) →
      filterServiceAccounts L f = Slice.mk []) ∧
    (∀ L : Slice Deployment, (∀ d ∈ L.toList, f d.ObjectMeta = false) →
      filterDeployments L f = Slice.mk []) := by
  refine ⟨fun L => ?_, fun L => ?_, rfl, rfl, rfl, rfl, fun L h => ?_, fun L h => ?_⟩
  · rw [filterServiceAccounts_eq]; rfl
  · rw [filterDeployments_eq]; rfl
  · rw [filterServiceAccounts_eq]
    congr 1
    exact List.filter_eq_nil_iff.mpr (fun sa hsa => by simp [h sa hsa])
  · rw [filterDeployments_eq]
    congr 1
    exact List.filter_eq_nil_iff.mpr (fun d hd => by simp [h d hd])

/-- Witness for C8 on the test input: one service account named `foo` without owners,
filtered for the owner `foo/bar/uid`, gives the empty non-nil slice. -/
theorem filters_never_nil_witness :
    filterServiceAccounts
        (Slice.mk [{ ObjectMeta := { Name := "foo", Namespace := "bar" } }])
        (hasOwnerFunc { Name := "foo", Kind := "bar", UID := "uid" })
      = Slice.mk [] :=
  (filters_never_nil (hasOwnerFunc { Name := "foo", Kind := "bar", UID := "uid" })).2.2.2.2.2.2.1
    (Slice.mk [{ ObjectMeta := { Name := "foo", Namespace := "bar" } }]) (by decide)

/-- C9: whenever `ensureOperatorConditionRole` succeeds, against any client, it has created
or updated exactly one RoleBinding, and the subjects of that RoleBinding are, in list
order, one `ServiceAccount` subject per freshly listed service account owned by the owner
reference, and nothing else. So on the update path too a subject is in the written
RoleBinding iff it is the subject of an owned listed account, whatever the subjects of
the RoleBinding read back from the store were. -/
theorem ensureOperatorConditionRole_subjects {σ : Type} (c : Client σ)
    (oc : OperatorCondition) (R : OwnerReference) (s : σ)
    (hok : (ensureOperatorConditionRole c oc R s).1 = none) :
    ∃ items rb,
      (c.ListServiceAccounts oc.ObjectMeta.Namespace s).1 = Except.ok items ∧
      roleBindingWrites (ensureOperatorConditionRole c.recording oc R (s, [])).2.2 = [rb] ∧
      rb.Subjects = Slice.mk ((ownedServiceAccounts items R).map subjectFor) ∧
      (∀ x, x ∈ rb.Subjects.toList ↔
        ∃ sa ∈ items.toList, OwnedBy sa.ObjectMeta R ∧ x = subjectFor sa) := by
  unfold ensureOperatorConditionRole at hok ⊢
  rcases h0 : c.ListServiceAccounts oc.ObjectMeta.Namespace s with ⟨r0, s0⟩
  have hrec : c.recording.ListServiceAccounts oc.ObjectMeta.Namespace (s, [])
      = (r0, (s0, [{ call := Call.ListServiceAccounts oc.ObjectMeta.Namespace,
                     ok := exceptOk r0 }])) := by
    simp [Client.recording, h0]
  rw [h0] at hok
  rw [hrec]
  cases r0 with
  | error e => simp at hok
  | ok items =>
    simp only [] at hok ⊢
    obtain ⟨ha, hb, hw⟩ := ensureRole_recording c (desiredRole oc R) s0
      [{ call := Call.ListServiceAccounts oc.ObjectMeta.Namespace, ok := exceptOk (Except.ok items) }]
    rcases h1 : ensureRole c (desiredRole oc R) s0 with ⟨r1, s1⟩
    rcases h1r : ensureRole c.recording (desiredRole oc R) (s0,
      [{ call := Call.ListServiceAccounts oc.ObjectMeta.Namespace, ok := exceptOk (Except.ok items) }])
      with ⟨r1r, s1r, t1⟩
    rw [h1, h1r] at ha hb
    rw [h1r] at hw
    rw [h1] at hok
    simp only at ha hb hw
    subst ha hb
    cases r1r with
    | some e => simp at hok
    | none =>
      simp only [] at hok ⊢
      obtain ⟨_, _, hex⟩ := ensureRoleBinding_recording c
        (desiredRoleBinding oc R (desiredRole oc R)
          (buildSubjects (filterServiceAccounts items (hasOwnerFunc R)))) s1r t1
      obtain ⟨w, hw1, hw2, _, _⟩ := hex hok
      have hsub : w.Subjects = Slice.mk ((ownedServiceAccounts items R).map subjectFor) := by
        rw [hw2]
        simp only [desiredRoleBinding, buildSubjects_eq, ownedServiceAccounts]
        rw [filterServiceAccounts_owned R items]
      refine ⟨items, w, rfl, ?_, hsub, ?_⟩
      · rw [hw1, hw]
        simp [roleBindingWrites, Event.roleBindingWritten]
      · intro x
        rw [hsub]
        simp only [Slice.toList_mk, List.mem_map, ownedServiceAccounts, List.mem_filter,
          decide_eq_true_eq]
        constructor
        · rintro ⟨sa, ⟨h1, h2⟩, h3⟩
          exact ⟨sa, h1, h2, h3.symm⟩
        · rintro ⟨sa, h1, h2, h3⟩
          exact ⟨sa, ⟨h1, h2⟩, h3.symm⟩

/-- Witness for C9 on the example store: the run succeeds on the update path and the
RoleBinding it writes has the one owned account as its only subject. -/
theorem ensureOperatorConditionRole_subjects_witness :
    ∃ items rb,
      (storeClient.ListServiceAccounts exampleCondition.ObjectMeta.Namespace exampleStore).1
        = Except.ok items ∧
      roleBindingWrites (ensureOperatorConditionRole storeClient.recording exampleCondition
        exampleOwner (exampleStore, [])).2.2 = [rb] ∧
      rb.Subjects = Slice.mk ((ownedServiceAccounts items exampleOwner).map subjectFor) ∧
      (∀ x, x ∈ rb.Subjects.toList ↔
        ∃ sa ∈ items.toList, OwnedBy sa.ObjectMeta exampleOwner ∧ x = subjectFor sa) :=
  ensureOperatorConditionRole_subjects storeClient exampleCondition exampleOwner exampleStore
    (by decide)

/-- C11: when the listing succeeds, creating the Role fails with AlreadyExists, the fetch
by the same namespace and name returns `existing` and the update succeeds, the routine
does not return the AlreadyExists error: it issues exactly the three Role calls create,
get and one update, the update carrying `existing` with only its owner-reference list
and rules replaced by the desired ones, then runs the RoleBinding step, starting with
its create, and returns what that step returns (so success when it succeeds). -/
theorem ensureOperatorConditionRole_role_already_exists {σ : Type} (c : Client σ)
    (oc : OperatorCondition) (R : OwnerReference) (s s0 s1 s2 s3 : σ)
    (items : Slice ServiceAccount) (err : Error) (existing : Role)
    (hlist : c.ListServiceAccounts oc.ObjectMeta.Namespace s = (Except.ok items, s0))
    (hcreate : c.CreateRole (desiredRole oc R) s0 = (some err, s1))
    (hae : IsAlreadyExists err = true)
    (hget : c.GetRole oc.ObjectMeta.key s1 = (Except.ok existing, s2))
    (hupdate : c.UpdateRole (roleUpdateOf existing (desiredRole oc R)) s2 = (none, s3)) :
    ensureOperatorConditionRole c oc R s = ensureRoleBinding c (roleBindingFor oc R items) s3 ∧
    ((ensureRoleBinding c (roleBindingFor oc R items) s3).1 = none →
      (ensureOperatorConditionRole c oc R s).1 = none) ∧
    (ensureOperatorConditionRole c.recording oc R (s, [])).2.2
      = [ { call := Call.ListServiceAccounts oc.ObjectMeta.Namespace, ok := true },
          { call := Call.CreateRole (desiredRole oc R), ok := false },
          { call := Call.GetRole oc.ObjectMeta.key, ok := true },
          { call := Call.UpdateRole (roleUpdateOf existing (desiredRole oc R)), ok := true } ]
        ++ (ensureRoleBinding c.recording (roleBindingFor oc R items) (s3, [])).2.2 ∧
    (∃ ok rest, (ensureRoleBinding c.recording (roleBindingFor oc R items) (s3, [])).2.2
      = { call := Call.CreateRoleBinding (roleBindingFor oc R items), ok := ok } :: rest) ∧
    (ensureOperatorConditionRole c.recording oc R (s, [])).2.2.filter (fun e => e.call.onRole)
      = [ { call := Call.CreateRole (desiredRole oc R), ok := false },
          { call := Call.GetRole oc.ObjectMeta.key, ok := true },
          { call := Call.UpdateRole (roleUpdateOf existing (desiredRole oc R)), ok := true } ] ∧
    (roleUpdateOf existing (desiredRole oc R)).ObjectMeta
      = { existing.ObjectMeta with OwnerReferences := Slice.mk [R] } ∧
    (roleUpdateOf existing (desiredRole oc R)).Rules = (desiredRole oc R).Rules := by
  obtain ⟨hrole, hrolelog⟩ := ensureRole_update_result c (desiredRole oc R) existing s0 s1 s2 s3
    err none hcreate hae hget hupdate
  have hrun : ensureOperatorConditionRole c oc R s
      = ensureRoleBinding c (roleBindingFor oc R items) s3 := by
    unfold ensureOperatorConditionRole
    simp only [hlist, hrole]
    rfl
  have hlog := ensureOperatorConditionRole_log c oc R s s0 items [] hlist
  rw [hrole, hrolelog] at hlog
  simp only [Option.isNone_none, if_true, List.nil_append] at hlog
  have hlog2 : (ensureOperatorConditionRole c.recording oc R (s, [])).2.2
      = [ { call := Call.ListServiceAccounts oc.ObjectMeta.Namespace, ok := true },
          { call := Call.CreateRole (desiredRole oc R), ok := false },
          { call := Call.GetRole oc.ObjectMeta.key, ok := true },
          { call := Call.UpdateRole (roleUpdateOf existing (desiredRole oc R)), ok := true } ]
        ++ (ensureRoleBinding c.recording (roleBindingFor oc R items) (s3, [])).2.2 := by
    rw [hlog]; rfl
  refine ⟨hrun, fun h => by rw [hrun]; exact h, hlog2,
    ensureRoleBinding_log_head c (roleBindingFor oc R items) s3, ?_, rfl, rfl⟩
  rw [hlog2, List.filter_append]
  have hnone : (ensureRoleBinding c.recording (roleBindingFor oc R items) (s3, [])).2.2.filter
      (fun e => e.call.onRole) = [] := by
    apply List.filter_eq_nil_iff.mpr
    intro e he
    have := ensureRoleBinding_log_onRoleBinding c (roleBindingFor oc R items) s3 e he
    cases hc : e.call <;> simp_all [Call.onRole, Call.onRoleBinding]
  rw [hnone]
  simp [Call.onRole]

/-- C12: `ensureOperatorConditionRole` is fail-fast on the Role step. When the listing
succeeds and the Role create fails with an error other than AlreadyExists, or fails with
AlreadyExists and the fetch fails, or the update of the fetched Role fails, the routine
returns that same error and the calls it has issued end there: none is on a RoleBinding.
In general a failed Role step is returned as it is with no RoleBinding call issued, so a
RoleBinding call in the log means the Role step has succeeded. -/
theorem ensureOperatorConditionRole_fail_fast {σ : Type} (c : Client σ)
    (oc : OperatorCondition) (R : OwnerReference) (s s0 : σ) (items : Slice ServiceAccount)
    (hlist : c.ListServiceAccounts oc.ObjectMeta.Namespace s = (Except.ok items, s0)) :
    (∀ err s1, c.CreateRole (desiredRole oc R) s0 = (some err, s1) →
      IsAlreadyExists err = false →
      ensureOperatorConditionRole c oc R s = (some err, s1) ∧
      (ensureOperatorConditionRole c.recording oc R (s, [])).2.2
        = [ { call := Call.ListServiceAccounts oc.ObjectMeta.Namespace, ok := true },
            { call := Call.CreateRole (desiredRole oc R), ok := false } ]) ∧
    (∀ err s1 e2 s2, c.CreateRole (desiredRole oc R) s0 = (some err, s1) →
      IsAlreadyExists err = true →
      c.GetRole oc.ObjectMeta.key s1 = (Except.error e2, s2) →
      ensureOperatorConditionRole c oc R s = (some e2, s2) ∧
      (ensureOperatorConditionRole c.recording oc R (s, [])).2.2
        = [ { call := Call.ListServiceAccounts oc.ObjectMeta.Namespace, ok := true },
            { call := Call.CreateRole (desiredRole oc R), ok := false },
            { call := Call.GetRole oc.ObjectMeta.key, ok := false } ]) ∧
    (∀ err s1 existing s2 e3 s3, c.CreateRole (desiredRole oc R) s0 = (some err, s1) →
      IsAlreadyExists err = true →
      c.GetRole oc.ObjectMeta.key s1 = (Except.ok existing, s2) →
      c.UpdateRole (roleUpdateOf existing (desiredRole oc R)) s2 = (some e3, s3) →
      ensureOperatorConditionRole c oc R s = (some e3, s3) ∧
      (ensureOperatorConditionRole c.recording oc R (s, [])).2.2
        = [ { call := Call.ListServiceAccounts oc.ObjectMeta.Namespace, ok := true },
            { call := Call.CreateRole (desiredRole oc R), ok := false },
            { call := Call.GetRole oc.ObjectMeta.key, ok := true },
            { call := Call.UpdateRole (roleUpdateOf existing (desiredRole oc R)),
              ok := false } ]) ∧
    (∀ e, (ensureRole c (desiredRole oc R) s0).1 = some e →
      ensureOperatorConditionRole c oc R s = (some e, (ensureRole c (desiredRole oc R) s0).2) ∧
      ∀ ev ∈ (ensureOperatorConditionRole c.recording oc R (s, [])).2.2,
        ev.call.onRoleBinding = false) ∧
    ((∃ ev ∈ (ensureOperatorConditionRole c.recording oc R (s, [])).2.2,
        ev.call.onRoleBinding = true) →
      (ensureRole c (desiredRole oc R) s0).1 = none) := by
  have hlog := ensureOperatorConditionRole_log c oc R s s0 items [] hlist
  have hfail : ∀ e, (ensureRole c (desiredRole oc R) s0).1 = some e →
      ensureOperatorConditionRole c oc R s = (some e, (ensureRole c (desiredRole oc R) s0).2) ∧
      ∀ ev ∈ (ensureOperatorConditionRole c.recording oc R (s, [])).2.2,
        ev.call.onRoleBinding = false := by
    intro e he
    constructor
    · unfold ensureOperatorConditionRole
      simp only [hlist]
      rcases h1 : ensureRole c (desiredRole oc R) s0 with ⟨r1, s1⟩
      rw [h1] at he
      simp only at he
      subst he
      rfl
    · rw [hlog, he]
      simp only [Option.isNone_some, Bool.false_eq_true, if_false, List.append_nil,
        List.nil_append]
      intro ev hev
      rcases List.mem_cons.mp hev with h | h
      · subst h; rfl
      · have := ensureRole_log_onRole c (desiredRole oc R) s0 ev h
        cases hc : ev.call <;> simp_all [Call.onRole, Call.onRoleBinding]
  have hcase : ∀ (e : Error) (s9 : σ) (l : List Event),
      ensureRole c (desiredRole oc R) s0 = (some e, s9) →
      (ensureRole c.recording (desiredRole oc R) (s0, [])).2.2 = l →
      ensureOperatorConditionRole c oc R s = (some e, s9) ∧
      (ensureOperatorConditionRole c.recording oc R (s, [])).2.2
        = { call := Call.ListServiceAccounts oc.ObjectMeta.Namespace, ok := true } :: l := by
    intro e s9 l h1 h2
    constructor
    · have := (hfail e (by rw [h1])).1
      rw [this, h1]
    · rw [hlog, h1, h2]
      simp
  refine ⟨?_, ?_, ?_, hfail, ?_⟩
  · intro err s1 hcreate hae
    obtain ⟨h1, h2⟩ := ensureRole_create_failed c (desiredRole oc R) s0 s1 err hcreate hae
    exact hcase err s1 _ h1 h2
  · intro err s1 e2 s2 hcreate hae hget
    obtain ⟨h1, h2⟩ := ensureRole_get_failed c (desiredRole oc R) s0 s1 s2 err e2 hcreate hae hget
    exact hcase e2 s2 _ h1 h2
  · intro err s1 existing s2 e3 s3 hcreate hae hget hupdate
    obtain ⟨h1, h2⟩ := ensureRole_update_result c (desiredRole oc R) existing s0 s1 s2 s3 err
      (some e3) hcreate hae hget hupdate
    exact hcase e3 s3 _ h1 h2
  · rintro ⟨ev, hev, hrb⟩
    cases hr : (ensureRole c (desiredRole oc R) s0).1 with
    | none => rfl
    | some e =>
      have := (hfail e hr).2 ev hev
      rw [this] at hrb
      exact absurd hrb (by decide)

/-- Witness for C11 on the example store with a Role already filed: the routine returns
what the RoleBinding step returns from the store holding the updated Role. -/
theorem ensureOperatorConditionRole_role_already_exists_witness :
    ensureOperatorConditionRole storeClient exampleCondition exampleOwner exampleStoreWithRole
      = ensureRoleBinding storeClient
          (roleBindingFor exampleCondition exampleOwner
            (listedServiceAccounts exampleStoreWithRole "ns"))
          { exampleStoreWithRole with
            Roles := [roleUpdateOf exampleRole (desiredRole exampleCondition exampleOwner)] } :=
  (ensureOperatorConditionRole_role_already_exists storeClient exampleCondition exampleOwner
    exampleStoreWithRole exampleStoreWithRole exampleStoreWithRole exampleStoreWithRole
    { exampleStoreWithRole with
      Roles := [roleUpdateOf exampleRole (desiredRole exampleCondition exampleOwner)] }
    (listedServiceAccounts exampleStoreWithRole "ns")
    { Reason := StatusReason.AlreadyExists, Message := "already exists" }
    exampleRole rfl (by decide) (by decide) rfl (by decide)).1

/-- Witness for C12 on a client refusing the Role create: the routine returns the
refusal after the listing and the create, and the store is untouched. -/
theorem ensureOperatorConditionRole_fail_fast_witness :
    ensureOperatorConditionRole refusingClient exampleCondition exampleOwner exampleStore
      = (some { Reason := StatusReason.Unknown, Message := "forbidden" }, exampleStore) ∧
    (ensureOperatorConditionRole refusingClient.recording exampleCondition exampleOwner
        (exampleStore, [])).2.2
      = [ { call := Call.ListServiceAccounts "ns", ok := true },
          { call := Call.CreateRole (desiredRole exampleCondition exampleOwner), ok := false } ] :=
  (ensureOperatorConditionRole_fail_fast refusingClient exampleCondition exampleOwner
    exampleStore exampleStore (listedServiceAccounts exampleStore "ns") rfl).1
    { Reason := StatusReason.Unknown, Message := "forbidden" } exampleStore rfl (by decide)

/-- C13, as the code has it: the desired Role is named like the OperatorCondition, in its
namespace, and has exactly two rules, both in API group operators.coreos.com and both
restricted to the one resource name equal to the condition's name; the first is on
operatorconditions and its verb list is exactly `get`, the second is on
operatorconditions/status. -/
theorem desiredRole_shape (oc : OperatorCondition) (R : OwnerReference) :
    (desiredRole oc R).ObjectMeta.Name = oc.ObjectMeta.Name ∧
    (desiredRole oc R).ObjectMeta.Namespace = oc.ObjectMeta.Namespace ∧
    ∃ r1 r2, (desiredRole oc R).Rules = Slice.mk [r1, r2] ∧
      r1.APIGroups = Slice.mk ["operators.coreos.com"] ∧
      r1.Resources = Slice.mk ["operatorconditions"] ∧
      r1.ResourceNames = Slice.mk [oc.ObjectMeta.Name] ∧
      r1.Verbs = Slice.mk ["get"] ∧
      r2.APIGroups = Slice.mk ["operators.coreos.com"] ∧
      r2.Resources = Slice.mk ["operatorconditions/status"] ∧
      r2.ResourceNames = Slice.mk [oc.ObjectMeta.Name] :=
  ⟨rfl, rfl, _, _, rfl, rfl, rfl, rfl, rfl, rfl, rfl, rfl⟩

/-- Counterexample to C13 as stated: the verb list of the second rule of the desired Role
has the single element `get,update,patch`, which is not the verb `get`. -/
theorem desiredRole_verbs_counterexample :
    (desiredRole exampleCondition exampleOwner).Rules.toList.map (fun r => r.Verbs)
      = [Slice.mk ["get"], Slice.mk ["get,update,patch"]] ∧
    ¬ (∀ rule ∈ (desiredRole exampleCondition exampleOwner).Rules.toList,
        ∀ verb ∈ rule.Verbs.toList, verb = "get") := by
  decide

/-- C14: `CreateOrUpdateDeployment d` first fetches by the namespace and name of `d`. On
not-found it issues one create with `d` and nothing else, and returns the created object
or the create error; on a found object it issues one update with `d` and nothing else,
and returns what the update returns; on any other fetch error it returns that error as
it is and issues no further call. -/
theorem CreateOrUpdateDeployment_spec {σ : Type}
    (c : InstallStrategyDeploymentClientForNamespace σ) (d : Deployment) (s : σ) :
    (∀ err s1,
      c.opClient.GetDeployment d.ObjectMeta.Namespace d.ObjectMeta.Name s
        = (Except.error err, s1) →
      IsNotFound err = true →
      c.CreateOrUpdateDeployment d s
        = (goResult (c.opClient.CreateDeployment d s1).1, (c.opClient.CreateDeployment d s1).2) ∧
      (c.recording.CreateOrUpdateDeployment d (s, [])).2.2
        = [ OpEvent.GetDeployment d.ObjectMeta.Namespace d.ObjectMeta.Name (Except.error err),
            OpEvent.CreateDeployment d (c.opClient.CreateDeployment d s1).1 ]) ∧
    (∀ found s1,
      c.opClient.GetDeployment d.ObjectMeta.Namespace d.ObjectMeta.Name s
        = (Except.ok found, s1) →
      c.CreateOrUpdateDeployment d s
        = (goResult (c.opClient.KubernetesDeploymentsUpdate d.ObjectMeta.Namespace d s1).1,
            (c.opClient.KubernetesDeploymentsUpdate d.ObjectMeta.Namespace d s1).2) ∧
      (c.recording.CreateOrUpdateDeployment d (s, [])).2.2
        = [ OpEvent.GetDeployment d.ObjectMeta.Namespace d.ObjectMeta.Name (Except.ok found),
            OpEvent.KubernetesDeploymentsUpdate d.ObjectMeta.Namespace d
              (c.opClient.KubernetesDeploymentsUpdate d.ObjectMeta.Namespace d s1).1 ]) ∧
    (∀ err s1,
      c.opClient.GetDeployment d.ObjectMeta.Namespace d.ObjectMeta.Name s
        = (Except.error err, s1) →
      IsNotFound err = false →
      c.CreateOrUpdateDeployment d s = ((none, some err), s1) ∧
      (c.recording.CreateOrUpdateDeployment d (s, [])).2.2
        = [ OpEvent.GetDeployment d.ObjectMeta.Namespace d.ObjectMeta.Name
              (Except.error err) ]) := by
  refine ⟨?_, ?_, ?_⟩
  · intro err s1 hget hnf
    rcases hcr : c.opClient.CreateDeployment d s1 with ⟨r, s2⟩
    cases r with
    | ok created =>
      simp [InstallStrategyDeploymentClientForNamespace.CreateOrUpdateDeployment,
        InstallStrategyDeploymentClientForNamespace.CreateDeployment,
        InstallStrategyDeploymentClientForNamespace.recording, hget, hnf, hcr, goResult]
    | error e =>
      simp [InstallStrategyDeploymentClientForNamespace.CreateOrUpdateDeployment,
        InstallStrategyDeploymentClientForNamespace.CreateDeployment,
        InstallStrategyDeploymentClientForNamespace.recording, hget, hnf, hcr, goResult]
  · intro found s1 hget
    simp [InstallStrategyDeploymentClientForNamespace.CreateOrUpdateDeployment,
      InstallStrategyDeploymentClientForNamespace.recording, hget]
  · intro err s1 hget hnf
    simp [InstallStrategyDeploymentClientForNamespace.CreateOrUpdateDeployment,
      InstallStrategyDeploymentClientForNamespace.recording, hget, hnf]

/-- C15: when the existence check of `EnsureServiceAccount` finds an account `found`:
if `found` is owned by the owner it is returned as it is and no further call is issued;
otherwise exactly one update is issued and nothing else, with `found` changed only in
its owner-reference list, which is the previous list with a non-blocking reference to
the owner appended, and the result of the update is returned. -/
theorem EnsureServiceAccount_found {σ : Type}
    (c : InstallStrategyDeploymentClientForNamespace σ) (sa found : ServiceAccount)
    (owner : Owner) (s s1 : σ)
    (hget : c.opLister.ServiceAccountGet c.Namespace sa.ObjectMeta.Name s
      = (Except.ok found, s1)) :
    (IsOwnedBy found.ObjectMeta owner = true →
      c.EnsureServiceAccount (some sa) owner s = ((some found, none), s1) ∧
      (c.recording.EnsureServiceAccount (some sa) owner (s, [])).2.2
        = [OpEvent.ServiceAccountGet c.Namespace sa.ObjectMeta.Name (Except.ok found)]) ∧
    (IsOwnedBy found.ObjectMeta owner = false →
      ∃ updated : ServiceAccount,
        c.EnsureServiceAccount (some sa) owner s
          = (goResult (c.opClient.UpdateServiceAccount updated s1).1,
              (c.opClient.UpdateServiceAccount updated s1).2) ∧
        (c.recording.EnsureServiceAccount (some sa) owner (s, [])).2.2
          = [ OpEvent.ServiceAccountGet c.Namespace sa.ObjectMeta.Name (Except.ok found),
              OpEvent.UpdateServiceAccount updated
                (c.opClient.UpdateServiceAccount updated s1).1 ] ∧
        updated.ObjectMeta.OwnerReferences.toList
          = found.ObjectMeta.OwnerReferences.toList ++ [NonBlockingOwner owner] ∧
        updated = { found with
          ObjectMeta :=
            { found.ObjectMeta with
              OwnerReferences := updated.ObjectMeta.OwnerReferences } } ∧
        (NonBlockingOwner owner).Name = owner.Name ∧
        (NonBlockingOwner owner).Kind = owner.Kind ∧
        (NonBlockingOwner owner).UID = owner.UID ∧
        (NonBlockingOwner owner).BlockOwnerDeletion = some false) ∧
    (IsOwnedBy found.ObjectMeta owner = true ↔
      ∃ ref ∈ found.ObjectMeta.OwnerReferences.toList,
        ref.Name = owner.Name ∧ ref.Kind = owner.Kind ∧ ref.UID = owner.UID) := by
  refine ⟨?_, ?_, ?_⟩
  · intro hown
    simp [InstallStrategyDeploymentClientForNamespace.EnsureServiceAccount,
      InstallStrategyDeploymentClientForNamespace.recording, hget, hown]
  · intro hown
    refine ⟨{ found with ObjectMeta := AddNonBlockingOwner found.ObjectMeta owner },
      ?_, ?_, ?_, rfl, rfl, rfl, rfl, rfl⟩
    · simp [InstallStrategyDeploymentClientForNamespace.EnsureServiceAccount, hget, hown]
    · simp [InstallStrategyDeploymentClientForNamespace.EnsureServiceAccount,
        InstallStrategyDeploymentClientForNamespace.recording, hget, hown]
    · simp [AddNonBlockingOwner]
  · simp [IsOwnedBy, and_assoc]

/-- C16: when the existence check of `EnsureServiceAccount` reports not-found, the
account with its namespace set to that of the client, and its owner-reference list as it
was, is passed to exactly one create and no other call follows: a created object is
returned; on AlreadyExists the call returns the account itself with a nil error; on any
other create error the call fails with that error wrapped. When the existence check
fails otherwise the call fails with that error wrapped and issues no other call; on a nil
account it fails with `ErrNilObject` and issues no call. -/
theorem EnsureServiceAccount_absent {σ : Type}
    (c : InstallStrategyDeploymentClientForNamespace σ) (sa : ServiceAccount)
    (owner : Owner) (s : σ) :
    (∀ err s1,
      c.opLister.ServiceAccountGet c.Namespace sa.ObjectMeta.Name s = (Except.error err, s1) →
      IsNotFound err = true →
      ∃ scopedAccount : ServiceAccount,
        scopedAccount = { sa with ObjectMeta := { sa.ObjectMeta with Namespace := c.Namespace } } ∧
        scopedAccount.ObjectMeta.OwnerReferences = sa.ObjectMeta.OwnerReferences ∧
        (c.recording.EnsureServiceAccount (some sa) owner (s, [])).2.2
          = [ OpEvent.ServiceAccountGet c.Namespace sa.ObjectMeta.Name (Except.error err),
              OpEvent.CreateServiceAccount scopedAccount
                (c.opClient.CreateServiceAccount scopedAccount s1).1 ] ∧
        (∀ created s2, c.opClient.CreateServiceAccount scopedAccount s1 = (Except.ok created, s2) →
          c.EnsureServiceAccount (some sa) owner s = ((some created, none), s2)) ∧
        (∀ e s2, c.opClient.CreateServiceAccount scopedAccount s1 = (Except.error e, s2) →
          IsAlreadyExists e = true →
          c.EnsureServiceAccount (some sa) owner s = ((some scopedAccount, none), s2)) ∧
        (∀ e s2, c.opClient.CreateServiceAccount scopedAccount s1 = (Except.error e, s2) →
          IsAlreadyExists e = false →
          c.EnsureServiceAccount (some sa) owner s
            = ((none, some (Wrap e "creating serviceacccount failed")), s2))) ∧
    (∀ err s1,
      c.opLister.ServiceAccountGet c.Namespace sa.ObjectMeta.Name s = (Except.error err, s1) →
      IsNotFound err = false →
      c.EnsureServiceAccount (some sa) owner s
        = ((none, some (Wrap err "checking for existing serviceacccount failed")), s1) ∧
      (c.recording.EnsureServiceAccount (some sa) owner (s, [])).2.2
        = [OpEvent.ServiceAccountGet c.Namespace sa.ObjectMeta.Name (Except.error err)]) ∧
    c.EnsureServiceAccount none owner s = ((none, some ErrNilObject), s) ∧
    (c.recording.EnsureServiceAccount none owner (s, [])).2.2 = [] := by
  refine ⟨?_, ?_, rfl, rfl⟩
  · intro err s1 hget hnf
    refine ⟨_, rfl, rfl, ?_, ?_, ?_, ?_⟩
    · rcases hcr : c.opClient.CreateServiceAccount
        { sa with ObjectMeta := { sa.ObjectMeta with Namespace := c.Namespace } } s1 with ⟨r, s2⟩
      cases r with
      | ok created =>
        simp [InstallStrategyDeploymentClientForNamespace.EnsureServiceAccount,
          InstallStrategyDeploymentClientForNamespace.recording, hget, hnf, hcr]
      | error e =>
        by_cases hae : IsAlreadyExists e = true
        · simp [InstallStrategyDeploymentClientForNamespace.EnsureServiceAccount,
            InstallStrategyDeploymentClientForNamespace.recording, hget, hnf, hcr, hae]
        · simp [InstallStrategyDeploymentClientForNamespace.EnsureServiceAccount,
            InstallStrategyDeploymentClientForNamespace.recording, hget, hnf, hcr, hae]
    · intro created s2 hcr
      simp [InstallStrategyDeploymentClientForNamespace.EnsureServiceAccount, hget, hnf, hcr]
    · intro e s2 hcr hae
      simp [InstallStrategyDeploymentClientForNamespace.EnsureServiceAccount, hget, hnf, hcr,
        hae]
    · intro e s2 hcr hae
      simp [InstallStrategyDeploymentClientForNamespace.EnsureServiceAccount, hget, hnf, hcr,
        hae]
  · intro err s1 hget hnf
    simp [InstallStrategyDeploymentClientForNamespace.EnsureServiceAccount,
      InstallStrategyDeploymentClientForNamespace.recording, hget, hnf]

/-- C17: `FindAnyDeploymentsMatchingNames N` looks up a prefix of `N` in order, in the
namespace of the client, and returns the deployments of the successful lookups in that
order. It returns a nil error exactly when no lookup failed otherwise than with
not-found, and then every name of `N` was looked up; when it returns an error, that
error is the one of the last lookup made, which is the first to fail otherwise than with
not-found, and no name after it is looked up. -/
theorem FindAnyDeploymentsMatchingNames_spec {σ : Type}
    (c : InstallStrategyDeploymentClientForNamespace σ) (N : Slice String) (s : σ) :
    (c.recording.FindAnyDeploymentsMatchingNames N (s, [])).1
      = (c.FindAnyDeploymentsMatchingNames N s).1 ∧
    (c.recording.FindAnyDeploymentsMatchingNames N (s, [])).2.2.map OpEvent.lookedUp
      = (N.toList.take (c.recording.FindAnyDeploymentsMatchingNames N (s, [])).2.2.length).map
          (fun n => some (c.Namespace, n)) ∧
    (c.FindAnyDeploymentsMatchingNames N s).1.1.toList
      = (c.recording.FindAnyDeploymentsMatchingNames N (s, [])).2.2.filterMap OpEvent.fetched ∧
    ((c.FindAnyDeploymentsMatchingNames N s).1.2 = none ↔
      ∀ ev ∈ (c.recording.FindAnyDeploymentsMatchingNames N (s, [])).2.2,
        ev.hardFailure = none) ∧
    ((c.FindAnyDeploymentsMatchingNames N s).1.2 = none →
      (c.recording.FindAnyDeploymentsMatchingNames N (s, [])).2.2.length = N.len) ∧
    (∀ e, (c.FindAnyDeploymentsMatchingNames N s).1.2 = some e →
      ∃ init last,
        (c.recording.FindAnyDeploymentsMatchingNames N (s, [])).2.2 = init ++ [last] ∧
        last.hardFailure = some e ∧ ∀ ev ∈ init, ev.hardFailure = none) := by
  obtain ⟨l, h1, h2, _, h4, h5, h6, h7⟩ :=
    FindAnyDeploymentsMatchingNamesLoop_log c N.toList Slice.nil s []
  unfold InstallStrategyDeploymentClientForNamespace.FindAnyDeploymentsMatchingNames
  simp only [List.nil_append] at h1
  rw [h1]
  refine ⟨h2, h4, by simpa using h5, ⟨fun h => (h6 h).2, fun h => ?_⟩,
    fun h => by simpa [Slice.len] using (h6 h).1, h7⟩
  cases he : (c.FindAnyDeploymentsMatchingNamesLoop N.toList Slice.nil s).1.2 with
  | none => rfl
  | some e =>
    obtain ⟨init, last, ha, hb, _⟩ := h7 e he
    have := h last (by rw [ha]; simp)
    rw [hb] at this
    exact absurd this (by simp)

/-- Witness for C14 on the example cluster: `a` is there and is updated, `c` is not and
is created. -/
theorem CreateOrUpdateDeployment_spec_witness :
    ((clusterWrapper "ns").recording.CreateOrUpdateDeployment (exampleDeployment "c")
        (exampleCluster, [])).2.2
      = [ OpEvent.GetDeployment "ns" "c"
            (Except.error { Reason := StatusReason.NotFound, Message := "not found" }),
          OpEvent.CreateDeployment (exampleDeployment "c") (Except.ok (exampleDeployment "c")) ] ∧
    ((clusterWrapper "ns").recording.CreateOrUpdateDeployment (exampleDeployment "a")
        (exampleCluster, [])).2.2
      = [ OpEvent.GetDeployment "ns" "a" (Except.ok (exampleDeployment "a")),
          OpEvent.KubernetesDeploymentsUpdate "ns" (exampleDeployment "a")
            (Except.ok (exampleDeployment "a")) ] :=
  ⟨((CreateOrUpdateDeployment_spec (clusterWrapper "ns") (exampleDeployment "c")
      exampleCluster).1 { Reason := StatusReason.NotFound, Message := "not found" }
      exampleCluster rfl (by decide)).2,
   ((CreateOrUpdateDeployment_spec (clusterWrapper "ns") (exampleDeployment "a")
      exampleCluster).2.1 (exampleDeployment "a") exampleCluster rfl).2⟩

/-- Witness for C17 on the example cluster: of `a`, `missing`, `unsynced`, `b` the first
three are looked up, `a` is returned together with the error of `unsynced`. -/
theorem FindAnyDeploymentsMatchingNames_spec_witness :
    ((clusterWrapper "ns").FindAnyDeploymentsMatchingNames
        (Slice.mk ["a", "missing", "unsynced", "b"]) exampleCluster).1
      = (Slice.mk [exampleDeployment "a"],
          some { Reason := StatusReason.Unknown, Message := "internal error" }) ∧
    ((clusterWrapper "ns").recording.FindAnyDeploymentsMatchingNames
        (Slice.mk ["a", "missing", "unsynced", "b"]) (exampleCluster, [])).2.2.map
        OpEvent.lookedUp
      = [some ("ns", "a"), some ("ns", "missing"), some ("ns", "unsynced")] :=
  ⟨by decide,
   (FindAnyDeploymentsMatchingNames_spec (clusterWrapper "ns")
      (Slice.mk ["a", "missing", "unsynced", "b"]) exampleCluster).2.1⟩

/-- Witness for C15 on the example cluster: `etcd-sa` is owned and returned as found with
no write; `old-sa` is not owned and is updated once. -/
theorem EnsureServiceAccount_found_witness :
    ((clusterWrapper "ns").EnsureServiceAccount
        (some { ObjectMeta := { Name := "etcd-sa" } }) exampleCSVOwner exampleCluster
      = ((some exampleOwnedAccount, none), exampleCluster) ∧
     ((clusterWrapper "ns").recording.EnsureServiceAccount
        (some { ObjectMeta := { Name := "etcd-sa" } }) exampleCSVOwner (exampleCluster, [])).2.2
      = [OpEvent.ServiceAccountGet "ns" "etcd-sa" (Except.ok exampleOwnedAccount)]) ∧
    ((clusterWrapper "ns").recording.EnsureServiceAccount
        (some { ObjectMeta := { Name := "old-sa" } }) exampleCSVOwner (exampleCluster, [])).2.2
      = [ OpEvent.ServiceAccountGet "ns" "old-sa" (Except.ok exampleOldAccount),
          OpEvent.UpdateServiceAccount
            { exampleOldAccount with
              ObjectMeta :=
                { exampleOldAccount.ObjectMeta with
                  OwnerReferences := Slice.mk
                    [ { Kind := "ConfigMap", Name := "cm", UID := "uid-9" },
                      { APIVersion := "operators.coreos.com/v1alpha1",
                        Kind := "ClusterServiceVersion", Name := "etcd.v1", UID := "uid-1",
                        Controller := some false, BlockOwnerDeletion := some false } ] } }
            (Except.ok
              { exampleOldAccount with
                ObjectMeta :=
                  { exampleOldAccount.ObjectMeta with
                    OwnerReferences := Slice.mk
                      [ { Kind := "ConfigMap", Name := "cm", UID := "uid-9" },
                        { APIVersion := "operators.coreos.com/v1alpha1",
                          Kind := "ClusterServiceVersion", Name := "etcd.v1", UID := "uid-1",
                          Controller := some false, BlockOwnerDeletion := some false } ] } }) ] :=
  ⟨(EnsureServiceAccount_found (clusterWrapper "ns") { ObjectMeta := { Name := "etcd-sa" } }
      exampleOwnedAccount exampleCSVOwner exampleCluster exampleCluster rfl).1 (by decide),
   rfl⟩

/-- Witness for C16 on the example cluster: `new-sa` is not there and is created in the
namespace of the client. -/
theorem EnsureServiceAccount_absent_witness :
    (clusterWrapper "ns").EnsureServiceAccount
        (some { ObjectMeta := { Name := "new-sa" } }) exampleCSVOwner exampleCluster
      = ((some { ObjectMeta := { Name := "new-sa", Namespace := "ns" } }, none),
          { exampleCluster with
            ServiceAccounts :=
              exampleCluster.ServiceAccounts ++
                [{ ObjectMeta := { Name := "new-sa", Namespace := "ns" } }] }) :=
  match (EnsureServiceAccount_absent (clusterWrapper "ns") { ObjectMeta := { Name := "new-sa" } }
      exampleCSVOwner exampleCluster).1
      { Reason := StatusReason.NotFound, Message := "not found" } exampleCluster rfl
      (by decide) with
  | ⟨_, hsc, _, _, hcreated, _, _⟩ =>
    hcreated { ObjectMeta := { Name := "new-sa", Namespace := "ns" } }
      { exampleCluster with
        ServiceAccounts :=
          exampleCluster.ServiceAccounts ++
            [{ ObjectMeta := { Name := "new-sa", Namespace := "ns" } }] }
      (by subst hsc; rfl)

/-- C19: when the loaded OperatorCondition has no owner reference of kind
ClusterServiceVersion, `Reconcile` returns an error with requeue false, leaves the store
as the load left it, and the load is the only call it issues. -/
theorem Reconcile_no_csv_owner {σ : Type} (c : ReconcileClient σ) (req : ObjectKey)
    (s s1 : σ) (oc : OperatorCondition)
    (hget : c.GetOperatorCondition req s = (Except.ok oc, s1))
    (hno : ∀ ref ∈ oc.ObjectMeta.OwnerReferences.toList, ref.Kind ≠ ClusterServiceVersionKind) :
    (∃ err, OperatorConditionReconciler.Reconcile c req s
      = (({ Requeue := false }, some err), s1)) ∧
    (OperatorConditionReconciler.Reconcile c.recording req (s, [])).2.2
      = [{ call := Call.GetOperatorCondition req, ok := true }] := by
  have hnone : GetOwnerByKind oc.ObjectMeta ClusterServiceVersionKind = none := by
    unfold GetOwnerByKind
    apply List.find?_eq_none.mpr
    intro ref href
    simpa using hno ref href
  have hrec : c.recording.GetOperatorCondition req (s, [])
      = (Except.ok oc, (s1, [{ call := Call.GetOperatorCondition req, ok := true }])) := by
    simp [ReconcileClient.recording, hget, exceptOk]
  constructor
  · refine ⟨errNoCSVOwner, ?_⟩
    unfold OperatorConditionReconciler.Reconcile
    simp only [hget, hnone]
  · unfold OperatorConditionReconciler.Reconcile
    simp only [hrec, hnone]

/-- Witness for C19 on a client loading a condition without owner references. -/
theorem Reconcile_no_csv_owner_witness :
    (∃ err, OperatorConditionReconciler.Reconcile
        (scriptedReconcileClient exampleOrphanCondition Slice.nil) exampleRequest exampleStore
      = (({ Requeue := false }, some err), exampleStore)) ∧
    (OperatorConditionReconciler.Reconcile
        (scriptedReconcileClient exampleOrphanCondition Slice.nil).recording exampleRequest
        (exampleStore, [])).2.2
      = [{ call := Call.GetOperatorCondition exampleRequest, ok := true }] :=
  Reconcile_no_csv_owner (scriptedReconcileClient exampleOrphanCondition Slice.nil)
    exampleRequest exampleStore exampleStore exampleOrphanCondition rfl (by decide)

/-- C20: for a loaded OperatorCondition whose ClusterServiceVersion owner is `R`: an
error of the RBAC routine is returned as it is with requeue true, and no call of the
env-var sweep is issued; after a successful RBAC routine the sweep runs from the state
the routine left, and an error of the sweep is returned as it is with requeue true; when
both succeed the result is requeue false with a nil error. So requeue is true exactly
when one of the two returned an error, and a sweep call in the log means the RBAC
routine has succeeded. -/
theorem Reconcile_requeue {σ : Type} (c : ReconcileClient σ) (req : ObjectKey)
    (s s1 : σ) (oc : OperatorCondition) (R : OwnerReference)
    (hget : c.GetOperatorCondition req s = (Except.ok oc, s1))
    (hown : GetOwnerByKind oc.ObjectMeta ClusterServiceVersionKind = some R) :
    (∀ e, (ensureOperatorConditionRole c.toClient oc R s1).1 = some e →
      OperatorConditionReconciler.Reconcile c req s
        = (({ Requeue := true }, some e), (ensureOperatorConditionRole c.toClient oc R s1).2) ∧
      ∀ ev ∈ (OperatorConditionReconciler.Reconcile c.recording req (s, [])).2.2,
        ev.call.onSweep = false) ∧
    ((ensureOperatorConditionRole c.toClient oc R s1).1 = none →
      ∀ e, (ensureDeploymentEnvVars c oc R
          (ensureOperatorConditionRole c.toClient oc R s1).2).1 = some e →
        OperatorConditionReconciler.Reconcile c req s
          = (({ Requeue := true }, some e),
              (ensureDeploymentEnvVars c oc R
                (ensureOperatorConditionRole c.toClient oc R s1).2).2)) ∧
    ((ensureOperatorConditionRole c.toClient oc R s1).1 = none →
      (ensureDeploymentEnvVars c oc R
          (ensureOperatorConditionRole c.toClient oc R s1).2).1 = none →
        OperatorConditionReconciler.Reconcile c req s
          = (({ Requeue := false }, none),
              (ensureDeploymentEnvVars c oc R
                (ensureOperatorConditionRole c.toClient oc R s1).2).2)) ∧
    ((OperatorConditionReconciler.Reconcile c req s).1.1.Requeue = true ↔
      (ensureOperatorConditionRole c.toClient oc R s1).1 ≠ none ∨
        ((ensureOperatorConditionRole c.toClient oc R s1).1 = none ∧
          (ensureDeploymentEnvVars c oc R
            (ensureOperatorConditionRole c.toClient oc R s1).2).1 ≠ none)) ∧
    ((∃ ev ∈ (OperatorConditionReconciler.Reconcile c.recording req (s, [])).2.2,
        ev.call.onSweep = true) →
      (ensureOperatorConditionRole c.toClient oc R s1).1 = none) := by
  have hrec : c.recording.GetOperatorCondition req (s, [])
      = (Except.ok oc, (s1, [{ call := Call.GetOperatorCondition req, ok := true }])) := by
    simp [ReconcileClient.recording, hget, exceptOk]
  have hplain : OperatorConditionReconciler.Reconcile c req s
      = match ensureOperatorConditionRole c.toClient oc R s1 with
        | (some err, s2) => (({ Requeue := true }, some err), s2)
        | (none, s2) =>
          match ensureDeploymentEnvVars c oc R s2 with
          | (some err, s3) => (({ Requeue := true }, some err), s3)
          | (none, s3) => (({}, none), s3) := by
    unfold OperatorConditionReconciler.Reconcile
    simp only [hget, hown]
  have hfail : ∀ e, (ensureOperatorConditionRole c.toClient oc R s1).1 = some e →
      ∀ ev ∈ (OperatorConditionReconciler.Reconcile c.recording req (s, [])).2.2,
        ev.call.onSweep = false := by
    intro e he ev hev
    have hr := (ensureOperatorConditionRole_recording c.toClient oc R s1
      [{ call := Call.GetOperatorCondition req, ok := true }]).1
    rw [he] at hr
    have hlogeq : (OperatorConditionReconciler.Reconcile c.recording req (s, [])).2.2
        = (ensureOperatorConditionRole c.toClient.recording oc R
            (s1, [{ call := Call.GetOperatorCondition req, ok := true }])).2.2 := by
      unfold OperatorConditionReconciler.Reconcile
      simp only [hrec, hown]
      rw [show c.recording.toClient = c.toClient.recording from rfl]
      rcases hrun : ensureOperatorConditionRole c.toClient.recording oc R
          (s1, [{ call := Call.GetOperatorCondition req, ok := true }]) with ⟨r, s2, t2⟩
      rw [hrun] at hr
      simp only at hr
      subst hr
      rfl
    rw [hlogeq] at hev
    rcases ensureOperatorConditionRole_log_not_sweep c.toClient oc R s1 _ ev hev with h | h
    · rw [List.mem_singleton] at h
      subst h
      rfl
    · exact h
  rcases hrbac : ensureOperatorConditionRole c.toClient oc R s1 with ⟨r1, s2⟩
  rw [hrbac] at hplain hfail
  cases r1 with
  | some e1 =>
    simp only at hplain hfail
    refine ⟨?_, ?_, ?_, ?_, ?_⟩
    · intro e he
      have : e1 = e := by simpa using he
      subst this
      exact ⟨hplain, hfail e1 rfl⟩
    · intro h; simp at h
    · intro h; simp at h
    · rw [hplain]; simp
    · rintro ⟨ev, hev, hsw⟩
      have := hfail e1 rfl ev hev
      rw [this] at hsw
      exact absurd hsw (by decide)
  | none =>
    simp only at hplain
    rcases hsweep : ensureDeploymentEnvVars c oc R s2 with ⟨r2, s3⟩
    rw [hsweep] at hplain
    cases r2 with
    | some e2 =>
      simp only at hplain
      refine ⟨fun e he => by simp at he, ?_, ?_, ?_, fun _ => rfl⟩
      · intro _ e he
        have : e2 = e := by simpa using he
        subst this
        exact hplain
      · intro _ h; simp at h
      · rw [hplain]; simp
    | none =>
      simp only at hplain
      refine ⟨fun e he => by simp at he, ?_, ?_, ?_, fun _ => rfl⟩
      · intro _ e he; simp at he
      · intro _ _; exact hplain
      · rw [hplain]; simp

/-- Witness for C20: on a client refusing the Role create the reconcile returns the
refusal with requeue true; on the scripted client it returns requeue false and no
error. -/
theorem Reconcile_requeue_witness :
    OperatorConditionReconciler.Reconcile
        (refusingReconcileClient exampleCondition Slice.nil) exampleRequest exampleStore
      = (({ Requeue := true }, some { Reason := StatusReason.Unknown, Message := "forbidden" }),
          exampleStore) ∧
    (OperatorConditionReconciler.Reconcile
        (scriptedReconcileClient exampleCondition (Slice.mk [exampleDeployment "a"]))
        exampleRequest exampleStore).1
      = ({ Requeue := false }, none) :=
  ⟨((Reconcile_requeue (refusingReconcileClient exampleCondition Slice.nil) exampleRequest
      exampleStore exampleStore exampleCondition exampleOwner rfl (by decide)).1
      { Reason := StatusReason.Unknown, Message := "forbidden" } (by decide)).1,
   congrArg Prod.fst
    ((Reconcile_requeue
      (scriptedReconcileClient exampleCondition (Slice.mk [exampleDeployment "a"]))
      exampleRequest exampleStore exampleStore exampleCondition exampleOwner rfl
      (by decide)).2.2.1 (by decide) (by decide))⟩

/-- C21: when the listing of the deployments returns `D`: if the sweep returns no error,
it has issued exactly one update per deployment of `D` owned by `R`, in list order, and
no other update, and this is the case exactly when every call it issued succeeded; if it
returns an error, that error is the one of the first failing update, issued after the
updates of the owned deployments before it have succeeded, and no update follows it.
Every update is for an owned listed deployment, and the deployment it carries differs
from the listed one only in the env of its containers, each being `ensureEnvVar` of
`OPERATOR_CONDITION_NAME` set to the condition's name on the previous env: that variable
is there with that value, every entry of that name is it, and the other entries are as
before. -/
theorem ensureDeploymentEnvVars_sweep {σ : Type} (c : ReconcileClient σ)
    (oc : OperatorCondition) (R : OwnerReference) (s s0 : σ) (D : Slice Deployment)
    (hlist : c.ListDeployments oc.ObjectMeta.Namespace s = (Except.ok D, s0)) :
    (ensureDeploymentEnvVars c.recording oc R (s, [])).1 = (ensureDeploymentEnvVars c oc R s).1 ∧
    ((ensureDeploymentEnvVars c oc R s).1 = none →
      (ensureDeploymentEnvVars c.recording oc R (s, [])).2.2
        = { call := Call.ListDeployments oc.ObjectMeta.Namespace, ok := true } ::
            (ownedDeployments D R).map (sweepUpdate oc true)) ∧
    ((ensureDeploymentEnvVars c oc R s).1 = none ↔
      ∀ ev ∈ (ensureDeploymentEnvVars c.recording oc R (s, [])).2.2, ev.ok = true) ∧
    (∀ e, (ensureDeploymentEnvVars c oc R s).1 = some e →
      ∃ pre d post sk sk1, ownedDeployments D R = pre ++ d :: post ∧
        ensureDeploymentEnvVarsLoop c oc pre s0 = (none, sk) ∧
        c.UpdateDeployment (setConditionEnvVar oc d) sk = (some e, sk1) ∧
        ensureDeploymentEnvVars c oc R s = (some e, sk1) ∧
        (ensureDeploymentEnvVars c.recording oc R (s, [])).2.2
          = { call := Call.ListDeployments oc.ObjectMeta.Namespace, ok := true } ::
              (pre.map (sweepUpdate oc true) ++ [sweepUpdate oc false d])) ∧
    (∀ ev ∈ (ensureDeploymentEnvVars c.recording oc R (s, [])).2.2,
      ev.call = Call.ListDeployments oc.ObjectMeta.Namespace ∨
      ∃ d ∈ D.toList, OwnedBy d.ObjectMeta R ∧
        ev.call = Call.UpdateDeployment (setConditionEnvVar oc d)) ∧
    (∀ d : Deployment,
      (setConditionEnvVar oc d).ObjectMeta = d.ObjectMeta ∧
      (setConditionEnvVar oc d).Spec.Replicas = d.Spec.Replicas ∧
      (setConditionEnvVar oc d).Spec.Template.Spec.Containers.isNil
        = d.Spec.Template.Spec.Containers.isNil ∧
      (setConditionEnvVar oc d).Spec.Template.Spec.Containers.toList
        = d.Spec.Template.Spec.Containers.toList.map
            (fun container =>
              { container with Env := ensureEnvVar (conditionEnvVar oc) container.Env })) ∧
    (∀ env : Slice EnvVar,
      conditionEnvVar oc ∈ (ensureEnvVar (conditionEnvVar oc) env).toList ∧
      (∀ e ∈ (ensureEnvVar (conditionEnvVar oc) env).toList,
        e.Name = "OPERATOR_CONDITION_NAME" → e = conditionEnvVar oc) ∧
      (ensureEnvVar (conditionEnvVar oc) env).toList.filter
          (fun e => decide (e.Name ≠ "OPERATOR_CONDITION_NAME"))
        = env.toList.filter (fun e => decide (e.Name ≠ "OPERATOR_CONDITION_NAME"))) ∧
    (conditionEnvVar oc).Value = oc.ObjectMeta.Name := by
  have hrec : c.recording.ListDeployments oc.ObjectMeta.Namespace (s, [])
      = (Except.ok D, (s0, [{ call := Call.ListDeployments oc.ObjectMeta.Namespace,
                              ok := true }])) := by
    simp [ReconcileClient.recording, hlist, exceptOk]
  have hplain : ensureDeploymentEnvVars c oc R s
      = ensureDeploymentEnvVarsLoop c oc (ownedDeployments D R) s0 := by
    unfold ensureDeploymentEnvVars
    simp only [hlist, filterDeployments_owned, ownedDeployments]
  have hrecd : ensureDeploymentEnvVars c.recording oc R (s, [])
      = ensureDeploymentEnvVarsLoop c.recording oc (ownedDeployments D R)
          (s0, [{ call := Call.ListDeployments oc.ObjectMeta.Namespace, ok := true }]) := by
    unfold ensureDeploymentEnvVars
    simp only [hrec, filterDeployments_owned, ownedDeployments]
  obtain ⟨h1, _, h3, h4⟩ := ensureDeploymentEnvVarsLoop_log c oc (ownedDeployments D R) s0
    [{ call := Call.ListDeployments oc.ObjectMeta.Namespace, ok := true }]
  rw [hplain, hrecd]
  have hfail : ∀ e, (ensureDeploymentEnvVarsLoop c oc (ownedDeployments D R) s0).1 = some e →
      ∃ pre d post sk sk1, ownedDeployments D R = pre ++ d :: post ∧
        ensureDeploymentEnvVarsLoop c oc pre s0 = (none, sk) ∧
        c.UpdateDeployment (setConditionEnvVar oc d) sk = (some e, sk1) ∧
        ensureDeploymentEnvVarsLoop c oc (ownedDeployments D R) s0 = (some e, sk1) ∧
        (ensureDeploymentEnvVarsLoop c.recording oc (ownedDeployments D R)
            (s0, [{ call := Call.ListDeployments oc.ObjectMeta.Namespace, ok := true }])).2.2
          = { call := Call.ListDeployments oc.ObjectMeta.Namespace, ok := true } ::
              (pre.map (sweepUpdate oc true) ++ [sweepUpdate oc false d]) := by
    intro e he
    obtain ⟨pre, d, post, sk, sk1, ha, hb, hc, hd, hlog⟩ := h4 e he
    exact ⟨pre, d, post, sk, sk1, ha, hb, hc, hd, by rw [hlog]; simp⟩
  have hok : (ensureDeploymentEnvVarsLoop c oc (ownedDeployments D R) s0).1 = none →
      (ensureDeploymentEnvVarsLoop c.recording oc (ownedDeployments D R)
          (s0, [{ call := Call.ListDeployments oc.ObjectMeta.Namespace, ok := true }])).2.2
        = { call := Call.ListDeployments oc.ObjectMeta.Namespace, ok := true } ::
            (ownedDeployments D R).map (sweepUpdate oc true) := by
    intro h
    rw [h3 h]; simp
  have hmem : ∀ d ∈ ownedDeployments D R, d ∈ D.toList ∧ OwnedBy d.ObjectMeta R := by
    intro d hd
    simpa [ownedDeployments] using hd
  refine ⟨h1, hok, ⟨?_, ?_⟩, hfail, ?_, ?_, ?_, rfl⟩
  · intro h ev hev
    rw [hok h] at hev
    rcases List.mem_cons.mp hev with h | h
    · subst h; rfl
    · obtain ⟨d, _, hd⟩ := List.mem_map.mp h
      subst hd; rfl
  · intro hall
    cases he : (ensureDeploymentEnvVarsLoop c oc (ownedDeployments D R) s0).1 with
    | none => rfl
    | some e =>
      obtain ⟨pre, d, post, sk, sk1, _, _, _, _, hlog⟩ := hfail e he
      have := hall (sweepUpdate oc false d) (by rw [hlog]; simp)
      simp [sweepUpdate] at this
  · intro ev hev
    cases he : (ensureDeploymentEnvVarsLoop c oc (ownedDeployments D R) s0).1 with
    | none =>
      rw [hok he] at hev
      rcases List.mem_cons.mp hev with h | h
      · subst h; exact Or.inl rfl
      · obtain ⟨d, hd, hdd⟩ := List.mem_map.mp h
        subst hdd
        exact Or.inr ⟨d, (hmem d hd).1, (hmem d hd).2, rfl⟩
    | some e =>
      obtain ⟨pre, d, post, sk, sk1, ha, _, _, _, hlog⟩ := hfail e he
      rw [hlog] at hev
      rcases List.mem_cons.mp hev with h | h
      · subst h; exact Or.inl rfl
      · rcases List.mem_append.mp h with h | h
        · obtain ⟨d2, hd2, hdd⟩ := List.mem_map.mp h
          subst hdd
          have hin : d2 ∈ ownedDeployments D R := by rw [ha]; simp [hd2]
          exact Or.inr ⟨d2, (hmem d2 hin).1, (hmem d2 hin).2, rfl⟩
        · rw [List.mem_singleton] at h
          subst h
          have hin : d ∈ ownedDeployments D R := by rw [ha]; simp
          exact Or.inr ⟨d, (hmem d hin).1, (hmem d hin).2, rfl⟩
  · intro d
    exact ⟨rfl, rfl, Slice.mapInPlace_isNil _ _, Slice.mapInPlace_toList _ _⟩
  · intro env
    exact ⟨ensureEnvVar_mem _ _, ensureEnvVar_named (conditionEnvVar oc) env,
      ensureEnvVar_others (conditionEnvVar oc) env⟩

/-- Witness for C21 on the example listing: with every update accepted the three owned
deployments are updated in order and `b` is not; each container of an updated deployment
then carries the variable; with the update of `stale` failing the sweep returns the
conflict. -/
theorem ensureDeploymentEnvVars_sweep_witness :
    (ensureDeploymentEnvVars (scriptedReconcileClient exampleCondition exampleDeployments).recording
        exampleCondition exampleOwner (exampleStore, [])).2.2
      = { call := Call.ListDeployments "ns", ok := true } ::
          [exampleOwnedDeployment "a", exampleOwnedDeployment "stale",
            exampleOwnedDeployment "c"].map (sweepUpdate exampleCondition true) ∧
    (setConditionEnvVar exampleCondition (exampleOwnedDeployment "a")).Spec.Template.Spec.Containers.toList.map
        (fun container => container.Env)
      = [ Slice.mk
            [ { Name := "FOO", Value := "1" },
              { Name := "OPERATOR_CONDITION_NAME", Value := "etcd" } ],
          Slice.mk
            [ { Name := "OPERATOR_CONDITION_NAME", Value := "etcd" },
              { Name := "BAR", Value := "2" } ] ] ∧
    ensureDeploymentEnvVars (conflictingReconcileClient exampleCondition exampleDeployments)
        exampleCondition exampleOwner exampleStore
      = (some { Reason := StatusReason.Conflict, Message := "conflict" }, exampleStore) ∧
    (ensureDeploymentEnvVars
        (conflictingReconcileClient exampleCondition exampleDeployments).recording
        exampleCondition exampleOwner (exampleStore, [])).2.2
      = [ { call := Call.ListDeployments "ns", ok := true },
          sweepUpdate exampleCondition true (exampleOwnedDeployment "a"),
          sweepUpdate exampleCondition false (exampleOwnedDeployment "stale") ] :=
  ⟨(ensureDeploymentEnvVars_sweep (scriptedReconcileClient exampleCondition exampleDeployments)
      exampleCondition exampleOwner exampleStore exampleStore exampleDeployments rfl).2.1
      (by decide),
   by decide, by decide, by decide⟩

/-- C10, as the code has it: over any store that keeps the contract `StoreLaws` (listing
reads only, create fails with AlreadyExists on a present key, get returns the stored
object, update replaces it), if `ensureOperatorConditionRole` is run twice in succession
for the same OperatorCondition and owner reference and both runs succeed, then the store
state after the second run is the state after the first run exactly when the owned
service accounts of the second listing have, in list order, the names of those of the
first listing. In that case the writes of the second run are one update of the Role and
one update of the RoleBinding, each with the object the store already holds. -/
theorem ensureOperatorConditionRole_rerun_no_change {σ : Type} (c : Client σ)
    (HoldsRole : σ → Role → Prop) (HoldsRoleBinding : σ → RoleBinding → Prop)
    (hc : StoreLaws c HoldsRole HoldsRoleBinding)
    (oc : OperatorCondition) (R : OwnerReference) (s : σ)
    (items1 items2 : Slice ServiceAccount)
    (hl1 : (c.ListServiceAccounts oc.ObjectMeta.Namespace s).1 = Except.ok items1)
    (h1 : (ensureOperatorConditionRole c oc R s).1 = none)
    (hl2 : (c.ListServiceAccounts oc.ObjectMeta.Namespace
        (ensureOperatorConditionRole c oc R s).2).1 = Except.ok items2)
    (h2 : (ensureOperatorConditionRole c oc R (ensureOperatorConditionRole c oc R s).2).1
      = none) :
    ((ensureOperatorConditionRole c oc R (ensureOperatorConditionRole c oc R s).2).2
        = (ensureOperatorConditionRole c oc R s).2 ↔
      ownedNames items2 R = ownedNames items1 R) ∧
    (ownedNames items2 R = ownedNames items1 R →
      ∃ r w, HoldsRole (ensureOperatorConditionRole c oc R s).2 r ∧
        HoldsRoleBinding (ensureOperatorConditionRole c oc R s).2 w ∧
        (ensureOperatorConditionRole c.recording oc R
            ((ensureOperatorConditionRole c oc R s).2, [])).2.2
          = [ { call := Call.ListServiceAccounts oc.ObjectMeta.Namespace, ok := true },
              { call := Call.CreateRole (desiredRole oc R), ok := false },
              { call := Call.GetRole oc.ObjectMeta.key, ok := true },
              { call := Call.UpdateRole r, ok := true },
              { call := Call.CreateRoleBinding (roleBindingFor oc R items1), ok := false },
              { call := Call.GetRoleBinding oc.ObjectMeta.key, ok := true },
              { call := Call.UpdateRoleBinding w, ok := true } ]) := by
  have hlist1 : c.ListServiceAccounts oc.ObjectMeta.Namespace s = (Except.ok items1, s) :=
    Prod.ext hl1 (hc.list_state _ _)
  -- the first run
  have hrun1 : ensureOperatorConditionRole c oc R s
      = match ensureRole c (desiredRole oc R) s with
        | (some err, s2) => (some err, s2)
        | (none, s2) => ensureRoleBinding c (roleBindingFor oc R items1) s2 := by
    unfold ensureOperatorConditionRole
    simp only [hlist1]
    rfl
  rcases hrole : ensureRole c (desiredRole oc R) s with ⟨e1, sR⟩
  rw [hrole] at hrun1
  cases e1 with
  | some e =>
    rw [hrun1] at h1
    simp at h1
  | none =>
    simp only at hrun1
    rcases hbind : ensureRoleBinding c (roleBindingFor oc R items1) sR with ⟨e2, sF⟩
    rw [hbind] at hrun1
    rw [hrun1] at h1 hl2 h2 ⊢
    simp only at h1 hl2 h2 ⊢
    subst h1
    obtain ⟨r, hr, hrk, hru⟩ := ensureRole_settles hc (desiredRole oc R) s sR hrole
    obtain ⟨w, hw, hwk, hwu⟩ := ensureRoleBinding_settles hc (roleBindingFor oc R items1) sR sF
      hbind
    have hrF : HoldsRole sF r := by
      have := ensureRoleBinding_keeps_role hc (roleBindingFor oc R items1) sR r hr
      rw [hbind] at this
      exact this
    -- the second run
    have hlist2 : c.ListServiceAccounts oc.ObjectMeta.Namespace sF = (Except.ok items2, sF) :=
      Prod.ext hl2 (hc.list_state _ _)
    obtain ⟨hrole2, hrolelog⟩ := ensureRole_held hc (desiredRole oc R) r sF hrF hrk hru
    have hrun2 : ensureOperatorConditionRole c oc R sF
        = match ensureRole c (desiredRole oc R) sF with
          | (some err, s2) => (some err, s2)
          | (none, s2) => ensureRoleBinding c (roleBindingFor oc R items2) s2 := by
      unfold ensureOperatorConditionRole
      simp only [hlist2]
      rfl
    rw [hrole2] at hrun2
    cases hu1 : (c.UpdateRole r sF).1 with
    | some e =>
      rw [hu1] at hrun2
      rw [hrun2] at h2
      simp at h2
    | none =>
      rw [hu1] at hrun2
      simp only at hrun2
      have hstable : ownedNames items2 R = ownedNames items1 R →
          ensureOperatorConditionRole c oc R sF = (none, sF) ∧
          (ensureOperatorConditionRole c.recording oc R (sF, [])).2.2
            = [ { call := Call.ListServiceAccounts oc.ObjectMeta.Namespace, ok := true },
                { call := Call.CreateRole (desiredRole oc R), ok := false },
                { call := Call.GetRole oc.ObjectMeta.key, ok := true },
                { call := Call.UpdateRole r, ok := true },
                { call := Call.CreateRoleBinding (roleBindingFor oc R items1), ok := false },
                { call := Call.GetRoleBinding oc.ObjectMeta.key, ok := true },
                { call := Call.UpdateRoleBinding w, ok := true } ] := by
        intro hsame
        have hrb : roleBindingFor oc R items2 = roleBindingFor oc R items1 :=
          roleBindingFor_of_subjects oc R items1 items2
            ((roleBindingFor_eq_iff oc R items1 items2).mpr hsame)
        obtain ⟨hbind2, hbindlog⟩ := ensureRoleBinding_held hc (roleBindingFor oc R items1) w sF
          hw hwk hwu
        have hlog := ensureOperatorConditionRole_log c oc R sF sF items2 [] hlist2
        rw [show desiredRoleBinding oc R (desiredRole oc R)
            (buildSubjects (filterServiceAccounts items2 (hasOwnerFunc R)))
            = roleBindingFor oc R items1 from hrb, hrole2] at hlog
        dsimp only at hlog
        rw [hrolelog, hbindlog] at hlog
        rw [hrb, hbind2] at hrun2
        rw [hrun2] at h2 ⊢
        simp only at h2
        rw [h2, hu1] at hlog
        rw [h2]
        refine ⟨rfl, ?_⟩
        rw [hlog]
        simp
        exact ⟨rfl, rfl⟩
      refine ⟨⟨fun hsame => ?_, fun hsame => by rw [(hstable hsame).1]⟩,
        fun hsame => ⟨r, w, hrF, hw, (hstable hsame).2⟩⟩
      -- an unchanged state has the subjects of the second run stored already
      have hwk2 : w.ObjectMeta.key = (roleBindingFor oc R items2).ObjectMeta.key := hwk
      obtain ⟨hbind2, _⟩ := ensureRoleBinding_over_held hc (roleBindingFor oc R items2) w sF
        hw hwk2
      rw [hbind2] at hrun2
      rw [hrun2] at h2 hsame
      have hheld := hc.updateRoleBinding_holds
        (roleBindingUpdateOf w (roleBindingFor oc R items2)) sF sF (Prod.ext h2 hsame)
      have hget1 := hc.holdsRoleBinding_get sF w hw
      have hget2 := hc.holdsRoleBinding_get sF _ hheld
      have hkey : (roleBindingUpdateOf w (roleBindingFor oc R items2)).ObjectMeta.key
          = w.ObjectMeta.key := rfl
      rw [hkey, hget1] at hget2
      have hw2 : w = roleBindingUpdateOf w (roleBindingFor oc R items2) := by
        injection hget2 with h3 _
        injection h3
      have hs2 : w.Subjects = (roleBindingFor oc R items2).Subjects := by
        rw [hw2]
        rfl
      have hs1 : w.Subjects = (roleBindingFor oc R items1).Subjects := by
        rw [← hwu]
        rfl
      exact (roleBindingFor_eq_iff oc R items1 items2).mp (hs2.symm.trans hs1)

/-- Witness for C10 on the store with two owned accounts, served by the reference store,
whose listing is in store order both times: both runs succeed, and the second run
leaves the store as the first run left it. -/
theorem ensureOperatorConditionRole_rerun_no_change_witness :
    (storeClient.ListServiceAccounts exampleCondition.ObjectMeta.Namespace
        exampleTwoOwnedStore).1 = Except.ok (Slice.mk [exampleAccountA, exampleAccountB]) ∧
    (ensureOperatorConditionRole storeClient exampleCondition exampleOwner
        exampleTwoOwnedStore).1 = none ∧
    (storeClient.ListServiceAccounts exampleCondition.ObjectMeta.Namespace
        (ensureOperatorConditionRole storeClient exampleCondition exampleOwner
          exampleTwoOwnedStore).2).1 = Except.ok (Slice.mk [exampleAccountA, exampleAccountB]) ∧
    (ensureOperatorConditionRole storeClient exampleCondition exampleOwner
        (ensureOperatorConditionRole storeClient exampleCondition exampleOwner
          exampleTwoOwnedStore).2).1 = none ∧
    (ensureOperatorConditionRole storeClient exampleCondition exampleOwner
        (ensureOperatorConditionRole storeClient exampleCondition exampleOwner
          exampleTwoOwnedStore).2).2
      = (ensureOperatorConditionRole storeClient exampleCondition exampleOwner
          exampleTwoOwnedStore).2 :=
  ⟨rfl, by decide, rfl, by decide,
    (ensureOperatorConditionRole_rerun_no_change storeClient storeHoldsRole storeHoldsRoleBinding
      storeClient_laws exampleCondition exampleOwner exampleTwoOwnedStore
      (Slice.mk [exampleAccountA, exampleAccountB]) (Slice.mk [exampleAccountA, exampleAccountB])
      rfl (by decide) rfl (by decide)).1.mpr rfl⟩

/-- Counterexample to C10 as stated: section 6 gives a listing no order, and
`reorderingClient` is a store that keeps the contract `StoreLaws` (create fails with
AlreadyExists on a present key, update replaces the stored object) and lists the two
owned accounts as a-sa, b-sa for the first run and as b-sa, a-sa for the second. Both
runs succeed, the service accounts of the store are untouched and the two listings have
the same owned accounts, yet the state after the second run is not the state after the
first: the second run rewrites the subjects of the RoleBinding from a-sa, b-sa to
b-sa, a-sa. -/
theorem ensureOperatorConditionRole_reordered_listing_counterexample :
    StoreLaws reorderingClient storeHoldsRole storeHoldsRoleBinding ∧
    (reorderingClient.ListServiceAccounts exampleCondition.ObjectMeta.Namespace
        exampleTwoOwnedStore).1 = Except.ok (Slice.mk [exampleAccountA, exampleAccountB]) ∧
    (ensureOperatorConditionRole reorderingClient exampleCondition exampleOwner
        exampleTwoOwnedStore).1 = none ∧
    (ensureOperatorConditionRole reorderingClient exampleCondition exampleOwner
        exampleTwoOwnedStore).2.ServiceAccounts = exampleTwoOwnedStore.ServiceAccounts ∧
    (reorderingClient.ListServiceAccounts exampleCondition.ObjectMeta.Namespace
        (ensureOperatorConditionRole reorderingClient exampleCondition exampleOwner
          exampleTwoOwnedStore).2).1 = Except.ok (Slice.mk [exampleAccountB, exampleAccountA]) ∧
    (∀ sa, sa ∈ ownedServiceAccounts (Slice.mk [exampleAccountB, exampleAccountA]) exampleOwner ↔
      sa ∈ ownedServiceAccounts (Slice.mk [exampleAccountA, exampleAccountB]) exampleOwner) ∧
    (ensureOperatorConditionRole reorderingClient exampleCondition exampleOwner
        (ensureOperatorConditionRole reorderingClient exampleCondition exampleOwner
          exampleTwoOwnedStore).2).1 = none ∧
    (ensureOperatorConditionRole reorderingClient exampleCondition exampleOwner
        (ensureOperatorConditionRole reorderingClient exampleCondition exampleOwner
          exampleTwoOwnedStore).2).2
      ≠ (ensureOperatorConditionRole reorderingClient exampleCondition exampleOwner
          exampleTwoOwnedStore).2 ∧
    (ensureOperatorConditionRole reorderingClient exampleCondition exampleOwner
        exampleTwoOwnedStore).2.RoleBindings.map (fun w => w.Subjects)
      = [Slice.mk [subjectFor exampleAccountA, subjectFor exampleAccountB]] ∧
    (ensureOperatorConditionRole reorderingClient exampleCondition exampleOwner
        (ensureOperatorConditionRole reorderingClient exampleCondition exampleOwner
          exampleTwoOwnedStore).2).2.RoleBindings.map (fun w => w.Subjects)
      = [Slice.mk [subjectFor exampleAccountB, subjectFor exampleAccountA]] := by
  refine ⟨reorderingClient_laws, rfl, by decide, by decide, rfl, ?_, by decide, by decide,
    by decide, by decide⟩
  intro sa
  have h : ownedServiceAccounts (Slice.mk [exampleAccountB, exampleAccountA]) exampleOwner
      = (ownedServiceAccounts (Slice.mk [exampleAccountA, exampleAccountB]) exampleOwner).reverse := by
    decide
  rw [h]
  exact List.mem_reverse

end OLM
